import Mathlib

/-!
# GSC script-object reader: link patching, header validation, vtable reader

A shallow embedding of `src/acts/tools/gsc.cpp` (container readers,
`GSCOBJReader::PatchCode`, `T8GSCOBJContext`, `tool::gsc::DumpVTable`).

Conventions.
* The mapped blob (`byte* file`) is a byte memory addressed by the offset from
  `file`.  Machine integers are naturals; every store truncates to the width
  of the slot and every load reads the little-endian bytes of the slot.
* The table entry structs (`T8GSCImport`, `T8GSCString`, `T8GSCGlobalVar`,
  `IW23GSCImport`) and the header structs are declared in `tools/gsc.hpp`,
  outside the files embedded here.  The reader therefore exposes each table as
  the list of its decoded entries, in table order, each entry carrying its
  trailing `uint32_t[num_address]` fixup list.
-/

namespace GSC

/-! ## Byte memory -/

/-- The blob as a byte memory: offset from `file` to the byte stored there. -/
abbrev Mem := Nat → Nat

/-- Load of a `byte` at `file + o` (`Ref<byte>(o)` as an rvalue). -/
def readU8 (m : Mem) (o : Nat) : Nat := m o % 256

/-- Store of a `byte` at `file + o` (`Ref<byte>(o) = v`). -/
def writeU8 (m : Mem) (o v : Nat) : Mem := fun a => if a = o then v % 256 else m a

/-- Little-endian load of a `uint16_t` at `file + o`. -/
def readU16 (m : Mem) (o : Nat) : Nat := readU8 m o + 256 * readU8 m (o + 1)

/-- Little-endian store of a `uint16_t` at `file + o`. -/
def writeU16 (m : Mem) (o v : Nat) : Mem := writeU8 (writeU8 m o v) (o + 1) (v / 256)

/-- Little-endian load of a `uint32_t` at `file + o`. -/
def readU32 (m : Mem) (o : Nat) : Nat := readU16 m o + 65536 * readU16 m (o + 2)

/-- Little-endian store of a `uint32_t` at `file + o`. -/
def writeU32 (m : Mem) (o v : Nat) : Mem := writeU16 (writeU16 m o v) (o + 2) (v / 65536)

/-- Little-endian load of a `uint64_t` at `file + o`. -/
def readU64 (m : Mem) (o : Nat) : Nat := readU32 m o + 4294967296 * readU32 m (o + 4)

/-! ## Container readers: header validation -/

/-- The four container readers registered in `gscReaders`. -/
inductive Reader where
  | T8
  | T937
  | T9
  | MW23
  deriving DecidableEq, Repr

/-- The 64-bit constant each reader compares the first eight bytes with
(`T8GSCOBJReader`, `T937GSCOBJReader`, `T9GSCOBJReader`, `MW23GSCOBJReader`,
each in its `IsValidHeader`). -/
def Reader.magic : Reader → Nat
  | .T8 => 0x36000a0d43534780
  | .T937 => 0x37000a0d43534780
  | .T9 => 0x38000a0d43534780
  | .MW23 => 0xa0d4353478a

/-- Byte `i` of the magic as it lies in the file (little-endian). -/
def Reader.magicByte (r : Reader) (i : Nat) : Nat := r.magic / 256 ^ i % 256

/-- `IsValidHeader(size)`:
`size >= sizeof(Header) && *reinterpret_cast<uint64_t*>(file) == magic`.
`headerSize` is `sizeof` of the reader's header struct (`T8GSCOBJ`, `T937GSCOBJ`,
`T9GSCOBJ`, `GscObj23`), whose declarations are in `tools/gsc.hpp`. -/
def IsValidHeader (r : Reader) (headerSize : Nat) (file : Mem) (size : Nat) : Bool :=
  decide (size ≥ headerSize) && decide (readU64 file 0 = r.magic)

/-! ## Link patching -/

/-- Modelled from the spec: `PtrAlign<AlignType, Type>` and `ASMContext::Aligned<Type>`
are declared in `tools/gsc.hpp` / `tools/gsc_opcodes.hpp`, outside the files embedded
here.  Per the spec's alignment rule ("advance cursor to next multiple of N,
then read"), with the blob mapped at an `a`-aligned address, the aligned pointer is
the offset rounded up to the next multiple of `a`. -/
def alignUp (a n : Nat) : Nat := (n + (a - 1)) / a * a

/-- The enumerators of `T8GSCImportFlags` used by `PatchCode`.  The enum is declared
in `tools/gsc.hpp`, outside the files embedded here, so its values are a parameter. -/
structure T8GSCImportFlags where
  FUNC_METHOD : Nat
  FUNCTION : Nat
  FUNCTION_THREAD : Nat
  FUNCTION_CHILDTHREAD : Nat
  METHOD : Nat
  METHOD_THREAD : Nat
  METHOD_CHILDTHREAD : Nat
  CALLTYPE_MASK : Nat
  GET_CALL : Nat

/-- Import table entry of the Treyarch family, with its trailing fixup list
(`imports[0 .. num_address)`). -/
structure T8GSCImport where
  name : Nat
  import_namespace : Nat
  param_count : Nat
  flags : Nat
  fixups : List Nat
  deriving DecidableEq, Repr

/-- Import table entry of the wide-hash family, with its trailing fixup list. -/
structure IW23GSCImport where
  name : Nat
  name_space : Nat
  param_count : Nat
  flags : Nat
  fixups : List Nat
  deriving DecidableEq, Repr

/-- Global-variable table entry, with its trailing fixup list. -/
structure T8GSCGlobalVar where
  name : Nat
  fixups : List Nat
  deriving DecidableEq, Repr

/-- String table entry (`string` is the offset of the literal), with its trailing
fixup list. -/
structure T8GSCString where
  string : Nat
  fixups : List Nat
  deriving DecidableEq, Repr

/-- Single-animtree table entry (`address` is the offset of the name), with its
trailing fixup list. -/
structure GSC_USEANIMTREE_ITEM where
  address : Nat
  fixups : List Nat
  deriving DecidableEq, Repr

/-- Double-animtree table entry, with its trailing fixup list. -/
structure GSC_ANIMTREE_ITEM where
  address_str1 : Nat
  address_str2 : Nat
  fixups : List Nat
  deriving DecidableEq, Repr

/-- `m[k] = v` on a `std::unordered_map` kept as an association list. -/
def mapSet {V : Type} : List (Nat × V) → Nat → V → List (Nat × V)
  | [], k, v => [(k, v)]
  | (k', v') :: t, k, v => if k' = k then (k, v) :: t else (k', v') :: mapSet t k v

/-- `m.find(k)` on a `std::unordered_map` kept as an association list. -/
def mapFind {V : Type} : List (Nat × V) → Nat → Option V
  | [], _ => none
  | (k', v') :: t, k => if k' = k then some v' else mapFind t k

/-- The part of `T8GSCOBJContext` that link patching fills.  A string value is the
`const char*` stored in the map, kept as its offset in the blob. -/
structure T8GSCOBJContext where
  m_gvars : List (Nat × Nat)
  m_stringRefs : List (Nat × Nat)
  m_linkedImports : List IW23GSCImport

/-- The context as `GscInfoHandleData` creates it (`T8GSCOBJContext ctx{}`). -/
def T8GSCOBJContext.fresh : T8GSCOBJContext := ⟨[], [], []⟩

/-- `T8GSCOBJContext::GetGlobalVarName`. -/
def T8GSCOBJContext.GetGlobalVarName (ctx : T8GSCOBJContext) (gvarRef : Nat) : Nat :=
  match mapFind ctx.m_gvars gvarRef with
  | none => 0
  | some v => v

/-- `T8GSCOBJContext::GetStringValue` (`none` is `nullptr`). -/
def T8GSCOBJContext.GetStringValue (ctx : T8GSCOBJContext) (stringRef : Nat) : Option Nat :=
  mapFind ctx.m_stringRefs stringRef

/-- `T8GSCOBJContext::AddGlobalVarName`: returns the id and the updated context. -/
def T8GSCOBJContext.AddGlobalVarName (ctx : T8GSCOBJContext) (value : Nat) :
    Nat × T8GSCOBJContext :=
  let id := ctx.m_gvars.length % 65536
  (id, { ctx with m_gvars := mapSet ctx.m_gvars id value })

/-- `T8GSCOBJContext::AddStringValue`: returns the id and the updated context. -/
def T8GSCOBJContext.AddStringValue (ctx : T8GSCOBJContext) (value : Nat) :
    Nat × T8GSCOBJContext :=
  let id := ctx.m_stringRefs.length % 4294967296
  (id, { ctx with m_stringRefs := mapSet ctx.m_stringRefs id value })

/-- The tables `PatchCode` walks, decoded beforehand: the tables behind the
`Get*Offset` / `Get*Count` getters as entry lists, the two virtual hooks, and the
header's file size.  The import table is decoded as `T8GSCImport` on the Treyarch path
and as `IW23GSCImport` on the wide-hash path.  `PatchCode` itself reads every entry, its
`num_address` and every fixup slot from the blob while it patches it (`PatchCodeBlob`);
`decodeReader` gives the lists a blob holds before patching. -/
structure GSCOBJReader where
  imports : List T8GSCImport
  imports64 : List IW23GSCImport
  gvars : List T8GSCGlobalVar
  strings : List T8GSCString
  GetAnimTreeSingleOffset : Nat
  animTreeSingle : List GSC_USEANIMTREE_ITEM
  GetAnimTreeDoubleOffset : Nat
  animTreeDouble : List GSC_ANIMTREE_ITEM
  RemapFlagsImport : Nat → Nat
  DecryptString : Nat → Nat
  GetFileSize : Nat

/-- Body of the single-animtree loop of `PatchCode` (lines 338-353). -/
def patchAnimTreeSingle (s : Mem × T8GSCOBJContext) (unk2c : GSC_USEANIMTREE_ITEM) :
    Mem × T8GSCOBJContext :=
  let (ref, ctx) := s.2.AddStringValue unk2c.address
  if ref > 256 then
    (s.1, ctx)
  else
    (unk2c.fixups.foldl (fun m o => writeU8 m o ref) s.1, ctx)

/-- Body of the string loop of `PatchCode` (lines 361-374 and 486-498). -/
def patchString (r : GSCOBJReader) (s : Mem × T8GSCOBJContext) (str : T8GSCString) :
    Mem × T8GSCOBJContext :=
  let cstr := r.DecryptString str.string
  let (ref, ctx) := s.2.AddStringValue cstr
  (str.fixups.foldl (fun m o => writeU32 m o ref) s.1, ctx)

/-- Body of the inner import loop of `PatchCode` on the wide-hash path
(lines 385-388). -/
def patchImport64Site (imp : IW23GSCImport) (s : Mem × T8GSCOBJContext) (o : Nat) :
    Mem × T8GSCOBJContext :=
  let idx := s.2.m_linkedImports.length
  (writeU16 s.1 o idx, { s.2 with m_linkedImports := s.2.m_linkedImports ++ [imp] })

/-- Body of the outer import loop of `PatchCode` on the wide-hash path. -/
def patchImport64 (s : Mem × T8GSCOBJContext) (imp : IW23GSCImport) :
    Mem × T8GSCOBJContext :=
  imp.fixups.foldl (patchImport64Site imp) s

/-- Body of the double-animtree loop of `PatchCode` (lines 397-414). -/
def patchAnimTreeDouble (s : Mem × T8GSCOBJContext) (animt : GSC_ANIMTREE_ITEM) :
    Mem × T8GSCOBJContext :=
  let (ref1, ctx1) := s.2.AddStringValue animt.address_str1
  let (ref2, ctx2) := ctx1.AddStringValue animt.address_str2
  (animt.fixups.foldl (fun m o => writeU32 (writeU32 m o ref1) (o + 4) ref2) s.1, ctx2)

/-- The `switch (remapedFlags & CALLTYPE_MASK)` of `PatchCode` (lines 432-451):
the byte store it performs and the `loc` it selects (`none` is `nullptr`). -/
def importLoc (F : T8GSCImportFlags) (remapedFlags : Nat) (imp : T8GSCImport)
    (m : Mem) (o : Nat) : Mem × Option Nat :=
  let k := remapedFlags &&& F.CALLTYPE_MASK
  if k = F.FUNC_METHOD then
    (m, some (alignUp 8 (o + 2)))
  else if k = F.FUNCTION ∨ k = F.FUNCTION_THREAD ∨ k = F.FUNCTION_CHILDTHREAD ∨
      k = F.METHOD ∨ k = F.METHOD_THREAD ∨ k = F.METHOD_CHILDTHREAD then
    (writeU8 m (o + 2) imp.param_count, some (alignUp 8 (o + 2 + 1)))
  else
    (m, none)

/-- Body of the inner import loop of `PatchCode` on the Treyarch path
(lines 429-463), for the fixup `o = imports[j]`. -/
def patchImportSite (F : T8GSCImportFlags) (remap : Nat → Nat) (imp : T8GSCImport)
    (m : Mem) (o : Nat) : Mem :=
  let remapedFlags := remap imp.flags
  match importLoc F remapedFlags imp m o with
  | (m1, none) => m1
  | (m1, some loc) =>
    let m2 := writeU32 m1 loc imp.name
    if remapedFlags &&& F.GET_CALL ≠ 0 then
      writeU32 m2 (loc + 4) 0xc1243180
    else
      writeU32 m2 (loc + 4) imp.import_namespace

/-- Body of the outer import loop of `PatchCode` on the Treyarch path. -/
def patchImport (F : T8GSCImportFlags) (remap : Nat → Nat) (m : Mem) (imp : T8GSCImport) :
    Mem :=
  imp.fixups.foldl (patchImportSite F remap imp) m

/-- Body of the global-variable loop of `PatchCode` (lines 471-479). -/
def patchGlobalVar (s : Mem × T8GSCOBJContext) (globalvar : T8GSCGlobalVar) :
    Mem × T8GSCOBJContext :=
  let (ref, ctx) := s.2.AddGlobalVarName globalvar.name
  (globalvar.fixups.foldl (fun m o => writeU16 m o ref) s.1, ctx)

/-- `GSCOBJReader::PatchCode` over tables decoded beforehand: what `PatchCodeBlob`
does when no store lands on a header field or a table it reads
(`PatchCodeBlob_eq_PatchCode`).  `hash64` is `ctx.m_vmInfo->flags & VMF_HASH64`.  The
calls into the hash dictionary (`hashutils::Add`) and the string dump store touch
neither the blob nor the context and are left out. -/
def PatchCode (hash64 : Bool) (F : T8GSCImportFlags) (r : GSCOBJReader)
    (s : Mem × T8GSCOBJContext) : Mem × T8GSCOBJContext :=
  if hash64 then
    let s1 := if r.GetAnimTreeSingleOffset ≠ 0 then
      r.animTreeSingle.foldl patchAnimTreeSingle s else s
    let s2 := r.strings.foldl (patchString r) s1
    let s3 := r.imports64.foldl patchImport64 s2
    if r.GetAnimTreeDoubleOffset ≠ 0 then
      r.animTreeDouble.foldl patchAnimTreeDouble s3
    else s3
  else
    let m1 := r.imports.foldl (patchImport F r.RemapFlagsImport) s.1
    let s2 := r.gvars.foldl patchGlobalVar (m1, s.2)
    r.strings.foldl (patchString r) s2

/-- The values of `T8GSCImportFlags` in `tools/gsc.hpp`, used for concrete runs. -/
def importFlags : T8GSCImportFlags where
  FUNC_METHOD := 1
  FUNCTION := 2
  FUNCTION_THREAD := 3
  FUNCTION_CHILDTHREAD := 4
  METHOD := 5
  METHOD_THREAD := 6
  METHOD_CHILDTHREAD := 7
  CALLTYPE_MASK := 0xF
  GET_CALL := 0x20

/-- `MW23GSCOBJReader::RemapFlagsImport` (`byte` arithmetic). -/
def MW23RemapFlagsImport (F : T8GSCImportFlags) (flags : Nat) : Nat :=
  let k := flags &&& 0xF
  let nflags :=
    if k = 5 then F.FUNC_METHOD
    else if k = 4 then F.FUNCTION
    else if k = 2 then F.FUNCTION_THREAD
    else if k = 1 then F.FUNCTION_CHILDTHREAD
    else if k = 3 ∨ k = 6 ∨ k = 7 then F.FUNCTION
    else if k = 8 ∨ k = 0xA then F.FUNCTION
    else if k = 9 ∨ k = 0xB then F.METHOD
    else flags &&& 0xF
  (nflags ||| (flags &&& (0xFF - 0xF))) % 256

/-- The remapped call-kind code `k` is one of the six kinds of the second `case`
group of the switch (every known kind but `FUNC_METHOD`). -/
def T8GSCImportFlags.isCall (F : T8GSCImportFlags) (k : Nat) : Prop :=
  k = F.FUNCTION ∨ k = F.FUNCTION_THREAD ∨ k = F.FUNCTION_CHILDTHREAD ∨
    k = F.METHOD ∨ k = F.METHOD_THREAD ∨ k = F.METHOD_CHILDTHREAD

instance (F : T8GSCImportFlags) (k : Nat) : Decidable (F.isCall k) := by
  unfold T8GSCImportFlags.isCall; infer_instance

/-- The remapped call-kind code `k` is one of the seven known kinds. -/
def T8GSCImportFlags.isKnown (F : T8GSCImportFlags) (k : Nat) : Prop :=
  k = F.FUNC_METHOD ∨ F.isCall k

instance (F : T8GSCImportFlags) (k : Nat) : Decidable (F.isKnown k) := by
  unfold T8GSCImportFlags.isKnown; infer_instance

/-! ## Stores performed by link patching -/

/-- A `w`-byte little-endian store of `v` at `file + o`, given pointwise. -/
def writeLE (m : Mem) (o w v : Nat) : Mem :=
  fun a => if o ≤ a ∧ a < o + w then v / 256 ^ (a - o) % 256 else m a

/-- One store of `PatchCode`: `width` bytes of `value` at offset `off`. -/
structure Store where
  off : Nat
  width : Nat
  value : Nat
  deriving DecidableEq, Repr

/-- Performing a store. -/
def Store.apply (m : Mem) (s : Store) : Mem := writeLE m s.off s.width s.value

/-- Performing a sequence of stores in order. -/
def applyStores (m : Mem) (l : List Store) : Mem := l.foldl Store.apply m

/-- The byte `a` lies in the region a store rewrites. -/
def Store.covers (s : Store) (a : Nat) : Prop := s.off ≤ a ∧ a < s.off + s.width

instance (s : Store) (a : Nat) : Decidable (s.covers a) := by
  unfold Store.covers; infer_instance

/-- Two stores rewrite disjoint regions. -/
def Store.disjoint (s t : Store) : Prop :=
  s.off + s.width ≤ t.off ∨ t.off + t.width ≤ s.off

instance (s t : Store) : Decidable (s.disjoint t) := by
  unfold Store.disjoint; infer_instance

/-- The region a store rewrites lies in `[0, fileSize)`. -/
def Store.inRange (fileSize : Nat) (s : Store) : Prop := s.off + s.width ≤ fileSize

instance (n : Nat) (s : Store) : Decidable (s.inRange n) := by
  unfold Store.inRange; infer_instance

/-- Running a table loop while collecting the stores of each entry instead of
performing them: `f ctx e` gives the stores of entry `e` and the context after it. -/
def tracePhase {E : Type} (f : T8GSCOBJContext → E → List Store × T8GSCOBJContext) :
    T8GSCOBJContext → List E → List Store × T8GSCOBJContext
  | ctx, [] => ([], ctx)
  | ctx, e :: t =>
    let r1 := f ctx e
    let r2 := tracePhase f r1.2 t
    (r1.1 ++ r2.1, r2.2)

/-- Stores and context effect of `patchAnimTreeSingle`. -/
def storesAnimTreeSingle (ctx : T8GSCOBJContext) (unk2c : GSC_USEANIMTREE_ITEM) :
    List Store × T8GSCOBJContext :=
  let (ref, ctx1) := ctx.AddStringValue unk2c.address
  if ref > 256 then ([], ctx1) else (unk2c.fixups.map (fun o => ⟨o, 1, ref⟩), ctx1)

/-- Stores and context effect of `patchString`. -/
def storesString (r : GSCOBJReader) (ctx : T8GSCOBJContext) (str : T8GSCString) :
    List Store × T8GSCOBJContext :=
  let (ref, ctx1) := ctx.AddStringValue (r.DecryptString str.string)
  (str.fixups.map (fun o => ⟨o, 4, ref⟩), ctx1)

/-- Stores and context effect of the inner wide-hash import loop over the fixups. -/
def storesImport64Sites (imp : IW23GSCImport) :
    T8GSCOBJContext → List Nat → List Store × T8GSCOBJContext
  | ctx, [] => ([], ctx)
  | ctx, o :: t =>
    let r2 := storesImport64Sites imp
      { ctx with m_linkedImports := ctx.m_linkedImports ++ [imp] } t
    (⟨o, 2, ctx.m_linkedImports.length⟩ :: r2.1, r2.2)

/-- Stores and context effect of `patchImport64`. -/
def storesImport64 (ctx : T8GSCOBJContext) (imp : IW23GSCImport) :
    List Store × T8GSCOBJContext :=
  storesImport64Sites imp ctx imp.fixups

/-- Stores and context effect of `patchAnimTreeDouble`. -/
def storesAnimTreeDouble (ctx : T8GSCOBJContext) (animt : GSC_ANIMTREE_ITEM) :
    List Store × T8GSCOBJContext :=
  let (ref1, ctx1) := ctx.AddStringValue animt.address_str1
  let (ref2, ctx2) := ctx1.AddStringValue animt.address_str2
  ((animt.fixups.map (fun o => [(⟨o, 4, ref1⟩ : Store), ⟨o + 4, 4, ref2⟩])).flatten, ctx2)

/-- Stores of `patchImportSite`. -/
def storesImportSite (F : T8GSCImportFlags) (remap : Nat → Nat) (imp : T8GSCImport)
    (o : Nat) : List Store :=
  let remapedFlags := remap imp.flags
  let k := remapedFlags &&& F.CALLTYPE_MASK
  let ns := if remapedFlags &&& F.GET_CALL ≠ 0 then 0xc1243180 else imp.import_namespace
  if k = F.FUNC_METHOD then
    [⟨alignUp 8 (o + 2), 4, imp.name⟩, ⟨alignUp 8 (o + 2) + 4, 4, ns⟩]
  else if F.isCall k then
    [⟨o + 2, 1, imp.param_count⟩, ⟨alignUp 8 (o + 3), 4, imp.name⟩,
      ⟨alignUp 8 (o + 3) + 4, 4, ns⟩]
  else []

/-- Stores of `patchImport` (the context is not touched). -/
def storesImport (F : T8GSCImportFlags) (remap : Nat → Nat) (ctx : T8GSCOBJContext)
    (imp : T8GSCImport) : List Store × T8GSCOBJContext :=
  ((imp.fixups.map (storesImportSite F remap imp)).flatten, ctx)

/-- Stores and context effect of `patchGlobalVar`. -/
def storesGlobalVar (ctx : T8GSCOBJContext) (globalvar : T8GSCGlobalVar) :
    List Store × T8GSCOBJContext :=
  let (ref, ctx1) := ctx.AddGlobalVarName globalvar.name
  (globalvar.fixups.map (fun o => ⟨o, 2, ref⟩), ctx1)

/-- The stores `PatchCode` performs over tables decoded beforehand, in order, and the
context it leaves. -/
def PatchCodeStores (hash64 : Bool) (F : T8GSCImportFlags) (r : GSCOBJReader)
    (ctx : T8GSCOBJContext) : List Store × T8GSCOBJContext :=
  if hash64 then
    let t1 := if r.GetAnimTreeSingleOffset ≠ 0 then
      tracePhase storesAnimTreeSingle ctx r.animTreeSingle else ([], ctx)
    let t2 := tracePhase (storesString r) t1.2 r.strings
    let t3 := tracePhase storesImport64 t2.2 r.imports64
    let t4 := if r.GetAnimTreeDoubleOffset ≠ 0 then
      tracePhase storesAnimTreeDouble t3.2 r.animTreeDouble else ([], t3.2)
    (t1.1 ++ (t2.1 ++ (t3.1 ++ t4.1)), t4.2)
  else
    let t1 := tracePhase (storesImport F r.RemapFlagsImport) ctx r.imports
    let t2 := tracePhase storesGlobalVar t1.2 r.gvars
    let t3 := tracePhase (storesString r) t2.2 r.strings
    (t1.1 ++ (t2.1 ++ t3.1), t3.2)

/-- The keys of an id map are `0 .. size-1` in insertion order: what the two `Add*`
functions maintain from the empty map. -/
def Dense {V : Type} (m : List (Nat × V)) : Prop := m.map Prod.fst = List.range m.length

/-- Number of fixups the wide-hash import table lists in total. -/
def totalFixups64 (es : List IW23GSCImport) : Nat := (es.map (fun i => i.fixups.length)).sum

/-! ## Sample tables and imports -/

/-- The opcode ids (`OPCodeInfo::m_id`) that `DumpVTable` tests; every other id of the
`OPCode` enum is `OPCODE_Other`. -/
inductive OPCode where
  | OPCODE_CheckClearParams
  | OPCODE_PreScriptCall
  | OPCODE_ScriptFunctionCall
  | OPCODE_CallBuiltinFunction
  | OPCODE_End
  | OPCODE_GetResolveFunction
  | OPCODE_GetZero
  | OPCODE_GetNegUnsignedInteger
  | OPCODE_GetNegUnsignedShort
  | OPCODE_GetNegByte
  | OPCODE_GetByte
  | OPCODE_GetInteger
  | OPCODE_GetLongInteger
  | OPCODE_GetUnsignedInteger
  | OPCODE_GetUnsignedShort
  | OPCODE_Other (id : Nat)
  deriving DecidableEq, Repr

/-- The class record filled by the vtable reader: namespace, superclass set, ordered
method list, and the vtable map `uid ↦ (name, nsp)`. -/
structure gscclass where
  name_space : Nat
  m_superClass : List Nat
  m_methods : List Nat
  m_vtable : List (Nat × (Nat × Nat))
  deriving DecidableEq, Repr

/-- A default-constructed class record (what `m_classes[name]` creates). -/
def gscclass.empty : gscclass := ⟨0, [], [], []⟩

/-- `set.emplace(x)`: insertion into a set kept as a duplicate-free list. -/
def setEmplace (s : List Nat) (x : Nat) : List Nat := if x ∈ s then s else s ++ [x]

/-- A line `DumpVTable` writes to `out`. -/
inductive VTableLine where
  /-- `Bad vtable opcode: <code>[, expected ...]`. -/
  | bad (code : Nat) (expected : String)
  /-- `Bad vtable opcode: <name>, excepted Getter`. -/
  | badGetter (op : OPCode)
  /-- `0x<uid> -> &<class>::<method>;`. -/
  | entry (uid cls method : Nat)
  /-- `// class <name> [: <superclasses>]`. -/
  | classHeader (name : Nat) (superClass : List Nat)
  deriving DecidableEq, Repr

/-- The diagnostic lines are the `Bad vtable opcode` ones. -/
def VTableLine.isDiagnostic : VTableLine → Bool
  | .bad _ _ => true
  | .badGetter _ => true
  | .entry _ _ _ => false
  | .classHeader _ _ => false

/-- Number of diagnostic lines in an output. -/
def diagnosticCount (out : List VTableLine) : Nat := out.countP VTableLine.isDiagnostic

/-- `ctx.Aligned<T>() += w` on the cursor `m_bcl` (an offset in the blob):
align to `a = sizeof(T)`, then advance by `w`. -/
def skipAligned (a w bcl : Nat) : Nat := alignUp a bcl + w

/-- Sign extension of a 32-bit pattern to 64 bits (`int32_t` converted to `uint64_t`). -/
def signExtend32 (v : Nat) : Nat :=
  if v % 4294967296 < 2147483648 then v % 4294967296
  else v % 4294967296 + (18446744073709551616 - 4294967296)

/-- The `switch (uidCodeOpCode->m_id)` of `DumpVTable` (lines 2213-2252): the uid and
the cursor after the operand, `none` for the `default` case.  The negation of an
`int32_t` is taken with two's-complement wrap-around. -/
def readUid (mem : Mem) (op : OPCode) (bcl : Nat) : Option (Nat × Nat) :=
  match op with
  | .OPCODE_GetZero => some (0, bcl)
  | .OPCODE_GetNegUnsignedInteger =>
    some (signExtend32 ((4294967296 - readU32 mem (alignUp 4 bcl)) % 4294967296),
      alignUp 4 bcl + 4)
  | .OPCODE_GetNegUnsignedShort =>
    some ((18446744073709551616 - readU16 mem (alignUp 2 bcl)) % 18446744073709551616,
      alignUp 2 bcl + 2)
  | .OPCODE_GetNegByte =>
    some ((18446744073709551616 - readU8 mem (alignUp 1 bcl)) % 18446744073709551616,
      alignUp 1 bcl + 1)
  | .OPCODE_GetByte => some (readU8 mem (alignUp 1 bcl), alignUp 1 bcl + 1)
  | .OPCODE_GetInteger => some (signExtend32 (readU32 mem (alignUp 4 bcl)), alignUp 4 bcl + 4)
  | .OPCODE_GetLongInteger => some (readU64 mem (alignUp 8 bcl), alignUp 8 bcl + 8)
  | .OPCODE_GetUnsignedInteger => some (readU32 mem (alignUp 4 bcl), alignUp 4 bcl + 4)
  | .OPCODE_GetUnsignedShort => some (readU16 mem (alignUp 2 bcl), alignUp 2 bcl + 2)
  | _ => none

/-- The instructions `DumpVTable` steps over after the uid getter of a group
(lines 2267-2283). -/
def skipGroupTail (vm : Reader) (bcl : Nat) : Nat :=
  let bcl := skipAligned 2 2 bcl
  let bcl := skipAligned 2 2 bcl
  let bcl := skipAligned 2 2 bcl
  let bcl := skipAligned 4 4 bcl
  let bcl := skipAligned 2 2 bcl
  let bcl := skipAligned 2 2 bcl
  let bcl := skipAligned 2 2 bcl
  let bcl := skipAligned 4 4 bcl
  if vm ≠ Reader.T8 then
    skipAligned 2 2 bcl
  else
    skipAligned 2 2 (skipAligned 2 2 bcl)

/-- What one turn of the `while (true)` loop of `DumpVTable` does. -/
inductive VTableStep where
  /-- `return -1` after writing the line. -/
  | error (line : VTableLine)
  /-- The dereference of the null `uidCodeOpCode` at line 2207. -/
  | crash
  /-- `break` on `End`. -/
  | finished (bcl : Nat)
  /-- The entry was registered; the loop goes on. -/
  | next (bcl : Nat) (cls : gscclass) (line : VTableLine)
  deriving DecidableEq, Repr

/-- Registration of one entry (lines 2254-2262). -/
def registerEntry (name : Nat) (cls : gscclass) (methodName methodClsName uid : Nat) :
    gscclass :=
  let cls1 : gscclass :=
    if methodClsName = name then
      { cls with m_methods := cls.m_methods ++ [methodName] }
    else
      { cls with m_superClass := setEmplace cls.m_superClass methodClsName }
  { cls1 with m_vtable := mapSet cls1.m_vtable uid (methodName, methodClsName) }

/-- One turn of the `while (true)` loop of `DumpVTable` (lines 2174-2283).
`lookup` is `ctx.LookupOpCode` (`none` is a null handler), `name` the class name read
in the prologue. -/
def vtableEntry (lookup : Nat → Option OPCode) (vm : Reader) (mem : Mem) (name : Nat)
    (bcl : Nat) (cls : gscclass) : VTableStep :=
  let func := alignUp 2 bcl
  let opcode := readU16 mem func
  let bcl := func + 2
  match lookup opcode with
  | none => .error (.bad opcode "")
  | some funcOpCode =>
    if funcOpCode = .OPCODE_End then .finished bcl
    else if funcOpCode ≠ .OPCODE_GetResolveFunction then
      .error (.bad opcode "GetResolveFunction or End")
    else
      let getFuncBase := alignUp 8 bcl
      let methodName := readU32 mem getFuncBase
      let methodClsName := readU32 mem (getFuncBase + 4)
      let bcl := getFuncBase + 8
      let uidCodeBase := alignUp 2 bcl
      let uidCodeOp := readU16 mem uidCodeBase
      let bcl := uidCodeBase + 2
      match lookup uidCodeOp with
      | none => .crash
      | some uidCodeOpCode =>
        match readUid mem uidCodeOpCode bcl with
        | none => .error (.badGetter uidCodeOpCode)
        | some (uid, bcl) =>
          .next (skipGroupTail vm bcl) (registerEntry name cls methodName methodClsName uid)
            (.entry uid methodClsName methodName)

/-- How a call of `DumpVTable` ends. -/
inductive VTableResult where
  /-- It returned `ret`, having written `out` and left `classes` in the context. -/
  | returned (ret : Int) (out : List VTableLine) (classes : List (Nat × gscclass))
  /-- It dereferenced the null getter handler. -/
  | crashed
  /-- The loop did not end within the given number of turns. -/
  | outOfFuel
  deriving DecidableEq, Repr

/-- The `while (true)` loop of `DumpVTable` and the code after it, for at most `fuel`
turns.  `cls` is the class record behind the reference `objctx.m_classes[name]`; it is
stored back in the map on every return. -/
def vtableLoop (lookup : Nat → Option OPCode) (vm : Reader) (mem : Mem) (name : Nat)
    (classes : List (Nat × gscclass)) :
    Nat → Nat → gscclass → List VTableLine → VTableResult
  | 0, _, _, _ => .outOfFuel
  | fuel + 1, bcl, cls, out =>
    match vtableEntry lookup vm mem name bcl cls with
    | .error line => .returned (-1) (out ++ [line]) (mapSet classes name cls)
    | .crash => .crashed
    | .finished _ =>
      .returned 0 (out ++ [.classHeader name cls.m_superClass]) (mapSet classes name cls)
    | .next bcl1 cls1 line => vtableLoop lookup vm mem name classes fuel bcl1 cls1 (out ++ [line])

/-- Cursor after the prologue up to the class name (lines 2138-2154), from the cursor
at the call opcode. -/
def skipToClassName (vm : Reader) (bcl : Nat) : Nat :=
  let bcl := bcl + (2 + 1)
  let bcl := skipAligned 8 8 bcl
  let bcl := skipAligned 2 2 bcl
  if vm ≠ Reader.T8 then
    skipAligned 2 2 (skipAligned 2 2 bcl)
  else
    skipAligned 2 2 (skipAligned 2 2 (skipAligned 2 2 bcl))

/-- Cursor after the set-field instructions that follow the class name
(lines 2165-2171). -/
def skipSetField (vm : Reader) (bcl : Nat) : Nat :=
  if vm ≠ Reader.T8 then
    skipAligned 2 2 bcl
  else
    skipAligned 2 2 (skipAligned 2 2 bcl)

/-- `tool::gsc::DumpVTable`.  `vm` is `gscFile.GetVM()`, `expNamespace` is
`exp.GetNamespace()`, `classes` is `objctx.m_classes`, `bcl` the cursor `ctx.m_bcl`
at entry; the loop runs for at most `fuel` turns. -/
def DumpVTable (lookup : Nat → Option OPCode) (vm : Reader) (mem : Mem) (expNamespace : Nat)
    (classes : List (Nat × gscclass)) (bcl : Nat) (fuel : Nat) : VTableResult :=
  let bcl := alignUp 2 bcl
  let code := readU16 mem bcl
  if lookup code ≠ some .OPCODE_CheckClearParams then
    .returned (-1) [.bad code "CheckClearParams"] classes
  else
    let bcl := alignUp 2 (bcl + 2)
    let code := readU16 mem bcl
    if lookup code ≠ some .OPCODE_PreScriptCall then
      .returned (-1) [.bad code "PreScriptCall"] classes
    else
      let bcl := alignUp 2 (bcl + 2)
      let code := readU16 mem bcl
      match lookup code with
      | none => .returned (-1) [.bad code ""] classes
      | some spawnStruct =>
        if spawnStruct ≠ .OPCODE_ScriptFunctionCall ∧
            spawnStruct ≠ .OPCODE_CallBuiltinFunction then
          if vm = Reader.T9 then
            .returned 0 [] classes
          else
            .returned (-1) [.bad code "ScriptFunctionCall"] classes
        else
          let clsName := alignUp 4 (skipToClassName vm bcl)
          let name := readU32 mem clsName
          let cls0 := match mapFind classes name with
            | none => gscclass.empty
            | some c => c
          let cls : gscclass := { cls0 with name_space := expNamespace }
          let bcl := skipSetField vm (clsName + 4)
          vtableLoop lookup vm mem name classes fuel bcl cls []

/-- The nine getters the `switch` of `DumpVTable` accepts for the uid. -/
def uidGetters : List OPCode :=
  [.OPCODE_GetZero, .OPCODE_GetNegUnsignedInteger, .OPCODE_GetNegUnsignedShort,
    .OPCODE_GetNegByte, .OPCODE_GetByte, .OPCODE_GetInteger, .OPCODE_GetLongInteger,
    .OPCODE_GetUnsignedInteger, .OPCODE_GetUnsignedShort]

/-- The opcode number `DumpVTable` reads at the first position of the export. -/
def vtableCode1 (mem : Mem) (bcl : Nat) : Nat := readU16 mem (alignUp 2 bcl)

/-- The opcode number `DumpVTable` reads at the second position of the export. -/
def vtableCode2 (mem : Mem) (bcl : Nat) : Nat := readU16 mem (alignUp 2 (alignUp 2 bcl + 2))

/-- The opcode number `DumpVTable` reads at the third position of the export. -/
def vtableCode3 (mem : Mem) (bcl : Nat) : Nat :=
  readU16 mem (alignUp 2 (alignUp 2 (alignUp 2 bcl + 2) + 2))

/-- The blob whose first bytes are `l` and whose other bytes are `0`. -/
def memOfBytes (l : List Nat) : Mem := fun a => l.getD a 0

/-- A sample opcode registry (the numbers of the listing quoted in `DumpVTable`). -/
def sampleLookup (code : Nat) : Option OPCode :=
  if code = 0x000d then some .OPCODE_CheckClearParams
  else if code = 0x000e then some .OPCODE_PreScriptCall
  else if code = 0x0eca then some .OPCODE_ScriptFunctionCall
  else if code = 0x0b16 then some .OPCODE_GetZero
  else if code = 0x086c then some .OPCODE_GetResolveFunction
  else if code = 0x0a9a then some .OPCODE_GetInteger
  else if code = 0x0a5a then some .OPCODE_GetUnsignedShort
  else if code = 0x0010 then some .OPCODE_End
  else if code = 0x0c18 then some (.OPCODE_Other 0x0c18)
  else none

/-- One vtable group at offset 0: `GetResolveFunction &0x12345678::0x11223344`,
`GetUnsignedShort 0xA5A5`. -/
def sampleGroup : Mem :=
  memOfBytes [0x6c, 0x08, 0, 0, 0, 0, 0, 0, 0x44, 0x33, 0x22, 0x11, 0x78, 0x56, 0x34, 0x12,
    0x5a, 0x0a, 0xa5, 0xa5]

/-- A `CLASS_VTABLE` export whose third instruction is `GetZero` instead of the
`spawnstruct` call. -/
def noCallExport : Mem := memOfBytes [0x0d, 0x00, 0x0e, 0x00, 0x16, 0x0b]

/-- A `CLASS_VTABLE` export for `VM_T8` with no entry, whose fourth instruction (at
offset 16, where `GetZero` is expected) is the unregistered opcode `0xffff`; the class
name `0x12345678` is at offset 24 and `End` at offset 32. -/
def noGetZeroExport : Mem :=
  memOfBytes [0x0d, 0x00, 0x0e, 0x00, 0xca, 0x0e, 0x00, 0x00,
    0, 0, 0, 0, 0, 0, 0, 0,
    0xff, 0xff, 0, 0, 0, 0, 0, 0,
    0x78, 0x56, 0x34, 0x12, 0, 0, 0, 0,
    0x10, 0x00]

/-- The class name `DumpVTable` reads in the prologue (line 2158), from the cursor
at entry. -/
def vtableClassName (vm : Reader) (mem : Mem) (bcl : Nat) : Nat :=
  readU32 mem (alignUp 4 (skipToClassName vm (alignUp 2 (alignUp 2 (alignUp 2 bcl + 2) + 2))))

/-- The class record behind `objctx.m_classes[name]` before `DumpVTable` touches it
(a default-constructed record when the map has none). -/
def priorClass (classes : List (Nat × gscclass)) (name : Nat) : gscclass :=
  match mapFind classes name with
  | none => gscclass.empty
  | some c => c

/-- The method names of the entry lines whose class is `name`, in output order. -/
def entryMethods (name : Nat) (out : List VTableLine) : List Nat :=
  out.filterMap (fun l =>
    match l with
    | .entry _ c m => if c = name then some m else none
    | _ => none)

/-- The bytes of a `VM_T8` vtable export of class `0x12345678` with one group
`GetResolveFunction &cls::method; GetUnsignedShort 0xA5A5`, `method` and `cls` given
as their four little-endian bytes. -/
def oneGroupExport (method cls : List Nat) : Mem :=
  memOfBytes ([0x0d, 0x00, 0x0e, 0x00, 0xca, 0x0e, 0x00, 0x00,
    0, 0, 0, 0, 0, 0, 0, 0,
    0x16, 0x0b, 0, 0, 0, 0, 0, 0,
    0x78, 0x56, 0x34, 0x12, 0, 0, 0, 0,
    0x6c, 0x08, 0, 0, 0, 0, 0, 0] ++ method ++ cls ++
    [0x5a, 0x0a, 0xa5, 0xa5,
    0, 0, 0, 0, 0, 0, 0, 0, 0, 0, 0, 0, 0, 0, 0, 0, 0, 0, 0, 0, 0, 0, 0, 0, 0, 0, 0, 0,
    0x10, 0x00])

/-- A vtable export whose only entry binds the method hash `0` of the superclass
`0x9ABCDEF0`. -/
def superOnlyExport : Mem := oneGroupExport [0, 0, 0, 0] [0xf0, 0xde, 0xbc, 0x9a]

/-- A vtable export whose only entry binds the method `0x11223344` of the class
itself. -/
def oneMethodExport : Mem := oneGroupExport [0x44, 0x33, 0x22, 0x11] [0x78, 0x56, 0x34, 0x12]

/-- The class record `DumpVTable` leaves for `oneMethodExport`. -/
def oneMethodClass : gscclass :=
  { name_space := 0x99, m_superClass := [], m_methods := [0x11223344],
    m_vtable := [(0xA5A5, (0x11223344, 0x12345678))] }

/-! ## Walkers: `ComputeSize` and `DumpAsm` -/

/-- The operations of `ASMSkipContext` and of the opcode handlers that `ComputeSize`
calls.  They are declared in `tools/gsc_opcodes.hpp`, outside the files embedded here,
and are parameters of the model; `σ` is the state of the skip context. -/
structure SkipOps (σ : Type) where
  /-- `ctx.FindNextLocation()`: whether an unhandled location was found. -/
  FindNextLocation : σ → Bool × σ
  /-- `ctx.Aligned<uint16_t>()`. -/
  Aligned : σ → σ
  /-- `ctx.PushLocation()` followed by `loc.handled = true`. -/
  PushLocation : σ → σ
  /-- `*(uint16_t*)base`. -/
  opCode : σ → Nat
  /-- `base += 2`. -/
  pass : σ → σ
  /-- `ctx.LookupOpCode(opCode)->Skip(opCode, ctx)`. -/
  Skip : Nat → σ → Bool × σ
  /-- The `rloc` of the entries of `ctx.m_locs`, in iteration order. -/
  rlocs : σ → List Int

/-- The inner `while (true)` of `ComputeSize` for at most `fuel` turns: `none` when the
fuel runs out, `some none` on `return 0; // bad code`, `some (some ctx)` on `break`. -/
def skipRun {σ : Type} (W : SkipOps σ) : Nat → σ → Option (Option σ)
  | 0, _ => none
  | fuel + 1, ctx =>
    let ctx := W.PushLocation (W.Aligned ctx)
    let opCode := W.opCode ctx % 65536
    if opCode &&& 0x1000 ≠ 0 then
      some none
    else
      let r := W.Skip opCode (W.pass ctx)
      if r.1 then some (some r.2) else skipRun W fuel r.2

/-- The outer `while (ctx.FindNextLocation())` of `ComputeSize`: `none` when the fuel
runs out, `some none` on `return 0; // bad code`, `some (some ctx)` with the context at
the end of the walk. -/
def skipWalk {σ : Type} (W : SkipOps σ) : Nat → σ → Option (Option σ)
  | 0, _ => none
  | fuel + 1, ctx =>
    let r := W.FindNextLocation ctx
    if r.1 then
      match skipRun W fuel r.2 with
      | none => none
      | some none => some none
      | some (some ctx1) => skipWalk W fuel ctx1
    else some (some r.2)

/-- The loop over `ctx.m_locs` at the end of `ComputeSize` (`int max = 0; ...`). -/
def maxRloc (rlocs : List Int) : Int :=
  rlocs.foldl (fun max rloc => if max < rloc then rloc else max) 0

/-- `tool::gsc::ComputeSize`, from the skip context built on the export's address;
`none` when the walk does not end within `fuel` turns. -/
def ComputeSize {σ : Type} (W : SkipOps σ) (fuel : Nat) (ctx : σ) : Option Int :=
  match skipWalk W fuel ctx with
  | none => none
  | some none => some 0
  | some (some ctx1) => some (maxRloc (W.rlocs ctx1) + 2)

/-- The part of `ASMContext` that `DumpAsm` reads and writes itself, next to the state
`rest` that only the walker operations touch. -/
structure ASMContext (σ : Type) where
  m_disableDecompiler : Bool
  rest : σ

/-- The operations of `ASMContext` and of the opcode handlers that `DumpAsm` calls
(declared in `tools/gsc_opcodes.hpp`, outside the files embedded here).  `short` is
`objctx.m_vmInfo->flags & VMF_OPCODE_SHORT`. -/
structure DumpOps (σ : Type) where
  /-- `ctx.FindNextLocation()`. -/
  FindNextLocation : ASMContext σ → Bool × ASMContext σ
  /-- `ctx.Aligned<uint16_t>()`. -/
  Aligned : ASMContext σ → ASMContext σ
  /-- `ctx.PushLocation()`, `loc.handled = true`, the update of `m_lastOpCodeBase` and
  the run of the late operations queued at the location. -/
  PushLocation : ASMContext σ → ASMContext σ
  /-- `*(uint16_t*)base` when `short`, `(uint16_t)*base` otherwise. -/
  fetch : Bool → ASMContext σ → Nat
  /-- `base += 2` when `short`, `base++` otherwise. -/
  pass : Bool → ASMContext σ → ASMContext σ
  /-- `ctx.LookupOpCode(opCode)->Dump(out, opCode, ctx, objctx)`. -/
  Dump : Nat → ASMContext σ → Int × ASMContext σ

/-- What `DumpAsm` does with an instruction it fetched. -/
inductive DumpEvent where
  /-- The `FAILURE, FIND errec` branch: the handler is not invoked. -/
  | failure (opCode : Nat)
  /-- The handler's `Dump` was invoked. -/
  | dumped (opCode : Nat)
  deriving DecidableEq, Repr

/-- The inner `while (true)` of `DumpAsm` for at most `fuel` turns, with the
instructions met so far; `none` when the fuel runs out. -/
def dumpRun {σ : Type} (W : DumpOps σ) (short : Bool) :
    Nat → ASMContext σ → List DumpEvent → Option (ASMContext σ × List DumpEvent)
  | 0, _, _ => none
  | fuel + 1, ctx, ev =>
    let ctx := if short then W.Aligned ctx else ctx
    let ctx := W.PushLocation ctx
    let opCode := W.fetch short ctx % 65536
    if opCode &&& 0xF000 ≠ 0 then
      some ({ ctx with m_disableDecompiler := true }, ev ++ [.failure opCode])
    else
      let r := W.Dump opCode (W.pass short ctx)
      if r.1 ≠ 0 then some (r.2, ev ++ [.dumped opCode])
      else dumpRun W short fuel r.2 (ev ++ [.dumped opCode])

/-- `tool::gsc::DumpAsm` (it always returns `0`): the context it leaves and the
instructions it met, `none` when the walk does not end within `fuel` turns. -/
def DumpAsm {σ : Type} (W : DumpOps σ) (short : Bool) :
    Nat → ASMContext σ → List DumpEvent → Option (ASMContext σ × List DumpEvent)
  | 0, _, _ => none
  | fuel + 1, ctx, ev =>
    let r := W.FindNextLocation ctx
    if r.1 then
      match dumpRun W short fuel r.2 ev with
      | none => none
      | some (ctx1, ev1) => DumpAsm W short fuel ctx1 ev1
    else some (r.2, ev)

/-- The context after the first statements of a turn of the inner loop of `DumpAsm`
(alignment for 16-bit opcodes, `PushLocation`, late operations). -/
def DumpOps.enter {σ : Type} (W : DumpOps σ) (short : Bool) (ctx : ASMContext σ) :
    ASMContext σ :=
  W.PushLocation (if short then W.Aligned ctx else ctx)

/-- The context after the first statements of a turn of the inner loop of
`ComputeSize` (alignment, `PushLocation`). -/
def SkipOps.enter {σ : Type} (W : SkipOps σ) (ctx : σ) : σ := W.PushLocation (W.Aligned ctx)

/-- State of a small walker used for concrete runs: cursor, queued locations, pushed
locations. -/
structure SampleCtx where
  bcl : Nat
  work : List Nat
  locs : List Nat
  deriving DecidableEq, Repr

/-- `FindNextLocation` of the sample walker: the first queued location not yet pushed. -/
def SampleCtx.findNext (s : SampleCtx) : Bool × SampleCtx :=
  match s.work.filter (fun l => decide (l ∉ s.locs)) with
  | [] => (false, s)
  | l :: _ => (true, { s with bcl := l })

/-- Handler of the sample walker on 16-bit opcodes: `0x0010` (`End`) stops, `0x0020`
(a conditional jump with a 16-bit displacement) queues its target and goes on, every
other opcode has no operand and goes on. -/
def SampleCtx.handle (mem : Mem) (opCode : Nat) (s : SampleCtx) : Bool × SampleCtx :=
  if opCode = 0x0010 then (true, s)
  else if opCode = 0x0020 then
    (false, { s with bcl := s.bcl + 2, work := s.work ++ [s.bcl + 2 + readU16 mem s.bcl] })
  else (false, s)

/-- The sample skip walker over the blob `mem`, the export starting at offset `0`. -/
def sampleSkipOps (mem : Mem) : SkipOps SampleCtx where
  FindNextLocation := SampleCtx.findNext
  Aligned := fun s => { s with bcl := alignUp 2 s.bcl }
  PushLocation := fun s => { s with locs := s.locs ++ [s.bcl] }
  opCode := fun s => readU16 mem s.bcl
  pass := fun s => { s with bcl := s.bcl + 2 }
  Skip := SampleCtx.handle mem
  rlocs := fun s => s.locs.map (fun l => (l : Int))

/-- The sample disassembly walker over the blob `mem` (16-bit opcodes). -/
def sampleDumpOps (mem : Mem) : DumpOps SampleCtx where
  FindNextLocation := fun c =>
    ((SampleCtx.findNext c.rest).1, { c with rest := (SampleCtx.findNext c.rest).2 })
  Aligned := fun c => { c with rest := { c.rest with bcl := alignUp 2 c.rest.bcl } }
  PushLocation := fun c => { c with rest := { c.rest with locs := c.rest.locs ++ [c.rest.bcl] } }
  fetch := fun _ c => readU16 mem c.rest.bcl
  pass := fun _ c => { c with rest := { c.rest with bcl := c.rest.bcl + 2 } }
  Dump := fun opCode c =>
    ((if (SampleCtx.handle mem opCode c.rest).1 then 1 else 0),
      { c with rest := (SampleCtx.handle mem opCode c.rest).2 })

/-- The sample walker's state at the entry of an export at offset `0`. -/
def sampleStart : SampleCtx := { bcl := 0, work := [0], locs := [] }

/-- An export consisting of the single instruction `End` (`0x0010`). -/
def endOnlyExport : Mem := memOfBytes [0x10, 0x00]

/-- An export `jump +4; <opcode 0xf000>; End; End`: the jump at offset 0 queues the
location 8, the opcode at offset 4 has its top nibble set. -/
def failThenTargetExport : Mem :=
  memOfBytes [0x20, 0x00, 0x04, 0x00, 0x00, 0xf0, 0x10, 0x00, 0x10, 0x00]

/-! ## Reconstruction passes and the `--ignore` option -/

/-- The `STEPSKIP_*` bits.  The enum is declared in `tools/gsc.hpp`, outside the files
embedded here, so its values are a parameter. -/
structure StepSkip where
  STEPSKIP_DEV : Nat
  STEPSKIP_DEVBLOCK_INLINE : Nat
  STEPSKIP_SWITCH : Nat
  STEPSKIP_FOREACH : Nat
  STEPSKIP_WHILE : Nat
  STEPSKIP_IF : Nat
  STEPSKIP_FOR : Nat
  STEPSKIP_RETURN : Nat
  STEPSKIP_BOOL_RETURN : Nat
  STEPSKIP_CLASSMEMBER_INLINE : Nat
  STEPSKIP_SPECIAL_PATTERN : Nat

/-- The nine reconstruction passes `GscInfoHandleData` calls on an `ASMContext`. -/
inductive Pass where
  | ComputeDevBlocks
  | ComputeSwitchBlocks
  | ComputeForEachBlocks
  | ComputeWhileBlocks
  | ComputeForBlocks
  | ComputeIfBlocks
  | ComputeReturnJump
  | ComputeBoolReturn
  | ComputeSpecialPattern
  deriving DecidableEq, Repr

/-- The pass calls of `GscInfoHandleData` for a decompiled export that is not a vtable
(lines 1590-1614).  `run p` is the effect of pass `p` on the `ASMContext`; the passes
themselves are outside the files embedded here. -/
def reconstruct {σ : Type} (K : StepSkip) (run : Pass → σ → σ) (m_stepskip : Nat)
    (asmctx : σ) : σ :=
  let asmctx := if m_stepskip &&& K.STEPSKIP_DEV = 0 then
    run .ComputeDevBlocks asmctx else asmctx
  let asmctx := if m_stepskip &&& K.STEPSKIP_SWITCH = 0 then
    run .ComputeSwitchBlocks asmctx else asmctx
  let asmctx := if m_stepskip &&& K.STEPSKIP_FOREACH = 0 then
    run .ComputeForEachBlocks asmctx else asmctx
  let asmctx := if m_stepskip &&& K.STEPSKIP_WHILE = 0 then
    run .ComputeWhileBlocks asmctx else asmctx
  let asmctx := if m_stepskip &&& K.STEPSKIP_FOR = 0 then
    run .ComputeForBlocks asmctx else asmctx
  let asmctx := if m_stepskip &&& K.STEPSKIP_IF = 0 then
    run .ComputeIfBlocks asmctx else asmctx
  let asmctx := if m_stepskip &&& K.STEPSKIP_RETURN = 0 then
    run .ComputeReturnJump asmctx else asmctx
  let asmctx := if m_stepskip &&& K.STEPSKIP_BOOL_RETURN = 0 then
    run .ComputeBoolReturn asmctx else asmctx
  run .ComputeSpecialPattern asmctx

/-- The eight passes that `GscInfoHandleData` gates, in call order, each with its skip
bit. -/
def gatedPasses (K : StepSkip) : List (Pass × Nat) :=
  [(.ComputeDevBlocks, K.STEPSKIP_DEV), (.ComputeSwitchBlocks, K.STEPSKIP_SWITCH),
    (.ComputeForEachBlocks, K.STEPSKIP_FOREACH), (.ComputeWhileBlocks, K.STEPSKIP_WHILE),
    (.ComputeForBlocks, K.STEPSKIP_FOR), (.ComputeIfBlocks, K.STEPSKIP_IF),
    (.ComputeReturnJump, K.STEPSKIP_RETURN), (.ComputeBoolReturn, K.STEPSKIP_BOOL_RETURN)]

/-- The passes to run for `m_stepskip`: the gated passes whose bit is clear, in order,
then the special-pattern pass. -/
def passesToRun (K : StepSkip) (m_stepskip : Nat) : List Pass :=
  ((gatedPasses K).filter (fun pb => decide (m_stepskip &&& pb.2 = 0))).map Prod.fst ++
    [.ComputeSpecialPattern]

/-- The `switch (*param)` of the `--ignore` branch of `GscInfoOption::Compute`
(lines 145-185): the new `m_stepskip`, `none` for the `default` case (`return false`).
`width` is the number of bits of the field `m_stepskip`, so that `~0` is
`2 ^ width - 1`. -/
def ignoreLetter (K : StepSkip) (width : Nat) (m_stepskip : Nat) (param : Char) :
    Option Nat :=
  if param = 'd' then some (m_stepskip ||| K.STEPSKIP_DEV)
  else if param = 'D' then some (m_stepskip ||| K.STEPSKIP_DEVBLOCK_INLINE)
  else if param = 's' then some (m_stepskip ||| K.STEPSKIP_SWITCH)
  else if param = 'e' then some (m_stepskip ||| K.STEPSKIP_FOREACH)
  else if param = 'w' then some (m_stepskip ||| K.STEPSKIP_WHILE)
  else if param = 'i' then some (m_stepskip ||| K.STEPSKIP_IF)
  else if param = 'f' then some (m_stepskip ||| K.STEPSKIP_FOR)
  else if param = 'r' then some (m_stepskip ||| K.STEPSKIP_RETURN)
  else if param = 'R' then some (m_stepskip ||| K.STEPSKIP_BOOL_RETURN)
  else if param = 'c' then some (m_stepskip ||| K.STEPSKIP_CLASSMEMBER_INLINE)
  else if param = 'S' then some (m_stepskip ||| K.STEPSKIP_SPECIAL_PATTERN)
  else if param = 'a' then some (2 ^ width - 1)
  else none

/-- The `for (const char* param = args[++i]; *param; param++)` loop of the `--ignore`
branch of `GscInfoOption::Compute`: the final `m_stepskip`, `none` when `Compute`
returns `false`. -/
def ignoreParam (K : StepSkip) (width : Nat) : Nat → List Char → Option Nat
  | m_stepskip, [] => some m_stepskip
  | m_stepskip, param :: rest =>
    match ignoreLetter K width m_stepskip param with
    | none => none
    | some m => ignoreParam K width m rest

/-- The skip bit the help text of `PrintHelp` associates with a letter (`0` for a
letter that names no single bit). -/
def letterBit (K : StepSkip) (c : Char) : Nat :=
  if c = 'd' then K.STEPSKIP_DEV
  else if c = 's' then K.STEPSKIP_SWITCH
  else if c = 'e' then K.STEPSKIP_FOREACH
  else if c = 'w' then K.STEPSKIP_WHILE
  else if c = 'i' then K.STEPSKIP_IF
  else if c = 'f' then K.STEPSKIP_FOR
  else if c = 'r' then K.STEPSKIP_RETURN
  else if c = 'R' then K.STEPSKIP_BOOL_RETURN
  else if c = 'c' then K.STEPSKIP_CLASSMEMBER_INLINE
  else if c = 'D' then K.STEPSKIP_DEVBLOCK_INLINE
  else if c = 'S' then K.STEPSKIP_SPECIAL_PATTERN
  else 0

/-- The eleven letters that name one skip bit. -/
def bitLetters : List Char := ['d', 'D', 's', 'e', 'w', 'i', 'f', 'r', 'R', 'c', 'S']

/-- Skip bits with distinct single-bit values, used for concrete runs. -/
def stepSkip : StepSkip where
  STEPSKIP_DEV := 0x01
  STEPSKIP_SWITCH := 0x02
  STEPSKIP_FOREACH := 0x04
  STEPSKIP_WHILE := 0x08
  STEPSKIP_IF := 0x10
  STEPSKIP_FOR := 0x20
  STEPSKIP_RETURN := 0x40
  STEPSKIP_BOOL_RETURN := 0x80
  STEPSKIP_CLASSMEMBER_INLINE := 0x100
  STEPSKIP_DEVBLOCK_INLINE := 0x200
  STEPSKIP_SPECIAL_PATTERN := 0x400

/-- A pass runner that records the passes called. -/
def recordPass (p : Pass) (called : List Pass) : List Pass := called ++ [p]

/-! ## `GscInfoHandleData`, `GscInfoFile`, `gscinfo` -/

/-- Modelled from the spec: the tool return code `tool::OK`, declared outside the files
embedded here ("Exit codes: `0` success, `1` basic error, `2` bad usage"). -/
def OK : Int := 0

/-- Modelled from the spec: the tool return code `tool::BASIC_ERROR`, declared outside
the files embedded here ("Exit codes: `0` success, `1` basic error, `2` bad usage"). -/
def BASIC_ERROR : Int := 1

/-- Modelled from the spec: the tool return code `tool::BAD_USAGE`, declared outside the
files embedded here ("Exit codes: `0` success, `1` basic error, `2` bad usage"). -/
def BAD_USAGE : Int := 2

/-- What `GscInfoHandleData` takes from outside `gsc.cpp`: the VM constants of
`tool::gsc::opcode`, the VM registry test `opcode::IsValidVm`, the `sizeof` of the
reader's header struct, and whether the output file can be opened. -/
structure HandleEnv where
  VM_UNKNOWN : Nat
  VM_T8 : Nat
  VM_T937 : Nat
  VM_T9 : Nat
  VM_MW23 : Nat
  IsValidVm : Nat → Bool
  headerSize : Reader → Nat
  canOpenOutput : Bool

/-- `gscReaders.find(vm)`: the reader registered for the VM byte, if any. -/
def HandleEnv.findReader (E : HandleEnv) (vm : Nat) : Option Reader :=
  if vm = E.VM_T8 then some .T8
  else if vm = E.VM_T937 then some .T937
  else if vm = E.VM_T9 then some .T9
  else if vm = E.VM_MW23 then some .MW23
  else none

/-- The error lines `GscInfoHandleData` logs. -/
inductive HandleLog where
  /-- `Bad GSIC field type: {}`. -/
  | badGsicField (fieldType : Nat)
  /-- `VM type needed with IW GSC file, please use --vm [vm] to set it`. -/
  | vmNeeded
  /-- `Bad magic 0x{:x}`. -/
  | badMagic (magic : Nat)
  /-- `Bad vm 0x{:x} for file {}`. -/
  | badVm (vm : Nat)
  /-- `No reader available for vm 0x{:x} for file {}`. -/
  | noReader (vm : Nat)
  /-- `Bad header 0x{:x} for file {}`. -/
  | badHeader (magic : Nat)
  /-- `Can't open output file {}`. -/
  | cantOpenOutput
  deriving DecidableEq, Repr

/-- What a call of `GscInfoHandleData` did: its return code, the error lines logged,
the VM byte it settled on, the reader it built, whether it opened the output file and
whether it ran `PatchCode`. -/
structure HandleResult where
  ret : Int
  log : List HandleLog
  vm : Option Nat
  reader : Option Reader
  outputOpened : Bool
  patched : Bool
  deriving DecidableEq, Repr

/-- The loop over the fields of a `GSIC` wrapper (lines 1112-1137): the size of the
wrapper after `numFields` more fields, or the bad field type.  A detour record takes
`28 + 256 - 1 - (5 * 4) + 1 - 8 = 256` bytes; the `int32_t` counts are compared with a
`size_t` index, hence sign-extended. -/
def gsicFields (data : Mem) : Nat → Nat → Except Nat Nat
  | 0, gsicSize => .ok gsicSize
  | numFields + 1, gsicSize =>
    let fieldType := readU32 data gsicSize
    let gsicSize := gsicSize + 4
    if fieldType = 0 then
      let detourCount := signExtend32 (readU32 data gsicSize)
      let gsicSize := gsicSize + 4
      gsicFields data numFields (gsicSize + 256 * detourCount)
    else .error fieldType

/-- `gsicInfo.isGsic = size > 4 && !memcmp(data, "GSIC", 4)`. -/
def isGsic (data : Mem) (size : Nat) : Bool :=
  decide (size > 4) && decide (readU8 data 0 = 0x47) && decide (readU8 data 1 = 0x53) &&
    decide (readU8 data 2 = 0x49) && decide (readU8 data 3 = 0x43)

/-- The `GSIC` stage of `GscInfoHandleData` (lines 1101-1146): the number of bytes to
step over (`0` without a wrapper), or the bad field type. -/
def gsicStage (data : Mem) (size : Nat) : Except Nat Nat :=
  if isGsic data size then gsicFields data (signExtend32 (readU32 data 4)) 8
  else .ok 0

/-- The first eight bytes of the blob with the top byte masked off
(`*reinterpret_cast<uint64_t*>(data) & ~0xFF00000000000000`). -/
def magicVal (data : Mem) : Nat := readU64 data 0 % 72057594037927936

/-- `GscInfoHandleData` from the VM registry test on (lines 1172-1785), `vm` being the
VM byte settled on.  After the output file is open nothing returns early, and the
function ends with `return 0`. -/
def handleVm (E : HandleEnv) (data : Mem) (size : Nat) (vm : Nat) (m_patch : Bool) :
    HandleResult :=
  if E.IsValidVm vm = false then
    ⟨-1, [.badVm vm], some vm, none, false, false⟩
  else
    match E.findReader vm with
    | none => ⟨-1, [.noReader vm], some vm, none, false, false⟩
    | some scriptfile =>
      if IsValidHeader scriptfile (E.headerSize scriptfile) data size = false then
        ⟨-1, [.badHeader (readU64 data 0)], some vm, some scriptfile, false, false⟩
      else if E.canOpenOutput = false then
        ⟨-1, [.cantOpenOutput], some vm, some scriptfile, false, false⟩
      else
        ⟨0, [], some vm, some scriptfile, true, m_patch⟩

/-- `GscInfoHandleData` from the magic test on (lines 1147-1785), `data` being the
blob after the wrapper; `m_vm` is `opt.m_vm`, `m_patch` is `opt.m_patch`. -/
def handleBlob (E : HandleEnv) (data : Mem) (size : Nat) (m_vm : Nat) (m_patch : Bool) :
    HandleResult :=
  if magicVal data = 0xa0d4353478a then
    if m_vm = E.VM_UNKNOWN then
      ⟨BASIC_ERROR, [.vmNeeded], none, none, false, false⟩
    else
      handleVm E data size (m_vm % 256) m_patch
  else if magicVal data = 0xa0d43534780 then
    handleVm E data size (readU8 data 7) m_patch
  else
    ⟨BASIC_ERROR, [.badMagic (readU64 data 0)], none, none, false, false⟩

/-- `GscInfoHandleData(data, size, path, opt)`. -/
def GscInfoHandleData (E : HandleEnv) (data : Mem) (size : Nat) (m_vm : Nat)
    (m_patch : Bool) : HandleResult :=
  match gsicStage data size with
  | .error fieldType => ⟨BASIC_ERROR, [.badGsicField fieldType], none, none, false, false⟩
  | .ok gsicSize => handleBlob E (fun a => data (a + gsicSize)) size m_vm m_patch

/-- The seven bytes `80 47 53 43 0D 0A 00` that open a Treyarch blob. -/
def treyarchMagic : List Nat := [0x80, 0x47, 0x53, 0x43, 0x0d, 0x0a, 0x00]

/-- The seven bytes `8A 47 53 43 0D 0A 00` that open a wide-hash blob. -/
def wideHashMagic : List Nat := [0x8a, 0x47, 0x53, 0x43, 0x0d, 0x0a, 0x00]

/-- The first seven bytes of the blob are `bytes`. -/
def startsWith7 (data : Mem) (bytes : List Nat) : Prop :=
  ∀ i, i < 7 → readU8 data i = bytes.getD i 0

/-- A sample environment: VM bytes `0x36`, `0x37`, `0x38` for the Treyarch readers and
`0x90` for the wide-hash reader, every VM with a reader registered, header size 24. -/
def sampleEnv : HandleEnv where
  VM_UNKNOWN := 0
  VM_T8 := 0x36
  VM_T937 := 0x37
  VM_T9 := 0x38
  VM_MW23 := 0x90
  IsValidVm := fun vm => decide (vm = 0x36 ∨ vm = 0x37 ∨ vm = 0x38 ∨ vm = 0x90)
  headerSize := fun _ => 24
  canOpenOutput := true

/-- A wide-hash blob: `8A 47 53 43 0D 0A 00 00`, zeros after. -/
def wideHashBlob : Mem := memOfBytes [0x8a, 0x47, 0x53, 0x43, 0x0d, 0x0a, 0x00, 0x00]

/-- A Treyarch `VM_T8` blob: `80 47 53 43 0D 0A 00 36`, zeros after. -/
def treyarchBlob : Mem := memOfBytes [0x80, 0x47, 0x53, 0x43, 0x0d, 0x0a, 0x00, 0x36]

/-- The Treyarch blob with its second byte flipped to `0xFF`. -/
def corruptedBlob : Mem := memOfBytes [0x80, 0xff, 0x53, 0x43, 0x0d, 0x0a, 0x00, 0x36]

/-- The test `pathname.ends_with(suffix)` of `std::string`. -/
def ends_with (pathname suffix : String) : Bool :=
  suffix.toList.isSuffixOf pathname.toList

/-- A path as `GscInfoFile` sees it: a directory with its entries in iteration order,
or a file with its generic pathname, what `utils::ReadFileAlign` yields for it (nothing
when the read fails, else the buffer and its size) and whether the output file derived
from it can be opened. -/
inductive FsNode where
  | dir (entries : List FsNode)
  | file (pathname : String) (content : Option (Mem × Nat)) (canOpenOutput : Bool)

/-- What a run leaves behind for one file reached by `GscInfoFile`: its pathname and
the code returned for it. -/
abbrev FileEvent := String × Int

/-- One turn of the loops of `GscInfoFile` (lines 1792-1797, `if (!ret) ret = lret;`)
and of `gscinfo` (lines 2545-2550, `if (ret == tool::OK) ret = lret;`): the code kept
so far and the events so far, then the result of the call for the next path. -/
def keepFirst (acc l : Int × List FileEvent) : Int × List FileEvent :=
  (if acc.1 = OK then l.1 else acc.1, acc.2 ++ l.2)

/-- `GscInfoFile` (lines 1788-1829): the returned code, and the files reached with the
code of each. -/
def GscInfoFile (E : HandleEnv) (m_vm : Nat) (m_patch : Bool) :
    FsNode → Int × List FileEvent
  | .dir entries =>
    entries.attach.foldl
      (fun acc sub => keepFirst acc (GscInfoFile E m_vm m_patch sub.1)) (0, [])
  | .file pathname content canOpenOutput =>
    if (ends_with pathname ".gscc" || ends_with pathname ".cscc"
        || ends_with pathname ".gscbin" || ends_with pathname ".cscbin"
        || ends_with pathname ".gsic" || ends_with pathname ".csic") = false then
      (0, [(pathname, 0)])
    else
      match content with
      | none => (-1, [(pathname, -1)])
      | some (buffer, size) =>
        if size < 0x18 then (-1, [(pathname, -1)])
        else
          let ret := (GscInfoHandleData
            { E with canOpenOutput := canOpenOutput } buffer size m_vm m_patch).ret
          (ret, [(pathname, ret)])
termination_by node => sizeOf node
decreasing_by
  simp_wf
  have h := List.sizeOf_lt_of_mem sub.2
  omega

/-- `tool::gsc::gscinfo` (lines 2527-2601): `computeOk` is what `opt.Compute` returned;
the code left after the loop over `m_inputFiles` is the one returned at the end. -/
def gscinfo (E : HandleEnv) (computeOk m_help : Bool) (m_vm : Nat) (m_patch : Bool)
    (m_inputFiles : List FsNode) : Int × List FileEvent :=
  if computeOk = false ∨ m_help = true then (0, [])
  else
    m_inputFiles.foldl
      (fun acc file => keepFirst acc (GscInfoFile E m_vm m_patch file)) (OK, [])

/-- The first non-zero element of a list of codes, `0` when there is none. -/
def firstNonZero (codes : List Int) : Int :=
  (codes.find? (fun c => c ≠ 0)).getD 0

/-- A Treyarch blob with a VM byte that `sampleEnv` does not know:
`80 47 53 43 0D 0A 00 FF`. -/
def badVmBlob : Mem := memOfBytes [0x80, 0x47, 0x53, 0x43, 0x0d, 0x0a, 0x00, 0xff]

/-- Three input files: a valid `VM_T8` blob, a file that cannot be read, and a blob
with an unknown VM byte. -/
def sampleFiles : List FsNode :=
  [.file "a.gscc" (some (treyarchBlob, 24)) true,
   .file "b.gscc" none true,
   .file "c.gscc" (some (badVmBlob, 24)) true]

/-! ## The `GSIC` wrapper: detours -/

/-- The loop over the detour records of one field (lines 1122-1128): `fixupOffset data r`
is `detour->fixupOffset` of the record at offset `r` (the struct `GsicDetour` is declared
outside the files embedded here); each record is stored in `gsicInfo.detours` under
that key, kept here as its offset, and `gsicSize` advances by 256. -/
def gsicDetourLoop (fixupOffset : Mem → Nat → Nat) (data : Mem) :
    Nat → Nat → List (Nat × Nat) → Nat × List (Nat × Nat)
  | 0, gsicSize, detours => (gsicSize, detours)
  | detourCount + 1, gsicSize, detours =>
    gsicDetourLoop fixupOffset data detourCount (gsicSize + 256)
      (mapSet detours (fixupOffset data gsicSize) gsicSize)

/-- The loop over the fields of a `GSIC` wrapper (lines 1112-1137) with the detours it
registers: the wrapper size and `gsicInfo.detours` after `numFields` more fields, or
the bad field type. -/
def gsicRead (fixupOffset : Mem → Nat → Nat) (data : Mem) :
    Nat → Nat → List (Nat × Nat) → Except Nat (Nat × List (Nat × Nat))
  | 0, gsicSize, detours => .ok (gsicSize, detours)
  | numFields + 1, gsicSize, detours =>
    let fieldType := readU32 data gsicSize
    let gsicSize := gsicSize + 4
    if fieldType = 0 then
      let detourCount := signExtend32 (readU32 data gsicSize)
      let gsicSize := gsicSize + 4
      let r := gsicDetourLoop fixupOffset data detourCount gsicSize detours
      gsicRead fixupOffset data numFields r.1 r.2
    else .error fieldType

/-- The fields a wrapper declares, read at their places when each field before is a
detour list: the field type and the detour count of each of the `numFields` fields from
offset `pos` on, a field with `count` records taking `8 + 256 * count` bytes. -/
def gsicDeclared (data : Mem) : Nat → Nat → List (Nat × Nat)
  | 0, _ => []
  | numFields + 1, pos =>
    (readU32 data pos, signExtend32 (readU32 data (pos + 4))) ::
      gsicDeclared data numFields (pos + 8 + 256 * signExtend32 (readU32 data (pos + 4)))

/-- The offsets of the detour records of the declared fields, in file order. -/
def gsicRecords (data : Mem) : Nat → Nat → List Nat
  | 0, _ => []
  | numFields + 1, pos =>
    (List.range (signExtend32 (readU32 data (pos + 4)))).map (fun j => pos + 8 + 256 * j) ++
      gsicRecords data numFields (pos + 8 + 256 * signExtend32 (readU32 data (pos + 4)))

/-- The map that storing each record of `records` in turn under its `fixupOffset`
leaves. -/
def registerAll (fixupOffset : Mem → Nat → Nat) (data : Mem) (records : List Nat)
    (detours : List (Nat × Nat)) : List (Nat × Nat) :=
  records.foldl (fun d r => mapSet d (fixupOffset data r) r) detours

/-- A sample `detour->fixupOffset`: the 32-bit word at the start of the record. -/
def sampleFixupOffset (data : Mem) (r : Nat) : Nat := readU32 data r

/-- A wrapped `VM_T8` blob: `GSIC`, two fields, the first a detour list with one record
(fixup offset `0x40`), the second an empty detour list, then `80 47 53 43 0D 0A 00 36`
at offset `8 + (8 + 256) + 8 = 280`. -/
def gsicBlob : Mem :=
  memOfBytes ([0x47, 0x53, 0x49, 0x43, 2, 0, 0, 0, 0, 0, 0, 0, 1, 0, 0, 0] ++
    (0x40 :: List.replicate 255 0) ++ [0, 0, 0, 0, 0, 0, 0, 0] ++
    [0x80, 0x47, 0x53, 0x43, 0x0d, 0x0a, 0x00, 0x36])

/-! ## Import flags of the wide-hash reader -/

/-- The reference mapping of call-kind nibbles for the wide-hash reader, as the
specification lists it: `5` is `FUNC_METHOD`, `4` is `FUNCTION`, `2` is
`FUNCTION_THREAD`, `1` is `FUNCTION_CHILDTHREAD`, `3`, `6`, `7`, `8` and `0xA` are
`FUNCTION`, `9` and `0xB` are `METHOD`, any other nibble is kept. -/
def remapReference (F : T8GSCImportFlags) : Nat → Nat
  | 1 => F.FUNCTION_CHILDTHREAD
  | 2 => F.FUNCTION_THREAD
  | 3 => F.FUNCTION
  | 4 => F.FUNCTION
  | 5 => F.FUNC_METHOD
  | 6 => F.FUNCTION
  | 7 => F.FUNCTION
  | 8 => F.FUNCTION
  | 9 => F.METHOD
  | 10 => F.FUNCTION
  | 11 => F.METHOD
  | nibble => nibble

/-! ## The imports listing -/

/-- What is written to the output stream `asmout`, piece by piece. -/
inductive OutTok where
  /-- A string literal. -/
  | text (s : String)
  /-- The text `hashutils::ExtractTmp(type, hash)` gives (the function is declared in
  `hashutils.hpp` and defined outside the files embedded here). -/
  | extract (type : String) (hash : Nat)
  /-- A number written in hexadecimal. -/
  | hex (n : Nat)
  /-- The end of the line. -/
  | newline
  deriving DecidableEq, Repr

/-- The `switch (remapedFlags & T8GSCImportFlags::CALLTYPE_MASK)` of the imports
listing (lines 1423-1435). -/
def importKind (F : T8GSCImportFlags) (remapedFlags : Nat) : List OutTok :=
  let k := remapedFlags &&& F.CALLTYPE_MASK
  if k = F.FUNC_METHOD then [.text "funcmethod "]
  else if k = F.FUNCTION then [.text "function "]
  else if k = F.FUNCTION_THREAD then [.text "function thread "]
  else if k = F.FUNCTION_CHILDTHREAD then [.text "function childthread "]
  else if k = F.METHOD then [.text "method "]
  else if k = F.METHOD_THREAD then [.text "method thread "]
  else if k = F.METHOD_CHILDTHREAD then [.text "method childthread "]
  else [.text "<errorflag:", .hex (remapedFlags &&& 0xF), .text "> "]

/-- The first line the imports listing of `GscInfoHandleData` writes for an import (lines
1420-1454), from `asmout << "import "` to the newline after the function name.
`DEV_CALL`, `UKN40` and `UKN80` are the enumerators of `T8GSCImportFlags` of these names
(declared in `tools/gsc.hpp`). -/
def importLine (F : T8GSCImportFlags) (DEV_CALL UKN40 UKN80 : Nat)
    (RemapFlagsImport : Nat → Nat) (flags name_space name : Nat) : List OutTok :=
  let remapedFlags := RemapFlagsImport flags
  [.text "import "] ++ importKind F remapedFlags ++
    (if remapedFlags &&& DEV_CALL ≠ 0 then [.text "devcall "] else []) ++
    (if remapedFlags &&& UKN40 ≠ 0 then [.text "ukn40 "] else []) ++
    (if remapedFlags &&& UKN80 ≠ 0 then [.text "ukn80 "] else []) ++
    (if remapedFlags &&& F.GET_CALL = 0 then
      [.extract "namespace" name_space, .text "::"] else []) ++
    [.extract "function" name, .newline]

/-! ## `hashutils::ExtractTmpPath` -/

/-- The loop of `hashutils::ExtractTmpPath` (`hashutils.hpp`, lines 86-90) on the buffer
`ExtractTmp` returned: `script` walks from `unhash` to the terminating zero and each
`'/'` (`0x2f`) on the way is overwritten with a backslash (`0x5c`).  The memory after at
most `fuel` turns, `none` when no zero byte is met within them; the pointer returned is
`unhash` itself. -/
def ExtractTmpPath : Nat → Mem → Nat → Option Mem
  | 0, _, _ => none
  | fuel + 1, mem, script =>
    if readU8 mem script = 0 then some mem
    else
      ExtractTmpPath fuel
        (if readU8 mem script = 0x2f then writeU8 mem script 0x5c else mem) (script + 1)

/-- The buffer in which every `'/'` among the `n` characters from `unhash` on is replaced
by a backslash, all else kept. -/
def slashToBackslash (mem : Mem) (unhash n : Nat) : Mem :=
  fun a => if unhash ≤ a ∧ a < unhash + n ∧ readU8 mem a = 0x2f then 0x5c else mem a

/-- The string `a/b/c` at offset `0`. -/
def samplePath : Mem := memOfBytes [0x61, 0x2f, 0x62, 0x2f, 0x63, 0x00]

/-! ## The class listing: constructor and destructor -/

/-- The kind `node->m_type` of a statement's node.  The enum is declared in
`tools/gsc_opcodes.hpp`, outside the files embedded here; `SizeNoEmptyNode` tells only
`TYPE_PRECODEPOS` and `TYPE_END` from the other kinds. -/
inductive NodeType where
  | TYPE_PRECODEPOS
  | TYPE_END
  | other (id : Nat)
  deriving DecidableEq, Repr

/-- `SizeNoEmptyNode` (lines 10-20), on the kinds of the statements' nodes. -/
def SizeNoEmptyNode (statements : List NodeType) : Nat :=
  statements.foldl
    (fun acc m_type =>
      if m_type ≠ .TYPE_PRECODEPOS then
        if acc ≠ 0 ∨ m_type ≠ .TYPE_END then acc + 1 else acc
      else acc) 0

/-- What `handleMethod` reads of an entry of `contextes`: the flag
`m_disableDecompiler` and the kinds of `m_funcBlock.m_statements`. -/
structure ExportCtx where
  m_disableDecompiler : Bool
  m_statements : List NodeType
  deriving DecidableEq, Repr

/-- A function body written in the class listing: the method and the forced name
(`"constructor"`, `"destructor"`, or none). -/
inductive ClassOut where
  | method (method : Nat) (forceName : Option String)
  deriving DecidableEq, Repr

/-- The lambda `handleMethod` of the class listing (lines 1666-1700) for the class
`name`: `contextes` is keyed by `Located{ name, method }`; the state is `contextes` and
the bodies written so far. -/
def handleMethod (name : Nat) (st : List ((Nat × Nat) × ExportCtx) × List ClassOut)
    (method : Nat) (forceName : Option String) (ignoreEmpty : Bool) :
    List ((Nat × Nat) × ExportCtx) × List ClassOut :=
  match st.1.lookup (name, method) with
  | none => st
  | some e =>
    if e.m_disableDecompiler then st
    else
      (st.1.filter (fun p => decide (p.1 ≠ (name, method))),
        if !ignoreEmpty || SizeNoEmptyNode e.m_statements != 0 then
          st.2 ++ [.method method forceName]
        else st.2)

/-- The calls of `handleMethod` in the class listing (lines 1730-1736): the constructor,
the destructor, then every method of the class.  `g_constructorName` and
`g_destructorName` are `hashutils::Hash32` of `"__constructor"` and `"__destructor"`
(the hash function is outside the files embedded here). -/
def classMethods (g_constructorName g_destructorName name : Nat) (m_methods : List Nat)
    (contextes : List ((Nat × Nat) × ExportCtx)) :
    List ((Nat × Nat) × ExportCtx) × List ClassOut :=
  let st := handleMethod name (contextes, []) g_constructorName (some "constructor") true
  let st := handleMethod name st g_destructorName (some "destructor") true
  m_methods.foldl (fun st method => handleMethod name st method none false) st

/-- The export `method` of the class `name` exists in `contextes`, is decompilable, and
has a statement that is neither `TYPE_PRECODEPOS` nor `TYPE_END`. -/
def hasBody (contextes : List ((Nat × Nat) × ExportCtx)) (name method : Nat) : Prop :=
  ∃ e, contextes.lookup (name, method) = some e ∧ e.m_disableDecompiler = false ∧
    ∃ t ∈ e.m_statements, t ≠ NodeType.TYPE_PRECODEPOS ∧ t ≠ NodeType.TYPE_END

/-- A class `0xC1` with a constructor `1` holding one statement, a destructor `2` whose
body is empty (`PRECODEPOS`, `END`), and a method `3`. -/
def sampleContextes : List ((Nat × Nat) × ExportCtx) :=
  [((0xC1, 1), ⟨false, [.TYPE_PRECODEPOS, .other 7, .TYPE_END]⟩),
   ((0xC1, 2), ⟨false, [.TYPE_PRECODEPOS, .TYPE_END]⟩),
   ((0xC1, 3), ⟨false, [.TYPE_END]⟩)]

/-! ## The `dds` tool -/

/-- What a call of `dumpdataset` did: its return code, the path given to
`DumpInfoFile`, and the path of the output stream it opened, if it got that far. -/
structure DdsRun where
  ret : Int
  inputFile : String
  outputFile : Option String
  deriving DecidableEq, Repr

/-- `dumpdataset` (lines 1907-1938), `argc` being the length of `argv`.  `DumpInfoFile`
is the return code of the function of that name for a path. -/
def dumpdataset (DumpInfoFile : String → Int) (argv : List String) : DdsRun :=
  let argc := argv.length
  let inputFile := "scriptparsetree"
  let outputFile := "dataset.csv"
  let inputFile :=
    if argc > 2 then
      if argc > 3 then argv.getD 3 "" else argv.getD 2 ""
    else inputFile
  let ret := DumpInfoFile inputFile
  if ret ≠ 0 then ⟨ret, inputFile, none⟩
  else ⟨0, inputFile, some outputFile⟩

/-! ## Sample inputs for the wrapper size and the opcode test -/

/-- A 24-byte file: `GSIC`, no field, then `80 47 53 43 0D 0A 00 36` and eight zero
bytes; 16 bytes remain after the 8-byte wrapper. -/
def gsicShortBlob : Mem :=
  memOfBytes [0x47, 0x53, 0x49, 0x43, 0, 0, 0, 0,
    0x80, 0x47, 0x53, 0x43, 0x0d, 0x0a, 0x00, 0x36]

/-- An export `<opcode 0x2000>; End`. -/
def topBitExport : Mem := memOfBytes [0x00, 0x20, 0x10, 0x00]

/-! ## `hashutils` masks -/

/-- `hashutils::MASK62` (`hashutils.hpp`, line 6): `0xFFFFFFFFFFFFFFFull`. -/
def MASK62 : Nat := 0xFFFFFFFFFFFFFFF

/-- `hashutils::MASK63` (`hashutils.hpp`, line 7): `0x7FFFFFFFFFFFFFFFull`. -/
def MASK63 : Nat := 0x7FFFFFFFFFFFFFFF

/-! ## `ReadLineString` -/

/-- The characters the loop of `ReadLineString` (`gsc_gdb.cpp`, lines 124-153) writes to
`newStr` for the rest of the line, characters being their codes (`0x5c` is the
backslash).  A character other than a backslash is copied.  After a backslash `i` is
incremented: when `i < line.length()` the branch with the warning writes a backslash and
continues, and the loop's own `i++` then steps over the character that followed; when
the backslash was the last character, `line[i]` is the terminating zero of the string
and the `default` case of the switch writes it. -/
def readLineWritten : List Nat → List Nat
  | [] => []
  | [c] => if c ≠ 0x5c then [c] else [0]
  | c :: d :: rest =>
    if c ≠ 0x5c then c :: readLineWritten (d :: rest)
    else 0x5c :: readLineWritten rest

/-- `ReadLineString(line, start)` for `start` within the line (the caller passes the
index after a separator it found): the written characters up to the first zero (a zero
is appended after the loop, and the `std::string` returned is built from the `char*`). -/
def ReadLineString (line : List Nat) (start : Nat) : List Nat :=
  (readLineWritten (line.drop start)).takeWhile (fun c => decide (c ≠ 0))

/-- The decoding the specification describes: a backslash followed by `n`, `t`, `r` or
`b` becomes newline, tab, carriage return or backspace, a backslash followed by any
other character becomes that character, every other character is copied. -/
def decodeEscapes : List Nat → List Nat
  | [] => []
  | [c] => [c]
  | c :: d :: rest =>
    if c ≠ 0x5c then c :: decodeEscapes (d :: rest)
    else if d = 0x6e then 0x0a :: decodeEscapes rest
    else if d = 0x74 then 0x09 :: decodeEscapes rest
    else if d = 0x72 then 0x0d :: decodeEscapes rest
    else if d = 0x62 then 0x08 :: decodeEscapes rest
    else d :: decodeEscapes rest

/-! ## Link patching on the blob itself -/

/-- A field of a struct laid over the blob: its offset in the struct and its width in
bytes.  The structs `T8GSCOBJ`, `GscObj23`, `T8GSCImport`, `IW23GSCImport`,
`T8GSCGlobalVar`, `T8GSCString` and `GSC_USEANIMTREE_ITEM` are declared in
`tools/gsc.hpp`, outside the files embedded here, so their fields are parameters. -/
structure Field where
  off : Nat
  width : Nat
  deriving DecidableEq, Repr

/-- Little-endian load of `w` bytes at `file + o`. -/
def readLE (m : Mem) (o : Nat) : Nat → Nat
  | 0 => 0
  | w + 1 => readU8 m o + 256 * readLE m (o + 1) w

/-- The value of the field `f` of the struct at `file + loc`, as the blob holds it
now. -/
def Field.get (f : Field) (m : Mem) (loc : Nat) : Nat := readLE m (loc + f.off) f.width

/-- Layout of `GSC_USEANIMTREE_ITEM`. -/
structure UseAnimTreeLayout where
  sizeof : Nat
  num_address : Field
  address : Field

/-- Layout of `T8GSCString`. -/
structure StringLayout where
  sizeof : Nat
  num_address : Field
  string : Field

/-- Layout of `IW23GSCImport`. -/
structure Import64Layout where
  sizeof : Nat
  num_address : Field
  name : Field
  name_space : Field
  param_count : Field
  flags : Field

/-- Layout of `T8GSCImport`. -/
structure ImportLayout where
  sizeof : Nat
  num_address : Field
  name : Field
  import_namespace : Field
  param_count : Field
  flags : Field

/-- Layout of `T8GSCGlobalVar`. -/
structure GlobalVarLayout where
  sizeof : Nat
  num_address : Field
  name : Field

/-- What `PatchCode` takes from the reader and from `tools/gsc.hpp`: the header field
each getter returns (the header is at `file`; a getter that returns the constant `0`
is a field of width `0`), the layouts of the table entries, and the two virtual
hooks.  `DecryptString` takes the offset of a string to the offset of its clear text;
the decryption itself (`decrypt.hpp`, outside the files embedded here) is taken to
leave the header, the tables and the fixups as they are. -/
structure BlobLayout where
  GetAnimTreeSingleOffset : Field
  GetAnimTreeSingleCount : Field
  GetStringsOffset : Field
  GetStringsCount : Field
  GetImportsOffset : Field
  GetImportsCount : Field
  GetAnimTreeDoubleOffset : Field
  GetAnimTreeDoubleCount : Field
  GetGVarsOffset : Field
  GetGVarsCount : Field
  GetFileSize : Field
  unk2c : UseAnimTreeLayout
  str : StringLayout
  imp64 : Import64Layout
  imp : ImportLayout
  globalvar : GlobalVarLayout
  RemapFlagsImport : Nat → Nat
  DecryptString : Nat → Nat

/-- The fixup slot `j` behind the entry at `loc` (`vars[j]`, a `uint32_t` of the array
that starts at `&entry[1]`), as the blob holds it now. -/
def slotAt (m : Mem) (loc sizeof j : Nat) : Nat := readU32 m (loc + sizeof + 4 * j)

/-- The loop `for (size_t j = 0; j < entry->num_address; j++)` of `PatchCode` from turn
`j` on: `num_address m` is the field as the blob holds it at the test, `site s j` is the
body.  `fuel` bounds the turns left; the callers pass `256 ^ width` for a field of
`width` bytes, which `j` cannot reach while the test holds. -/
def siteLoop (num_address : Mem → Nat) (site : Mem × T8GSCOBJContext → Nat →
    Mem × T8GSCOBJContext) : Nat → Nat → Mem × T8GSCOBJContext → Mem × T8GSCOBJContext
  | 0, _, s => s
  | fuel + 1, j, s =>
    if j < num_address s.1 then siteLoop num_address site fuel (j + 1) (site s j)
    else s

/-- A table loop of `PatchCode`: `count` entries from `file + loc` on; after the body
`entry` the location advances by `sizeof(*entry) + sizeof(uint32_t) * entry->num_address`,
the field being read again from the blob as patched so far. -/
def tableLoop (sizeof : Nat) (num_address : Field)
    (entry : Nat → Mem × T8GSCOBJContext → Mem × T8GSCOBJContext) :
    Nat → Nat → Mem × T8GSCOBJContext → Mem × T8GSCOBJContext
  | 0, _, s => s
  | count + 1, loc, s =>
    let s1 := entry loc s
    tableLoop sizeof num_address entry count
      (loc + sizeof + 4 * num_address.get s1.1 loc) s1

/-- Body of the single-animtree loop of `PatchCode` (lines 340-353) for the entry at
`unk2c_location`. -/
def patchAnimTreeSingleAt (L : BlobLayout) (unk2c_location : Nat)
    (s : Mem × T8GSCOBJContext) : Mem × T8GSCOBJContext :=
  let r := s.2.AddStringValue (L.unk2c.address.get s.1 unk2c_location)
  if r.1 > 256 then (s.1, r.2)
  else
    siteLoop (fun m => L.unk2c.num_address.get m unk2c_location)
      (fun s j => (writeU8 s.1 (slotAt s.1 unk2c_location L.unk2c.sizeof j) r.1, s.2))
      (256 ^ L.unk2c.num_address.width) 0 (s.1, r.2)

/-- Body of the string loop of `PatchCode` (lines 361-374 and 486-498) for the entry at
`str_location`. -/
def patchStringAt (L : BlobLayout) (str_location : Nat) (s : Mem × T8GSCOBJContext) :
    Mem × T8GSCOBJContext :=
  let cstr := L.DecryptString (L.str.string.get s.1 str_location)
  let r := s.2.AddStringValue cstr
  siteLoop (fun m => L.str.num_address.get m str_location)
    (fun s j => (writeU32 s.1 (slotAt s.1 str_location L.str.sizeof j) r.1, s.2))
    (256 ^ L.str.num_address.width) 0 (s.1, r.2)

/-- The fixup slots behind an entry, read from the blob: `n` slots from `base` on. -/
def decodeSlots (m : Mem) (base n : Nat) : List Nat :=
  (List.range n).map (fun j => readU32 m (base + 4 * j))

/-- The wide-hash import entry at `loc` as the blob holds it now, with the fixup list
that trails it. -/
def decodeImport64 (L : BlobLayout) (m : Mem) (loc : Nat) : IW23GSCImport :=
  { name := L.imp64.name.get m loc
    name_space := L.imp64.name_space.get m loc
    param_count := L.imp64.param_count.get m loc
    flags := L.imp64.flags.get m loc
    fixups := decodeSlots m (loc + L.imp64.sizeof) (L.imp64.num_address.get m loc) }

/-- Body of the outer import loop of `PatchCode` on the wide-hash path (lines 381-390)
for the entry at `import_location`: each turn reads the slot, pushes the entry as the
blob holds it at that moment, then stores the 16-bit index. -/
def patchImport64At (L : BlobLayout) (import_location : Nat) (s : Mem × T8GSCOBJContext) :
    Mem × T8GSCOBJContext :=
  siteLoop (fun m => L.imp64.num_address.get m import_location)
    (fun s j =>
      (writeU16 s.1 (slotAt s.1 import_location L.imp64.sizeof j)
          s.2.m_linkedImports.length,
        { s.2 with
          m_linkedImports := s.2.m_linkedImports ++ [decodeImport64 L s.1 import_location] }))
    (256 ^ L.imp64.num_address.width) 0 s

/-- Body of the double-animtree loop of `PatchCode` (lines 397-414) for the entry at
`animt_location`; `GSC_ANIMTREE_ITEM` (lines 325-329) is three `uint32_t`:
`num_address`, `address_str1`, `address_str2`. -/
def patchAnimTreeDoubleAt (animt_location : Nat) (s : Mem × T8GSCOBJContext) :
    Mem × T8GSCOBJContext :=
  let r1 := s.2.AddStringValue (readU32 s.1 (animt_location + 4))
  let r2 := r1.2.AddStringValue (readU32 s.1 (animt_location + 8))
  siteLoop (fun m => readU32 m animt_location)
    (fun s j =>
      (writeU32 (writeU32 s.1 (slotAt s.1 animt_location 12 j) r1.1)
          (slotAt s.1 animt_location 12 j + 4) r2.1, s.2))
    (256 ^ 4) 0 (s.1, r2.2)

/-- Body of the inner import loop of `PatchCode` on the Treyarch path (lines 429-463)
for the slot `j` of the entry at `import_location`: every `imp->...` and `imports[j]`
is read from the blob when the statement that uses it runs. -/
def patchImportSiteAt (L : BlobLayout) (F : T8GSCImportFlags) (import_location : Nat)
    (m : Mem) (j : Nat) : Mem :=
  let remapedFlags := L.RemapFlagsImport (L.imp.flags.get m import_location)
  let k := remapedFlags &&& F.CALLTYPE_MASK
  let r : Mem × Option Nat :=
    if k = F.FUNC_METHOD then
      (m, some (alignUp 8 (slotAt m import_location L.imp.sizeof j + 2)))
    else if k = F.FUNCTION ∨ k = F.FUNCTION_THREAD ∨ k = F.FUNCTION_CHILDTHREAD ∨
        k = F.METHOD ∨ k = F.METHOD_THREAD ∨ k = F.METHOD_CHILDTHREAD then
      let m1 := writeU8 m (slotAt m import_location L.imp.sizeof j + 2)
        (L.imp.param_count.get m import_location)
      (m1, some (alignUp 8 (slotAt m1 import_location L.imp.sizeof j + 2 + 1)))
    else (m, none)
  match r with
  | (m1, none) => m1
  | (m1, some loc) =>
    let m2 := writeU32 m1 loc (L.imp.name.get m1 import_location)
    if remapedFlags &&& F.GET_CALL ≠ 0 then
      writeU32 m2 (loc + 4) 0xc1243180
    else
      writeU32 m2 (loc + 4) (L.imp.import_namespace.get m2 import_location)

/-- Body of the outer import loop of `PatchCode` on the Treyarch path for the entry at
`import_location`. -/
def patchImportAt (L : BlobLayout) (F : T8GSCImportFlags) (import_location : Nat)
    (s : Mem × T8GSCOBJContext) : Mem × T8GSCOBJContext :=
  siteLoop (fun m => L.imp.num_address.get m import_location)
    (fun s j => (patchImportSiteAt L F import_location s.1 j, s.2))
    (256 ^ L.imp.num_address.width) 0 s

/-- Body of the global-variable loop of `PatchCode` (lines 471-479) for the entry at
`gvars_location`. -/
def patchGlobalVarAt (L : BlobLayout) (gvars_location : Nat) (s : Mem × T8GSCOBJContext) :
    Mem × T8GSCOBJContext :=
  let r := s.2.AddGlobalVarName (L.globalvar.name.get s.1 gvars_location)
  siteLoop (fun m => L.globalvar.num_address.get m gvars_location)
    (fun s j => (writeU16 s.1 (slotAt s.1 gvars_location L.globalvar.sizeof j) r.1, s.2))
    (256 ^ L.globalvar.num_address.width) 0 (s.1, r.2)

/-- `GSCOBJReader::PatchCode` on the blob itself (lines 331-499): the getters, the
entries, their `num_address` and their fixup slots are read from the blob as it is when
the statement runs, so a store that lands on the header or on a table changes what is
read afterwards.  `hash64` is `ctx.m_vmInfo->flags & VMF_HASH64`.  The calls into the
hash dictionary (`hashutils::Add`) and the string dump store touch neither the blob
nor the context and are left out. -/
def PatchCodeBlob (L : BlobLayout) (hash64 : Bool) (F : T8GSCImportFlags)
    (s : Mem × T8GSCOBJContext) : Mem × T8GSCOBJContext :=
  if hash64 then
    let s1 := if L.GetAnimTreeSingleOffset.get s.1 0 ≠ 0 then
      tableLoop L.unk2c.sizeof L.unk2c.num_address (patchAnimTreeSingleAt L)
        (L.GetAnimTreeSingleCount.get s.1 0) (L.GetAnimTreeSingleOffset.get s.1 0) s
      else s
    let s2 := tableLoop L.str.sizeof L.str.num_address (patchStringAt L)
      (L.GetStringsCount.get s1.1 0) (L.GetStringsOffset.get s1.1 0) s1
    let s3 := tableLoop L.imp64.sizeof L.imp64.num_address (patchImport64At L)
      (L.GetImportsCount.get s2.1 0) (L.GetImportsOffset.get s2.1 0) s2
    if L.GetAnimTreeDoubleOffset.get s3.1 0 ≠ 0 then
      tableLoop 12 ⟨0, 4⟩ patchAnimTreeDoubleAt
        (L.GetAnimTreeDoubleCount.get s3.1 0) (L.GetAnimTreeDoubleOffset.get s3.1 0) s3
    else s3
  else
    let s1 := tableLoop L.imp.sizeof L.imp.num_address (patchImportAt L F)
      (L.GetImportsCount.get s.1 0) (L.GetImportsOffset.get s.1 0) s
    let s2 := tableLoop L.globalvar.sizeof L.globalvar.num_address (patchGlobalVarAt L)
      (L.GetGVarsCount.get s1.1 0) (L.GetGVarsOffset.get s1.1 0) s1
    tableLoop L.str.sizeof L.str.num_address (patchStringAt L)
      (L.GetStringsCount.get s2.1 0) (L.GetStringsOffset.get s2.1 0) s2

/-! ## The tables as the blob lists them before patching -/

/-- A table of `count` entries from `loc` on, decoded from the blob `m`: `dec m loc` is
the entry at `loc`. -/
def decodeTable {E : Type} (sizeof : Nat) (num_address : Field) (dec : Mem → Nat → E)
    (m : Mem) : Nat → Nat → List E
  | 0, _ => []
  | count + 1, loc =>
    dec m loc ::
      decodeTable sizeof num_address dec m count (loc + sizeof + 4 * num_address.get m loc)

/-- The Treyarch import entry at `loc`. -/
def decodeImport (L : BlobLayout) (m : Mem) (loc : Nat) : T8GSCImport :=
  { name := L.imp.name.get m loc
    import_namespace := L.imp.import_namespace.get m loc
    param_count := L.imp.param_count.get m loc
    flags := L.imp.flags.get m loc
    fixups := decodeSlots m (loc + L.imp.sizeof) (L.imp.num_address.get m loc) }

/-- The global-variable entry at `loc`. -/
def decodeGlobalVar (L : BlobLayout) (m : Mem) (loc : Nat) : T8GSCGlobalVar :=
  { name := L.globalvar.name.get m loc
    fixups := decodeSlots m (loc + L.globalvar.sizeof) (L.globalvar.num_address.get m loc) }

/-- The string entry at `loc`. -/
def decodeString (L : BlobLayout) (m : Mem) (loc : Nat) : T8GSCString :=
  { string := L.str.string.get m loc
    fixups := decodeSlots m (loc + L.str.sizeof) (L.str.num_address.get m loc) }

/-- The single-animtree entry at `loc`. -/
def decodeAnimTreeSingle (L : BlobLayout) (m : Mem) (loc : Nat) : GSC_USEANIMTREE_ITEM :=
  { address := L.unk2c.address.get m loc
    fixups := decodeSlots m (loc + L.unk2c.sizeof) (L.unk2c.num_address.get m loc) }

/-- The double-animtree entry at `loc`. -/
def decodeAnimTreeDouble (m : Mem) (loc : Nat) : GSC_ANIMTREE_ITEM :=
  { address_str1 := readU32 m (loc + 4)
    address_str2 := readU32 m (loc + 8)
    fixups := decodeSlots m (loc + 12) (readU32 m loc) }

/-- The reader's tables as the blob `m` lists them: what `PatchCode` reads when no store
lands on the header or on a table. -/
def decodeReader (L : BlobLayout) (m : Mem) : GSCOBJReader where
  imports := decodeTable L.imp.sizeof L.imp.num_address (decodeImport L) m
    (L.GetImportsCount.get m 0) (L.GetImportsOffset.get m 0)
  imports64 := decodeTable L.imp64.sizeof L.imp64.num_address (decodeImport64 L) m
    (L.GetImportsCount.get m 0) (L.GetImportsOffset.get m 0)
  gvars := decodeTable L.globalvar.sizeof L.globalvar.num_address (decodeGlobalVar L) m
    (L.GetGVarsCount.get m 0) (L.GetGVarsOffset.get m 0)
  strings := decodeTable L.str.sizeof L.str.num_address (decodeString L) m
    (L.GetStringsCount.get m 0) (L.GetStringsOffset.get m 0)
  GetAnimTreeSingleOffset := L.GetAnimTreeSingleOffset.get m 0
  animTreeSingle := decodeTable L.unk2c.sizeof L.unk2c.num_address (decodeAnimTreeSingle L) m
    (L.GetAnimTreeSingleCount.get m 0) (L.GetAnimTreeSingleOffset.get m 0)
  GetAnimTreeDoubleOffset := L.GetAnimTreeDoubleOffset.get m 0
  animTreeDouble := decodeTable 12 ⟨0, 4⟩ decodeAnimTreeDouble m
    (L.GetAnimTreeDoubleCount.get m 0) (L.GetAnimTreeDoubleOffset.get m 0)
  RemapFlagsImport := L.RemapFlagsImport
  DecryptString := L.DecryptString
  GetFileSize := L.GetFileSize.get m 0

/-- The bytes of one entry that `PatchCode` reads: the given fields and the fixup
slots, each as a start and a length. -/
def entryRegions (sizeof : Nat) (num_address : Field) (fields : List Field) (m : Mem)
    (loc : Nat) : List (Nat × Nat) :=
  (num_address :: fields).map (fun f => (loc + f.off, f.width)) ++
    [(loc + sizeof, 4 * num_address.get m loc)]

/-- The bytes of a table that `PatchCode` reads. -/
def tableRegions (sizeof : Nat) (num_address : Field) (fields : List Field) (m : Mem) :
    Nat → Nat → List (Nat × Nat)
  | 0, _ => []
  | count + 1, loc =>
    entryRegions sizeof num_address fields m loc ++
      tableRegions sizeof num_address fields m count
        (loc + sizeof + 4 * num_address.get m loc)

/-- The bytes of the blob `m` that `PatchCode` reads on the given path when no store
lands on them: the header fields behind the getters and the tables. -/
def readRegions (L : BlobLayout) (hash64 : Bool) (m : Mem) : List (Nat × Nat) :=
  [L.GetAnimTreeSingleOffset, L.GetAnimTreeSingleCount, L.GetStringsOffset,
    L.GetStringsCount, L.GetImportsOffset, L.GetImportsCount, L.GetAnimTreeDoubleOffset,
    L.GetAnimTreeDoubleCount, L.GetGVarsOffset, L.GetGVarsCount].map
      (fun f => (0 + f.off, f.width)) ++
  (if hash64 then
    (if L.GetAnimTreeSingleOffset.get m 0 ≠ 0 then
      tableRegions L.unk2c.sizeof L.unk2c.num_address [L.unk2c.address] m
        (L.GetAnimTreeSingleCount.get m 0) (L.GetAnimTreeSingleOffset.get m 0)
      else []) ++
    tableRegions L.str.sizeof L.str.num_address [L.str.string] m
      (L.GetStringsCount.get m 0) (L.GetStringsOffset.get m 0) ++
    tableRegions L.imp64.sizeof L.imp64.num_address
      [L.imp64.name, L.imp64.name_space, L.imp64.param_count, L.imp64.flags] m
      (L.GetImportsCount.get m 0) (L.GetImportsOffset.get m 0) ++
    (if L.GetAnimTreeDoubleOffset.get m 0 ≠ 0 then
      tableRegions 12 ⟨0, 4⟩ [⟨4, 4⟩, ⟨8, 4⟩] m
        (L.GetAnimTreeDoubleCount.get m 0) (L.GetAnimTreeDoubleOffset.get m 0)
      else [])
  else
    tableRegions L.imp.sizeof L.imp.num_address
      [L.imp.name, L.imp.import_namespace, L.imp.param_count, L.imp.flags] m
      (L.GetImportsCount.get m 0) (L.GetImportsOffset.get m 0) ++
    tableRegions L.globalvar.sizeof L.globalvar.num_address [L.globalvar.name] m
      (L.GetGVarsCount.get m 0) (L.GetGVarsOffset.get m 0) ++
    tableRegions L.str.sizeof L.str.num_address [L.str.string] m
      (L.GetStringsCount.get m 0) (L.GetStringsOffset.get m 0))

/-- The store leaves the bytes `[rg.1, rg.1 + rg.2)` alone. -/
def Store.avoids (s : Store) (rg : Nat × Nat) : Prop :=
  s.off + s.width ≤ rg.1 ∨ rg.1 + rg.2 ≤ s.off

instance (s : Store) (rg : Nat × Nat) : Decidable (s.avoids rg) := by
  unfold Store.avoids; infer_instance

/-- No store of the list lands on a byte of the regions. -/
def storesAvoid (stores : List Store) (R : List (Nat × Nat)) : Prop :=
  ∀ s ∈ stores, ∀ rg ∈ R, s.avoids rg

instance (stores : List Store) (R : List (Nat × Nat)) : Decidable (storesAvoid stores R) := by
  unfold storesAvoid; infer_instance

/-- The blob `m` holds what `m0` holds on every byte of the regions. -/
def Agree (R : List (Nat × Nat)) (m m0 : Mem) : Prop :=
  ∀ rg ∈ R, ∀ a, rg.1 ≤ a → a < rg.1 + rg.2 → m a = m0 a

/-! ## Concrete blobs with their tables in place -/

/-- A layout for concrete runs: the header fields one after the other from offset `0`,
32-bit offsets and 16-bit counts; entries with 32-bit names and string offsets (64-bit
names in the wide-hash import), identity flag remapping and identity decryption. -/
def sampleLayout : BlobLayout where
  GetAnimTreeSingleOffset := ⟨0, 4⟩
  GetAnimTreeSingleCount := ⟨4, 2⟩
  GetStringsOffset := ⟨8, 4⟩
  GetStringsCount := ⟨12, 2⟩
  GetImportsOffset := ⟨16, 4⟩
  GetImportsCount := ⟨20, 2⟩
  GetAnimTreeDoubleOffset := ⟨24, 4⟩
  GetAnimTreeDoubleCount := ⟨28, 2⟩
  GetGVarsOffset := ⟨32, 4⟩
  GetGVarsCount := ⟨36, 2⟩
  GetFileSize := ⟨40, 4⟩
  unk2c := { sizeof := 8, num_address := ⟨0, 4⟩, address := ⟨4, 4⟩ }
  str := { sizeof := 8, num_address := ⟨4, 1⟩, string := ⟨0, 4⟩ }
  imp64 := { sizeof := 24, num_address := ⟨16, 2⟩, name := ⟨0, 8⟩, name_space := ⟨8, 8⟩,
             param_count := ⟨18, 1⟩, flags := ⟨19, 1⟩ }
  imp := { sizeof := 12, num_address := ⟨8, 2⟩, name := ⟨0, 4⟩, import_namespace := ⟨4, 4⟩,
           param_count := ⟨10, 1⟩, flags := ⟨11, 1⟩ }
  globalvar := { sizeof := 8, num_address := ⟨4, 4⟩, name := ⟨0, 4⟩ }
  RemapFlagsImport := id
  DecryptString := id

/-- The `w` bytes of `v`, least significant first. -/
def leBytes (w v : Nat) : List Nat := (List.range w).map (fun i => v / 256 ^ i % 256)

/-- A header in `sampleLayout`, 48 bytes: each table as offset and count, then the file
size. -/
def sampleHeader (single strings imports double gvars : Nat × Nat) (fileSize : Nat) :
    List Nat :=
  leBytes 4 single.1 ++ leBytes 4 single.2 ++ leBytes 4 strings.1 ++ leBytes 4 strings.2 ++
  leBytes 4 imports.1 ++ leBytes 4 imports.2 ++ leBytes 4 double.1 ++ leBytes 4 double.2 ++
  leBytes 4 gvars.1 ++ leBytes 4 gvars.2 ++ leBytes 4 fileSize ++ leBytes 4 0

/-- The fixup slots behind an entry. -/
def slotBytes (fixups : List Nat) : List Nat := (fixups.map (leBytes 4)).flatten

/-- A single-animtree entry in `sampleLayout`. -/
def useAnimTreeEntry (address : Nat) (fixups : List Nat) : List Nat :=
  leBytes 4 fixups.length ++ leBytes 4 address ++ slotBytes fixups

/-- A string entry in `sampleLayout`. -/
def stringEntry (string : Nat) (fixups : List Nat) : List Nat :=
  leBytes 4 string ++ [fixups.length, 0, 0, 0] ++ slotBytes fixups

/-- A wide-hash import entry in `sampleLayout`. -/
def import64Entry (name name_space param_count flags : Nat) (fixups : List Nat) : List Nat :=
  leBytes 8 name ++ leBytes 8 name_space ++ leBytes 2 fixups.length ++ [param_count, flags] ++
    [0, 0, 0, 0] ++ slotBytes fixups

/-- A double-animtree entry. -/
def animTreeEntry (address_str1 address_str2 : Nat) (fixups : List Nat) : List Nat :=
  leBytes 4 fixups.length ++ leBytes 4 address_str1 ++ leBytes 4 address_str2 ++
    slotBytes fixups

/-- A Treyarch import entry in `sampleLayout`. -/
def importEntry (name import_namespace param_count flags : Nat) (fixups : List Nat) :
    List Nat :=
  leBytes 4 name ++ leBytes 4 import_namespace ++ leBytes 2 fixups.length ++
    [param_count, flags] ++ slotBytes fixups

/-- A global-variable entry in `sampleLayout`. -/
def globalVarEntry (name : Nat) (fixups : List Nat) : List Nat :=
  leBytes 4 name ++ leBytes 4 fixups.length ++ slotBytes fixups

/-- A Treyarch blob of file size `0x100` with one `FUNCTION` import (name `0x11223344`,
namespace `0x55667788`, three parameters) at `0x30` that lists the callsites `0x80` and
`0x86`; no global variable, no string. -/
def twoCallsitesBlob : Mem := memOfBytes
  (sampleHeader (0, 0) (0, 0) (0x30, 1) (0, 0) (0, 0) 0x100 ++
    importEntry 0x11223344 0x55667788 3 2 [0x80, 0x86])

/-- A Treyarch blob of file size `0x100`: one `FUNCTION` import at `0x30` with the
callsites `0x80` and `0x90`, two global variables from `0x44` and two strings from
`0x5C`, all on pairwise disjoint fixups behind the tables. -/
def disjointBlob : Mem := memOfBytes
  (sampleHeader (0, 0) (0x5C, 2) (0x30, 1) (0, 0) (0x44, 2) 0x100 ++
    importEntry 0x11223344 0x55667788 2 2 [0x80, 0x90] ++
    globalVarEntry 7 [0xA0] ++ globalVarEntry 9 [0xA2] ++
    stringEntry 0xE0 [0xA4] ++ stringEntry 0xE8 [0xA8, 0xAC])

/-- A Treyarch blob of file size `0x100`: two global variables from `0x30`, the second
with the fixup `0x200`, and two strings from `0x48` that both list the fixup `0x90`. -/
def outOfRangeBlob : Mem := memOfBytes
  (sampleHeader (0, 0) (0x48, 2) (0, 0) (0, 0) (0x30, 2) 0x100 ++
    globalVarEntry 7 [0xA0] ++ globalVarEntry 9 [0x200] ++
    stringEntry 0xE0 [0x90] ++ stringEntry 0xE4 [0x90])

/-- A Treyarch blob of file size `0x100`: one global variable at `0x30` whose fixup is
`0x50`, the place of the fixup slot of the second of the two strings from `0x3C`; the
strings list the fixups `0x90` and `0x94`. -/
def slotHitBlob : Mem := memOfBytes
  (sampleHeader (0, 0) (0x3C, 2) (0, 0) (0, 0) (0x30, 1) 0x100 ++
    globalVarEntry 7 [0x50] ++
    stringEntry 0xE0 [0x90] ++ stringEntry 0xE4 [0x94])

/-- A wide-hash blob of file size `0x200`: two single-animtree entries from `0x30`, a
string at `0x4C`, two imports from `0x58` and a double-animtree entry at `0x94`, all on
pairwise disjoint fixups behind the tables. -/
def disjointBlob64 : Mem := memOfBytes
  (sampleHeader (0x30, 2) (0x4C, 1) (0x58, 2) (0x94, 1) (0, 0) 0x200 ++
    useAnimTreeEntry 0xE0 [0x100] ++ useAnimTreeEntry 0xE4 [0x101, 0x102] ++
    stringEntry 0xE8 [0x104] ++
    import64Entry 0x1122334455667788 0x99 1 4 [0x110, 0x120] ++
    import64Entry 0x8877665544332211 0x77 0 9 [0x130] ++
    animTreeEntry 0xEC 0xF0 [0x140])

/-- A wide-hash blob of file size `0x200`: two imports from `0x30` with the callsites
`0x100` and `0x104`, and a double-animtree entry at `0x68` that lists the fixup `0x104`
too. -/
def clobberedImportBlob64 : Mem := memOfBytes
  (sampleHeader (0, 0) (0, 0) (0x30, 2) (0x68, 1) (0, 0) 0x200 ++
    import64Entry 0xA 1 0 4 [0x100] ++ import64Entry 0xB 1 0 4 [0x104] ++
    animTreeEntry 0xE0 0xE4 [0x104])

/-- A wide-hash blob of file size `0x200` whose two single-animtree entries, from
`0x30`, list the same fixup `0x100`. -/
def sharedFixupBlob64 : Mem := memOfBytes
  (sampleHeader (0x30, 2) (0, 0) (0, 0) (0, 0) (0, 0) 0x200 ++
    useAnimTreeEntry 0xE0 [0x100] ++ useAnimTreeEntry 0xE4 [0x100])

/-! ## The special-pattern pass and its skip bit -/

/-- Modelled from the spec: `ASMContext::ComputeSpecialPattern` is defined in
`gsc_opcodes.cpp`, outside the files embedded here.  The spec lists the special patterns
as the ninth of the passes "each gated by a skip bit" and calls them "gated
individually"; `gsc.cpp` sets `STEPSKIP_SPECIAL_PATTERN` for the letter `S` of `--ignore`,
lists it in the help text as an ignorable step and tests it nowhere (it tests neither
`STEPSKIP_DEVBLOCK_INLINE` nor `STEPSKIP_CLASSMEMBER_INLINE` either), so the test is taken to
sit in the pass itself.  `patterns` is the rewriting the pass does when it is not
skipped. -/
def ComputeSpecialPattern {σ : Type} (K : StepSkip) (patterns : σ → σ) (m_stepskip : Nat)
    (asmctx : σ) : σ :=
  if m_stepskip &&& K.STEPSKIP_SPECIAL_PATTERN = 0 then patterns asmctx else asmctx

/-- The effect of calling a pass, given the rewriting `work p` that the pass `p` does
when it runs: the call of the special-pattern pass goes through
`ComputeSpecialPattern`, the eight other calls are the rewriting itself. -/
def callPass {σ : Type} (K : StepSkip) (work : Pass → σ → σ) (m_stepskip : Nat) :
    Pass → σ → σ
  | .ComputeSpecialPattern, asmctx =>
    ComputeSpecialPattern K (work .ComputeSpecialPattern) m_stepskip asmctx
  | p, asmctx => work p asmctx

/-- The nine passes in call order, each with its skip bit. -/
def ninePasses (K : StepSkip) : List (Pass × Nat) :=
  gatedPasses K ++ [(.ComputeSpecialPattern, K.STEPSKIP_SPECIAL_PATTERN)]

/-- The passes whose skip bit is clear in `m_stepskip`, in call order. -/
def passesRun (K : StepSkip) (m_stepskip : Nat) : List Pass :=
  ((ninePasses K).filter (fun pb => decide (m_stepskip &&& pb.2 = 0))).map Prod.fst

/-! ## Header validation: proofs -/

theorem readU8_lt (m : Mem) (o : Nat) : readU8 m o < 256 := by
  unfold readU8; omega

theorem readU64_eq_iff_bytes (m : Mem) (v : Nat) (hv : v < 2 ^ 64) :
    readU64 m 0 = v ↔ ∀ i, i < 8 → readU8 m i = v / 256 ^ i % 256 := by
  have h0 := readU8_lt m 0
  have h1 := readU8_lt m 1
  have h2 := readU8_lt m 2
  have h3 := readU8_lt m 3
  have h4 := readU8_lt m 4
  have h5 := readU8_lt m 5
  have h6 := readU8_lt m 6
  have h7 := readU8_lt m 7
  simp only [readU64, readU32, readU16]
  norm_num at hv ⊢
  constructor
  · intro h i hi
    interval_cases i <;> norm_num <;> omega
  · intro h
    have e0 := h 0 (by omega)
    have e1 := h 1 (by omega)
    have e2 := h 2 (by omega)
    have e3 := h 3 (by omega)
    have e4 := h 4 (by omega)
    have e5 := h 5 (by omega)
    have e6 := h 6 (by omega)
    have e7 := h 7 (by omega)
    norm_num at e0 e1 e2 e3 e4 e5 e6 e7
    omega

theorem Reader.magic_lt (r : Reader) : r.magic < 2 ^ 64 := by
  cases r <;> decide

/-- C1: for each of the four readers, `IsValidHeader(size)` is true when `size`
is at least the header struct size and the first eight bytes are the reader's
magic, false as soon as one of the eight bytes differs from the magic, and false
when `size` is smaller than the header struct size. -/
theorem IsValidHeader_spec (r : Reader) (headerSize : Nat) (file : Mem) (size : Nat) :
    ((headerSize ≤ size ∧ ∀ i, i < 8 → readU8 file i = r.magicByte i) →
        IsValidHeader r headerSize file size = true) ∧
    ((∃ i, i < 8 ∧ readU8 file i ≠ r.magicByte i) →
        IsValidHeader r headerSize file size = false) ∧
    (size < headerSize → IsValidHeader r headerSize file size = false) := by
  have key := readU64_eq_iff_bytes file r.magic r.magic_lt
  refine ⟨?_, ?_, ?_⟩
  · rintro ⟨hs, hb⟩
    simp [IsValidHeader, hs, key.mpr hb]
  · rintro ⟨i, hi, hne⟩
    have : readU64 file 0 ≠ r.magic := fun h => hne (key.mp h i hi)
    simp [IsValidHeader, this]
  · intro hs
    simp [IsValidHeader, hs]

/-! ## Byte memory: lemmas -/

theorem writeU8_eq_writeLE (m : Mem) (o v : Nat) : writeU8 m o v = writeLE m o 1 v := by
  funext a
  simp only [writeU8, writeLE]
  by_cases h : a = o
  · subst h; simp
  · have : ¬ (o ≤ a ∧ a < o + 1) := by omega
    simp [h, this]

theorem writeU16_eq_writeLE (m : Mem) (o v : Nat) : writeU16 m o v = writeLE m o 2 v := by
  funext a
  simp only [writeU16, writeU8, writeLE]
  by_cases h0 : a = o
  · subst h0; simp
  · by_cases h1 : a = o + 1
    · subst h1; simp
    · have : ¬ (o ≤ a ∧ a < o + 2) := by omega
      simp [h0, h1, this]

theorem writeU32_eq_writeLE (m : Mem) (o v : Nat) : writeU32 m o v = writeLE m o 4 v := by
  funext a
  simp only [writeU32, writeU16, writeU8, writeLE]
  by_cases h0 : a = o
  · subst h0; simp; intro h; omega
  · by_cases h1 : a = o + 1
    · subst h1; simp
    · by_cases h2 : a = o + 2
      · subst h2; simp
      · by_cases h3 : a = o + 3
        · subst h3
          simp [Nat.div_div_eq_div_mul]
        · have : ¬ (o ≤ a ∧ a < o + 4) := by omega
          have e1 : ¬ a = o + 2 + 1 := by omega
          simp [h0, h1, h2, e1, this]

theorem writeLE_apply_of_covers (m : Mem) (o w v a : Nat) (h : o ≤ a ∧ a < o + w) :
    writeLE m o w v a = v / 256 ^ (a - o) % 256 := by
  simp [writeLE, h]

theorem writeLE_apply_of_not_covers (m : Mem) (o w v a : Nat) (h : ¬ (o ≤ a ∧ a < o + w)) :
    writeLE m o w v a = m a := by
  simp [writeLE, h]

theorem readU8_writeLE_of_not_covers (m : Mem) (o w v a : Nat) (h : ¬ (o ≤ a ∧ a < o + w)) :
    readU8 (writeLE m o w v) a = readU8 m a := by
  simp [readU8, writeLE_apply_of_not_covers m o w v a h]

theorem readU8_of_bytes (m : Mem) (o v : Nat) (h0 : m o = v % 256) :
    readU8 m o = v % 256 := by
  simp [readU8, h0]

theorem readU16_of_bytes (m : Mem) (o v : Nat) (h0 : m o = v % 256)
    (h1 : m (o + 1) = v / 256 % 256) : readU16 m o = v % 65536 := by
  simp only [readU16, readU8, h0, h1]
  omega

theorem readU32_of_bytes (m : Mem) (o v : Nat) (h0 : m o = v % 256)
    (h1 : m (o + 1) = v / 256 % 256) (h2 : m (o + 2) = v / 65536 % 256)
    (h3 : m (o + 3) = v / 16777216 % 256) : readU32 m o = v % 4294967296 := by
  have e : o + 2 + 1 = o + 3 := rfl
  simp only [readU32, readU16, readU8, h0, h1, h2, e, h3]
  omega

theorem alignUp8_ge (n : Nat) : n ≤ alignUp 8 n := by
  unfold alignUp; omega

theorem alignUp8_lt (n : Nat) : alignUp 8 n < n + 8 := by
  unfold alignUp; omega

theorem alignUp8_mod (n : Nat) : alignUp 8 n % 8 = 0 := by
  unfold alignUp; omega

theorem readU32_writeLE4_same (m : Mem) (o v : Nat) :
    readU32 (writeLE m o 4 v) o = v % 4294967296 := by
  apply readU32_of_bytes
  · rw [writeLE_apply_of_covers _ _ _ _ _ (by omega)]; simp
  · rw [writeLE_apply_of_covers _ _ _ _ _ (by omega)]; simp
  · rw [writeLE_apply_of_covers _ _ _ _ _ (by omega)]; simp
  · rw [writeLE_apply_of_covers _ _ _ _ _ (by omega)]; simp

theorem readU32_writeLE_disj (m : Mem) (o w v p : Nat) (h : p + 4 ≤ o ∨ o + w ≤ p) :
    readU32 (writeLE m o w v) p = readU32 m p := by
  simp only [readU32, readU16]
  rw [readU8_writeLE_of_not_covers _ _ _ _ _ (by omega),
    readU8_writeLE_of_not_covers _ _ _ _ _ (by omega),
    readU8_writeLE_of_not_covers _ _ _ _ _ (by omega),
    readU8_writeLE_of_not_covers _ _ _ _ _ (by omega)]

/-! ## Link patching: one import callsite -/

theorem patchImportSite_funcMethod (F : T8GSCImportFlags) (remap : Nat → Nat)
    (imp : T8GSCImport) (m : Mem) (o : Nat)
    (hk : remap imp.flags &&& F.CALLTYPE_MASK = F.FUNC_METHOD) :
    patchImportSite F remap imp m o =
      writeLE (writeLE m (alignUp 8 (o + 2)) 4 imp.name) (alignUp 8 (o + 2) + 4) 4
        (if remap imp.flags &&& F.GET_CALL ≠ 0 then 0xc1243180 else imp.import_namespace) := by
  simp only [patchImportSite, importLoc, hk, if_true, writeU32_eq_writeLE]
  split_ifs <;> rfl

theorem patchImportSite_call (F : T8GSCImportFlags) (remap : Nat → Nat)
    (imp : T8GSCImport) (m : Mem) (o : Nat)
    (hk : ¬ remap imp.flags &&& F.CALLTYPE_MASK = F.FUNC_METHOD)
    (hk6 : remap imp.flags &&& F.CALLTYPE_MASK = F.FUNCTION ∨
      remap imp.flags &&& F.CALLTYPE_MASK = F.FUNCTION_THREAD ∨
      remap imp.flags &&& F.CALLTYPE_MASK = F.FUNCTION_CHILDTHREAD ∨
      remap imp.flags &&& F.CALLTYPE_MASK = F.METHOD ∨
      remap imp.flags &&& F.CALLTYPE_MASK = F.METHOD_THREAD ∨
      remap imp.flags &&& F.CALLTYPE_MASK = F.METHOD_CHILDTHREAD) :
    patchImportSite F remap imp m o =
      writeLE (writeLE (writeLE m (o + 2) 1 imp.param_count) (alignUp 8 (o + 3)) 4 imp.name)
        (alignUp 8 (o + 3) + 4) 4
        (if remap imp.flags &&& F.GET_CALL ≠ 0 then 0xc1243180 else imp.import_namespace) := by
  simp only [patchImportSite, importLoc, hk, if_false, hk6, if_true, writeU32_eq_writeLE,
    writeU8_eq_writeLE]
  split_ifs <;> rfl

theorem patchImportSite_unknown (F : T8GSCImportFlags) (remap : Nat → Nat)
    (imp : T8GSCImport) (m : Mem) (o : Nat)
    (hk : ¬ remap imp.flags &&& F.CALLTYPE_MASK = F.FUNC_METHOD)
    (hk6 : ¬ (remap imp.flags &&& F.CALLTYPE_MASK = F.FUNCTION ∨
      remap imp.flags &&& F.CALLTYPE_MASK = F.FUNCTION_THREAD ∨
      remap imp.flags &&& F.CALLTYPE_MASK = F.FUNCTION_CHILDTHREAD ∨
      remap imp.flags &&& F.CALLTYPE_MASK = F.METHOD ∨
      remap imp.flags &&& F.CALLTYPE_MASK = F.METHOD_THREAD ∨
      remap imp.flags &&& F.CALLTYPE_MASK = F.METHOD_CHILDTHREAD)) :
    patchImportSite F remap imp m o = m := by
  simp only [patchImportSite, importLoc, hk, if_false, hk6]

/-! ## Link patching: claims on one import callsite -/

/-- One callsite on the Treyarch path: right after the callsite `o` of an import whose
remapped call kind is one of the seven known kinds is patched, the import's name is in
the 32-bit word at `p` and, in the word at `p + 4`, the import's namespace when the
remapped flags lack `GET_CALL` and the sentinel `0xc1243180` when they have it; `p` is the
least multiple of 8 that is at least `o + 2` for `FUNC_METHOD` and at least `o + 3` for
the six other kinds.  A later callsite may store over these words. -/
theorem patchImportSite_words (F : T8GSCImportFlags) (remap : Nat → Nat)
    (imp : T8GSCImport) (m : Mem) (o : Nat)
    (hname : imp.name < 4294967296) (hns : imp.import_namespace < 4294967296)
    (hk : F.isKnown (remap imp.flags &&& F.CALLTYPE_MASK)) :
    ∃ p base, base = (if remap imp.flags &&& F.CALLTYPE_MASK = F.FUNC_METHOD
        then o + 2 else o + 3) ∧
      p % 8 = 0 ∧ base ≤ p ∧ p < base + 8 ∧
      readU32 (patchImportSite F remap imp m o) p = imp.name ∧
      readU32 (patchImportSite F remap imp m o) (p + 4) =
        (if remap imp.flags &&& F.GET_CALL ≠ 0 then 0xc1243180 else imp.import_namespace) := by
  by_cases hfm : remap imp.flags &&& F.CALLTYPE_MASK = F.FUNC_METHOD
  · refine ⟨alignUp 8 (o + 2), o + 2, by simp [hfm], alignUp8_mod _, alignUp8_ge _,
      alignUp8_lt _, ?_, ?_⟩
    · rw [patchImportSite_funcMethod F remap imp m o hfm,
        readU32_writeLE_disj _ _ _ _ _ (by omega), readU32_writeLE4_same]
      omega
    · rw [patchImportSite_funcMethod F remap imp m o hfm, readU32_writeLE4_same]
      split_ifs <;> omega
  · have h6 : F.isCall (remap imp.flags &&& F.CALLTYPE_MASK) := by
      rcases hk with h | h
      · exact absurd h hfm
      · exact h
    refine ⟨alignUp 8 (o + 3), o + 3, by simp [hfm], alignUp8_mod _, alignUp8_ge _,
      alignUp8_lt _, ?_, ?_⟩
    · rw [patchImportSite_call F remap imp m o hfm h6,
        readU32_writeLE_disj _ _ _ _ _ (by omega), readU32_writeLE4_same]
      omega
    · rw [patchImportSite_call F remap imp m o hfm h6, readU32_writeLE4_same]
      split_ifs <;> omega

theorem applyStores_nil (m : Mem) : applyStores m [] = m := rfl

theorem applyStores_cons (m : Mem) (s : Store) (l : List Store) :
    applyStores m (s :: l) = applyStores (s.apply m) l := rfl

theorem applyStores_append (m : Mem) (l1 l2 : List Store) :
    applyStores m (l1 ++ l2) = applyStores (applyStores m l1) l2 := by
  simp [applyStores, List.foldl_append]

theorem applyStores_flatten (m : Mem) (ls : List (List Store)) :
    applyStores m ls.flatten = ls.foldl applyStores m := by
  induction ls generalizing m with
  | nil => rfl
  | cons l t ih => simp [List.flatten, applyStores_append, ih]

theorem applyStores_map {α : Type} (g : α → Store) (l : List α) (m : Mem) :
    applyStores m (l.map g) = l.foldl (fun m o => (g o).apply m) m := by
  simp [applyStores, List.foldl_map]

theorem foldl_eq_tracePhase {E : Type} (patch : Mem × T8GSCOBJContext → E → Mem × T8GSCOBJContext)
    (f : T8GSCOBJContext → E → List Store × T8GSCOBJContext)
    (h : ∀ m ctx e, patch (m, ctx) e = (applyStores m (f ctx e).1, (f ctx e).2)) :
    ∀ (es : List E) (m : Mem) (ctx : T8GSCOBJContext),
      es.foldl patch (m, ctx) =
        (applyStores m (tracePhase f ctx es).1, (tracePhase f ctx es).2) := by
  intro es
  induction es with
  | nil => intro m ctx; rfl
  | cons e t ih =>
    intro m ctx
    rw [List.foldl_cons, h, ih]
    simp [tracePhase, applyStores_append]

theorem patchAnimTreeSingle_eq (m : Mem) (ctx : T8GSCOBJContext) (e : GSC_USEANIMTREE_ITEM) :
    patchAnimTreeSingle (m, ctx) e =
      (applyStores m (storesAnimTreeSingle ctx e).1, (storesAnimTreeSingle ctx e).2) := by
  simp only [patchAnimTreeSingle, storesAnimTreeSingle]
  split_ifs
  · rfl
  · simp only [applyStores_map, Store.apply, ← writeU8_eq_writeLE]

theorem patchString_eq (r : GSCOBJReader) (m : Mem) (ctx : T8GSCOBJContext) (e : T8GSCString) :
    patchString r (m, ctx) e =
      (applyStores m (storesString r ctx e).1, (storesString r ctx e).2) := by
  simp only [patchString, storesString, applyStores_map, Store.apply, ← writeU32_eq_writeLE]

theorem patchGlobalVar_eq (m : Mem) (ctx : T8GSCOBJContext) (e : T8GSCGlobalVar) :
    patchGlobalVar (m, ctx) e =
      (applyStores m (storesGlobalVar ctx e).1, (storesGlobalVar ctx e).2) := by
  simp only [patchGlobalVar, storesGlobalVar, applyStores_map, Store.apply,
    ← writeU16_eq_writeLE]

theorem patchAnimTreeDouble_eq (m : Mem) (ctx : T8GSCOBJContext) (e : GSC_ANIMTREE_ITEM) :
    patchAnimTreeDouble (m, ctx) e =
      (applyStores m (storesAnimTreeDouble ctx e).1, (storesAnimTreeDouble ctx e).2) := by
  simp only [patchAnimTreeDouble, storesAnimTreeDouble, applyStores_flatten, List.foldl_map,
    applyStores_cons, applyStores_nil, Store.apply, ← writeU32_eq_writeLE]

theorem patchImport64Sites_eq (imp : IW23GSCImport) :
    ∀ (l : List Nat) (m : Mem) (ctx : T8GSCOBJContext),
      l.foldl (patchImport64Site imp) (m, ctx) =
        (applyStores m (storesImport64Sites imp ctx l).1, (storesImport64Sites imp ctx l).2) := by
  intro l
  induction l with
  | nil => intro m ctx; rfl
  | cons o t ih =>
    intro m ctx
    rw [List.foldl_cons]
    simp only [patchImport64Site, storesImport64Sites, applyStores_cons, Store.apply,
      ← writeU16_eq_writeLE]
    exact ih _ _

theorem patchImport64_eq (m : Mem) (ctx : T8GSCOBJContext) (e : IW23GSCImport) :
    patchImport64 (m, ctx) e =
      (applyStores m (storesImport64 ctx e).1, (storesImport64 ctx e).2) :=
  patchImport64Sites_eq e e.fixups m ctx

theorem patchImportSite_eq (F : T8GSCImportFlags) (remap : Nat → Nat) (imp : T8GSCImport)
    (m : Mem) (o : Nat) :
    patchImportSite F remap imp m o = applyStores m (storesImportSite F remap imp o) := by
  by_cases hfm : remap imp.flags &&& F.CALLTYPE_MASK = F.FUNC_METHOD
  · rw [patchImportSite_funcMethod F remap imp m o hfm]
    simp only [storesImportSite, hfm, if_true, applyStores_cons, applyStores_nil, Store.apply]
  · by_cases h6 : F.isCall (remap imp.flags &&& F.CALLTYPE_MASK)
    · rw [patchImportSite_call F remap imp m o hfm h6]
      simp only [storesImportSite, hfm, if_false, h6, if_true, applyStores_cons,
        applyStores_nil, Store.apply]
    · rw [patchImportSite_unknown F remap imp m o hfm h6]
      simp only [storesImportSite, hfm, if_false, h6, applyStores_nil]

theorem patchImport_eq (F : T8GSCImportFlags) (remap : Nat → Nat) (m : Mem)
    (ctx : T8GSCOBJContext) (imp : T8GSCImport) :
    patchImport F remap m imp = applyStores m (storesImport F remap ctx imp).1 := by
  simp only [patchImport, storesImport, applyStores_flatten, List.foldl_map]
  congr 1
  funext m o
  exact patchImportSite_eq F remap imp m o

theorem tracePhase_storesImport_ctx (F : T8GSCImportFlags) (remap : Nat → Nat) :
    ∀ (es : List T8GSCImport) (ctx : T8GSCOBJContext),
      (tracePhase (storesImport F remap) ctx es).2 = ctx := by
  intro es
  induction es with
  | nil => intro ctx; rfl
  | cons e t ih => intro ctx; simp [tracePhase, storesImport, ih]

theorem foldl_patchImport_eq (F : T8GSCImportFlags) (remap : Nat → Nat) :
    ∀ (es : List T8GSCImport) (m : Mem) (ctx : T8GSCOBJContext),
      es.foldl (patchImport F remap) m =
        applyStores m (tracePhase (storesImport F remap) ctx es).1 := by
  intro es
  induction es with
  | nil => intro m ctx; rfl
  | cons e t ih =>
    intro m ctx
    rw [List.foldl_cons, patchImport_eq F remap m ctx e, ih _ ctx]
    simp [tracePhase, applyStores_append, storesImport]

/-- `PatchCode` is the sequence of stores `PatchCodeStores` lists, performed in order,
and leaves the context `PatchCodeStores` computes. -/
theorem PatchCode_eq_stores (hash64 : Bool) (F : T8GSCImportFlags) (r : GSCOBJReader)
    (m : Mem) (ctx : T8GSCOBJContext) :
    PatchCode hash64 F r (m, ctx) =
      (applyStores m (PatchCodeStores hash64 F r ctx).1, (PatchCodeStores hash64 F r ctx).2) := by
  cases hash64
  · simp only [PatchCode, PatchCodeStores, Bool.false_eq_true, if_false]
    rw [foldl_patchImport_eq F r.RemapFlagsImport r.imports m ctx,
      foldl_eq_tracePhase patchGlobalVar storesGlobalVar patchGlobalVar_eq,
      foldl_eq_tracePhase (patchString r) (storesString r) (patchString_eq r),
      tracePhase_storesImport_ctx]
    simp [applyStores_append]
  · simp only [PatchCode, PatchCodeStores, if_true]
    by_cases h1 : r.GetAnimTreeSingleOffset = 0 <;> by_cases h2 : r.GetAnimTreeDoubleOffset = 0 <;>
    simp only [h1, h2, ne_eq, not_true_eq_false, not_false_eq_true, if_true, if_false,
        List.nil_append, List.append_nil,
        foldl_eq_tracePhase patchAnimTreeSingle storesAnimTreeSingle patchAnimTreeSingle_eq,
        foldl_eq_tracePhase (patchString r) (storesString r) (patchString_eq r),
        foldl_eq_tracePhase patchImport64 storesImport64 patchImport64_eq,
        foldl_eq_tracePhase patchAnimTreeDouble storesAnimTreeDouble patchAnimTreeDouble_eq,
        applyStores_append, applyStores_nil]

/-! ## Sequences of stores: frame and last writer -/

theorem applyStores_of_not_covered (l : List Store) (m : Mem) (a : Nat)
    (h : ∀ s ∈ l, ¬ s.covers a) : applyStores m l a = m a := by
  induction l generalizing m with
  | nil => rfl
  | cons x t ih =>
    rw [applyStores_cons, ih _ (fun s hs => h s (List.mem_cons_of_mem _ hs))]
    exact writeLE_apply_of_not_covers _ _ _ _ _ (h x (List.mem_cons_self _ _))

theorem applyStores_of_pairwise (l : List Store) (m : Mem) (s : Store) (a : Nat)
    (hp : l.Pairwise Store.disjoint) (hs : s ∈ l) (ha : s.covers a) :
    applyStores m l a = s.value / 256 ^ (a - s.off) % 256 := by
  induction l generalizing m with
  | nil => cases hs
  | cons x t ih =>
    rw [List.pairwise_cons] at hp
    rw [applyStores_cons]
    rcases List.mem_cons.mp hs with rfl | hmem
    · rw [applyStores_of_not_covered]
      · exact writeLE_apply_of_covers _ _ _ _ _ ha
      · intro y hy hcy
        have hd := hp.1 y hy
        unfold Store.disjoint at hd
        unfold Store.covers at ha hcy
        omega
    · exact ih _ hp.2 hmem

theorem readU8_of_store (m : Mem) (o v : Nat)
    (h : ∀ a, o ≤ a ∧ a < o + 1 → m a = v / 256 ^ (a - o) % 256) :
    readU8 m o = v % 256 := by
  have h0 := h o (by omega)
  simp at h0
  exact readU8_of_bytes m o v h0

theorem readU16_of_store (m : Mem) (o v : Nat)
    (h : ∀ a, o ≤ a ∧ a < o + 2 → m a = v / 256 ^ (a - o) % 256) :
    readU16 m o = v % 65536 := by
  have h0 := h o (by omega)
  have h1 := h (o + 1) (by omega)
  simp at h0 h1
  exact readU16_of_bytes m o v h0 h1

theorem readU32_of_store (m : Mem) (o v : Nat)
    (h : ∀ a, o ≤ a ∧ a < o + 4 → m a = v / 256 ^ (a - o) % 256) :
    readU32 m o = v % 4294967296 := by
  have h0 := h o (by omega)
  have h1 := h (o + 1) (by omega)
  have h2 := h (o + 2) (by omega)
  have h3 := h (o + 3) (by omega)
  simp at h0 h1 h2 h3
  exact readU32_of_bytes m o v h0 h1 h2 h3

/-! ## Link patching: range and overlap -/

/-- Patching over tables decoded beforehand stores exactly at the regions derived
from the listed fixups: every byte that differs from the original blob lies in one of
those regions; when all of them lie in `[0, file_size)` no byte at or beyond `file_size`
is changed; and when they are pairwise disjoint every byte of a region holds the value
of the one store that covers it. -/
theorem PatchCode_stores_frame (hash64 : Bool) (F : T8GSCImportFlags) (r : GSCOBJReader)
    (m : Mem) (ctx : T8GSCOBJContext) :
    (∀ a, (PatchCode hash64 F r (m, ctx)).1 a ≠ m a →
      ∃ s ∈ (PatchCodeStores hash64 F r ctx).1, s.covers a) ∧
    ((∀ s ∈ (PatchCodeStores hash64 F r ctx).1, s.inRange r.GetFileSize) →
      ∀ a, r.GetFileSize ≤ a → (PatchCode hash64 F r (m, ctx)).1 a = m a) ∧
    ((PatchCodeStores hash64 F r ctx).1.Pairwise Store.disjoint →
      ∀ s ∈ (PatchCodeStores hash64 F r ctx).1, ∀ a, s.covers a →
        (PatchCode hash64 F r (m, ctx)).1 a = s.value / 256 ^ (a - s.off) % 256) := by
  rw [PatchCode_eq_stores]
  refine ⟨?_, ?_, ?_⟩
  · intro a hne
    by_contra hcon
    push_neg at hcon
    exact hne (applyStores_of_not_covered _ m a hcon)
  · intro hin a ha
    apply applyStores_of_not_covered
    intro s hs hc
    have := hin s hs
    unfold Store.inRange at this
    unfold Store.covers at hc
    omega
  · intro hp s hs a ha
    exact applyStores_of_pairwise _ m s a hp hs ha

/-! ## The id maps of the object context -/

theorem mapSet_fresh {V : Type} (m : List (Nat × V)) (k : Nat) (v : V)
    (h : ∀ p ∈ m, p.1 ≠ k) : mapSet m k v = m ++ [(k, v)] := by
  induction m with
  | nil => rfl
  | cons x t ih =>
    obtain ⟨k', v'⟩ := x
    have hne : k' ≠ k := h (k', v') (List.mem_cons_self _ _)
    simp only [mapSet, hne, if_false, List.cons_append]
    rw [ih (fun p hp => h p (List.mem_cons_of_mem _ hp))]

theorem Dense.key_lt {V : Type} {m : List (Nat × V)} (hd : Dense m) {p : Nat × V}
    (hp : p ∈ m) : p.1 < m.length := by
  have : p.1 ∈ m.map Prod.fst := List.mem_map_of_mem _ hp
  rw [hd] at this
  exact List.mem_range.mp this

theorem Dense.nil {V : Type} : Dense ([] : List (Nat × V)) := rfl

theorem Dense.append {V : Type} {m : List (Nat × V)} (hd : Dense m) (v : V) :
    Dense (m ++ [(m.length, v)]) := by
  unfold Dense at *
  simp [List.range_succ, hd]

theorem Dense.mapSet_length {V : Type} {m : List (Nat × V)} (hd : Dense m) (v : V) :
    mapSet m m.length v = m ++ [(m.length, v)] :=
  mapSet_fresh m m.length v (fun _ hp => Nat.ne_of_lt (hd.key_lt hp))

theorem mapFind_of_mem {V : Type} (m : List (Nat × V)) (k : Nat) (v : V)
    (hn : (m.map Prod.fst).Nodup) (h : (k, v) ∈ m) : mapFind m k = some v := by
  induction m with
  | nil => cases h
  | cons x t ih =>
    obtain ⟨k', v'⟩ := x
    rw [List.map_cons, List.nodup_cons] at hn
    rcases List.mem_cons.mp h with heq | hmem
    · cases heq
      simp [mapFind]
    · have hne : k' ≠ k := by
        intro e
        apply hn.1
        rw [e]
        exact List.mem_map.mpr ⟨(k, v), hmem, rfl⟩
      simp only [mapFind, hne, if_false]
      exact ih hn.2 hmem

theorem Dense.mapFind {V : Type} {m : List (Nat × V)} (hd : Dense m) {k : Nat} {v : V}
    (h : (k, v) ∈ m) : mapFind m k = some v := by
  apply mapFind_of_mem m k v _ h
  rw [hd]
  exact List.nodup_range _

theorem AddStringValue_dense (ctx : T8GSCOBJContext) (v : Nat) (hd : Dense ctx.m_stringRefs)
    (hl : ctx.m_stringRefs.length < 4294967296) :
    ctx.AddStringValue v = (ctx.m_stringRefs.length,
      { ctx with m_stringRefs := ctx.m_stringRefs ++ [(ctx.m_stringRefs.length, v)] }) := by
  simp only [T8GSCOBJContext.AddStringValue, Nat.mod_eq_of_lt hl, hd.mapSet_length]

theorem AddGlobalVarName_dense (ctx : T8GSCOBJContext) (v : Nat) (hd : Dense ctx.m_gvars)
    (hl : ctx.m_gvars.length < 65536) :
    ctx.AddGlobalVarName v = (ctx.m_gvars.length,
      { ctx with m_gvars := ctx.m_gvars ++ [(ctx.m_gvars.length, v)] }) := by
  simp only [T8GSCOBJContext.AddGlobalVarName, Nat.mod_eq_of_lt hl, hd.mapSet_length]

theorem tracePhase_storesString (r : GSCOBJReader) :
    ∀ (es : List T8GSCString) (ctx : T8GSCOBJContext), Dense ctx.m_stringRefs →
      ctx.m_stringRefs.length + es.length ≤ 4294967296 →
      Dense (tracePhase (storesString r) ctx es).2.m_stringRefs ∧
      (tracePhase (storesString r) ctx es).2.m_stringRefs.length =
        ctx.m_stringRefs.length + es.length ∧
      (∀ p ∈ ctx.m_stringRefs, p ∈ (tracePhase (storesString r) ctx es).2.m_stringRefs) ∧
      (tracePhase (storesString r) ctx es).2.m_gvars = ctx.m_gvars ∧
      (tracePhase (storesString r) ctx es).2.m_linkedImports = ctx.m_linkedImports ∧
      (∀ e ∈ es, ∀ o ∈ e.fixups, ∃ id, id < 4294967296 ∧
        (⟨o, 4, id⟩ : Store) ∈ (tracePhase (storesString r) ctx es).1 ∧
        (id, r.DecryptString e.string) ∈
          (tracePhase (storesString r) ctx es).2.m_stringRefs) := by
  intro es
  induction es with
  | nil =>
    intro ctx hd _
    exact ⟨hd, rfl, fun _ h => h, rfl, rfl, fun e he => by cases he⟩
  | cons x t ih =>
    intro ctx hd hl
    simp only [List.length_cons] at hl
    have hlt : ctx.m_stringRefs.length < 4294967296 := by omega
    have hstep := AddStringValue_dense ctx (r.DecryptString x.string) hd hlt
    simp only [tracePhase, storesString, hstep]
    obtain ⟨h1, h2, h3, h4, h5, h6⟩ := ih
      { ctx with m_stringRefs := ctx.m_stringRefs ++
        [(ctx.m_stringRefs.length, r.DecryptString x.string)] }
      (hd.append _) (by simp; omega)
    refine ⟨h1, ?_, ?_, h4, h5, ?_⟩
    · rw [h2]; simp; omega
    · intro p hp
      exact h3 p (List.mem_append_left _ hp)
    · intro e he o ho
      rcases List.mem_cons.mp he with rfl | het
      · refine ⟨ctx.m_stringRefs.length, hlt, ?_, ?_⟩
        · apply List.mem_append_left
          exact List.mem_map_of_mem _ ho
        · apply h3
          simp
      · obtain ⟨id, hid, hmem, hctx⟩ := h6 e het o ho
        exact ⟨id, hid, List.mem_append_right _ hmem, hctx⟩

theorem tracePhase_storesGlobalVar :
    ∀ (es : List T8GSCGlobalVar) (ctx : T8GSCOBJContext), Dense ctx.m_gvars →
      ctx.m_gvars.length + es.length ≤ 65536 →
      Dense (tracePhase storesGlobalVar ctx es).2.m_gvars ∧
      (∀ p ∈ ctx.m_gvars, p ∈ (tracePhase storesGlobalVar ctx es).2.m_gvars) ∧
      (tracePhase storesGlobalVar ctx es).2.m_stringRefs = ctx.m_stringRefs ∧
      (∀ e ∈ es, ∀ o ∈ e.fixups, ∃ id, id < 65536 ∧
        (⟨o, 2, id⟩ : Store) ∈ (tracePhase storesGlobalVar ctx es).1 ∧
        (id, e.name) ∈ (tracePhase storesGlobalVar ctx es).2.m_gvars) := by
  intro es
  induction es with
  | nil =>
    intro ctx hd _
    exact ⟨hd, fun _ h => h, rfl, fun e he => by cases he⟩
  | cons x t ih =>
    intro ctx hd hl
    simp only [List.length_cons] at hl
    have hlt : ctx.m_gvars.length < 65536 := by omega
    have hstep := AddGlobalVarName_dense ctx x.name hd hlt
    simp only [tracePhase, storesGlobalVar, hstep]
    obtain ⟨h1, h3, h4, h6⟩ := ih
      { ctx with m_gvars := ctx.m_gvars ++ [(ctx.m_gvars.length, x.name)] }
      (hd.append _) (by simp; omega)
    refine ⟨h1, ?_, h4, ?_⟩
    · intro p hp
      exact h3 p (List.mem_append_left _ hp)
    · intro e he o ho
      rcases List.mem_cons.mp he with rfl | het
      · refine ⟨ctx.m_gvars.length, hlt, ?_, ?_⟩
        · apply List.mem_append_left
          exact List.mem_map_of_mem _ ho
        · apply h3
          simp
      · obtain ⟨id, hid, hmem, hctx⟩ := h6 e het o ho
        exact ⟨id, hid, List.mem_append_right _ hmem, hctx⟩

/-! ## Link patching: interned indices (Treyarch family) -/

/-- Patching over tables decoded beforehand, Treyarch family (fresh context, 16-bit
table counts): when the stores are pairwise disjoint, the 32-bit value at every fixup of
a string entry is an id whose `GetStringValue` is the entry's decrypted string, and the
16-bit value at every fixup of a global-variable entry is an id whose
`GetGlobalVarName` is the entry's name hash. -/
theorem PatchCode_treyarch_interned (F : T8GSCImportFlags) (r : GSCOBJReader) (m : Mem)
    (hg : r.gvars.length < 65536) (hs : r.strings.length < 65536)
    (hd : (PatchCodeStores false F r T8GSCOBJContext.fresh).1.Pairwise Store.disjoint) :
    (∀ e ∈ r.strings, ∀ o ∈ e.fixups, ∃ id,
      readU32 (PatchCode false F r (m, T8GSCOBJContext.fresh)).1 o = id ∧
      (PatchCode false F r (m, T8GSCOBJContext.fresh)).2.GetStringValue id =
        some (r.DecryptString e.string)) ∧
    (∀ g ∈ r.gvars, ∀ o ∈ g.fixups, ∃ id,
      readU16 (PatchCode false F r (m, T8GSCOBJContext.fresh)).1 o = id ∧
      mapFind (PatchCode false F r (m, T8GSCOBJContext.fresh)).2.m_gvars id = some g.name ∧
      (PatchCode false F r (m, T8GSCOBJContext.fresh)).2.GetGlobalVarName id = g.name) := by
  rw [PatchCode_eq_stores]
  have hctx1 := tracePhase_storesImport_ctx F r.RemapFlagsImport r.imports T8GSCOBJContext.fresh
  obtain ⟨g1, _, g3, g4⟩ := tracePhase_storesGlobalVar r.gvars T8GSCOBJContext.fresh
    Dense.nil (by simp [T8GSCOBJContext.fresh]; omega)
  have hsd : Dense (tracePhase storesGlobalVar T8GSCOBJContext.fresh r.gvars).2.m_stringRefs := by
    rw [g3]; exact Dense.nil
  obtain ⟨s1, _, _, s4, _, s6⟩ := tracePhase_storesString r r.strings
    (tracePhase storesGlobalVar T8GSCOBJContext.fresh r.gvars).2 hsd
    (by rw [g3]; simp [T8GSCOBJContext.fresh]; omega)
  simp only [PatchCodeStores, Bool.false_eq_true, if_false, hctx1] at hd ⊢
  constructor
  · intro e he o ho
    obtain ⟨id, hid, hmem, hc⟩ := s6 e he o ho
    refine ⟨id, ?_, ?_⟩
    · rw [readU32_of_store _ o id]
      · exact Nat.mod_eq_of_lt hid
      · intro a ha
        exact applyStores_of_pairwise _ m ⟨o, 4, id⟩ a hd
          (List.mem_append_right _ (List.mem_append_right _ hmem)) ha
    · exact s1.mapFind hc
  · intro g hgm o ho
    obtain ⟨id, hid, hmem, hc⟩ := g4 g hgm o ho
    have hfind : mapFind (tracePhase (storesString r)
        (tracePhase storesGlobalVar T8GSCOBJContext.fresh r.gvars).2 r.strings).2.m_gvars id
        = some g.name := by
      rw [s4]; exact g1.mapFind hc
    refine ⟨id, ?_, hfind, ?_⟩
    · rw [readU16_of_store _ o id]
      · exact Nat.mod_eq_of_lt hid
      · intro a ha
        exact applyStores_of_pairwise _ m ⟨o, 2, id⟩ a hd
          (List.mem_append_right _ (List.mem_append_left _ hmem)) ha
    · simp only [T8GSCOBJContext.GetGlobalVarName, hfind]

/-! ## Link patching: linked imports (wide-hash family) -/

theorem tracePhase_preserves {E : Type}
    (f : T8GSCOBJContext → E → List Store × T8GSCOBJContext) (P : T8GSCOBJContext → Prop)
    (h : ∀ ctx e, P ctx → P (f ctx e).2) :
    ∀ (es : List E) (ctx : T8GSCOBJContext), P ctx → P (tracePhase f ctx es).2 := by
  intro es
  induction es with
  | nil => intro ctx hp; exact hp
  | cons e t ih => intro ctx hp; exact ih _ (h ctx e hp)

theorem storesImport64Sites_spec (imp : IW23GSCImport) :
    ∀ (l : List Nat) (ctx : T8GSCOBJContext),
      (storesImport64Sites imp ctx l).2.m_linkedImports =
        ctx.m_linkedImports ++ List.replicate l.length imp ∧
      (storesImport64Sites imp ctx l).2.m_stringRefs = ctx.m_stringRefs ∧
      (storesImport64Sites imp ctx l).2.m_gvars = ctx.m_gvars ∧
      ∀ o ∈ l, ∃ idx, ctx.m_linkedImports.length ≤ idx ∧
        idx < ctx.m_linkedImports.length + l.length ∧
        (⟨o, 2, idx⟩ : Store) ∈ (storesImport64Sites imp ctx l).1 := by
  intro l
  induction l with
  | nil => intro ctx; simp [storesImport64Sites]
  | cons x t ih =>
    intro ctx
    obtain ⟨h1, h2, h3, h4⟩ :=
      ih { ctx with m_linkedImports := ctx.m_linkedImports ++ [imp] }
    simp only [storesImport64Sites]
    refine ⟨?_, h2, h3, ?_⟩
    · rw [h1]
      simp [List.replicate_succ]
    · intro o ho
      rcases List.mem_cons.mp ho with rfl | hot
      · exact ⟨ctx.m_linkedImports.length, le_refl _, by simp, List.mem_cons_self _ _⟩
      · obtain ⟨idx, hlo, hhi, hmem⟩ := h4 o hot
        simp only [List.length_append, List.length_singleton] at hlo hhi
        refine ⟨idx, by omega, by simp only [List.length_cons]; omega,
          List.mem_cons_of_mem _ hmem⟩

theorem tracePhase_storesImport64 :
    ∀ (es : List IW23GSCImport) (ctx : T8GSCOBJContext),
      (∃ rest, (tracePhase storesImport64 ctx es).2.m_linkedImports =
          ctx.m_linkedImports ++ rest ∧ rest.length = totalFixups64 es) ∧
      (tracePhase storesImport64 ctx es).2.m_stringRefs = ctx.m_stringRefs ∧
      ∀ imp ∈ es, ∀ o ∈ imp.fixups, ∃ idx,
        idx < ctx.m_linkedImports.length + totalFixups64 es ∧
        (⟨o, 2, idx⟩ : Store) ∈ (tracePhase storesImport64 ctx es).1 ∧
        (tracePhase storesImport64 ctx es).2.m_linkedImports[idx]? = some imp := by
  intro es
  induction es with
  | nil => intro ctx; exact ⟨⟨[], by simp [tracePhase], rfl⟩, rfl, fun _ h => by cases h⟩
  | cons x t ih =>
    intro ctx
    obtain ⟨h1, h2, h3, h4⟩ := storesImport64Sites_spec x x.fixups ctx
    obtain ⟨⟨rest, hr, hrl⟩, i2, i3⟩ := ih (storesImport64 ctx x).2
    have hx : (storesImport64 ctx x).2.m_linkedImports =
        ctx.m_linkedImports ++ List.replicate x.fixups.length x := h1
    have htot : totalFixups64 (x :: t) = x.fixups.length + totalFixups64 t := by
      simp [totalFixups64]
    simp only [tracePhase]
    refine ⟨⟨List.replicate x.fixups.length x ++ rest, ?_, ?_⟩, ?_, ?_⟩
    · rw [hr, hx, List.append_assoc]
    · rw [List.length_append, List.length_replicate, hrl, htot]
    · rw [i2]; exact h2
    · intro imp himp o ho
      rcases List.mem_cons.mp himp with rfl | hit
      · obtain ⟨idx, hlo, hhi, hmem⟩ := h4 o ho
        refine ⟨idx, by rw [htot]; omega, List.mem_append_left _ hmem, ?_⟩
        rw [hr, hx, List.append_assoc, List.getElem?_append_right hlo,
          List.getElem?_append_left (by rw [List.length_replicate]; omega),
          List.getElem?_replicate_of_lt (by omega)]
      · obtain ⟨idx, hhi, hmem, hget⟩ := i3 imp hit o ho
        rw [hx, List.length_append, List.length_replicate] at hhi
        exact ⟨idx, by rw [htot]; omega, List.mem_append_right _ hmem, hget⟩

theorem storesAnimTreeSingle_linked (ctx : T8GSCOBJContext) (e : GSC_USEANIMTREE_ITEM) :
    (storesAnimTreeSingle ctx e).2.m_linkedImports = ctx.m_linkedImports := by
  simp only [storesAnimTreeSingle, T8GSCOBJContext.AddStringValue]
  split_ifs <;> rfl

theorem storesString_linked (r : GSCOBJReader) (ctx : T8GSCOBJContext) (e : T8GSCString) :
    (storesString r ctx e).2.m_linkedImports = ctx.m_linkedImports := rfl

theorem storesAnimTreeDouble_linked (ctx : T8GSCOBJContext) (e : GSC_ANIMTREE_ITEM) :
    (storesAnimTreeDouble ctx e).2.m_linkedImports = ctx.m_linkedImports := rfl

/-- Patching over tables decoded beforehand, wide-hash family (fresh context): when
the stores are pairwise disjoint and the import table lists at most 65536 fixups in
total, the 16-bit value at every fixup of every import entry is an index `h` such that
`m_linkedImports[h]` is that import entry's record. -/
theorem PatchCode_hash64_linked_imports (F : T8GSCImportFlags) (r : GSCOBJReader) (m : Mem)
    (ht : totalFixups64 r.imports64 ≤ 65536)
    (hd : (PatchCodeStores true F r T8GSCOBJContext.fresh).1.Pairwise Store.disjoint) :
    ∀ imp ∈ r.imports64, ∀ o ∈ imp.fixups, ∃ h,
      readU16 (PatchCode true F r (m, T8GSCOBJContext.fresh)).1 o = h ∧
      (PatchCode true F r (m, T8GSCOBJContext.fresh)).2.m_linkedImports[h]? = some imp := by
  rw [PatchCode_eq_stores]
  simp only [PatchCodeStores, if_true] at hd ⊢
  generalize ht1 : (if r.GetAnimTreeSingleOffset ≠ 0 then
      tracePhase storesAnimTreeSingle T8GSCOBJContext.fresh r.animTreeSingle
      else ([], T8GSCOBJContext.fresh)) = t1 at hd ⊢
  have hl1 : t1.2.m_linkedImports = [] := by
    rw [← ht1]
    split_ifs
    · exact tracePhase_preserves storesAnimTreeSingle (fun c => c.m_linkedImports = [])
        (fun ctx e hp => (storesAnimTreeSingle_linked ctx e).trans hp) _ _ rfl
    · rfl
  have hl2 : (tracePhase (storesString r) t1.2 r.strings).2.m_linkedImports = [] :=
    tracePhase_preserves (storesString r) (fun c => c.m_linkedImports = [])
      (fun ctx e hp => (storesString_linked r ctx e).trans hp) _ _ hl1
  obtain ⟨_, _, h3⟩ := tracePhase_storesImport64 r.imports64
    (tracePhase (storesString r) t1.2 r.strings).2
  generalize ht3 : tracePhase storesImport64
    (tracePhase (storesString r) t1.2 r.strings).2 r.imports64 = t3 at hd h3 ⊢
  generalize ht4 : (if r.GetAnimTreeDoubleOffset ≠ 0 then
      tracePhase storesAnimTreeDouble t3.2 r.animTreeDouble else ([], t3.2)) = t4 at hd ⊢
  have hl4 : t4.2.m_linkedImports = t3.2.m_linkedImports := by
    rw [← ht4]
    split_ifs
    · exact tracePhase_preserves storesAnimTreeDouble
        (fun c => c.m_linkedImports = t3.2.m_linkedImports)
        (fun ctx e hp => (storesAnimTreeDouble_linked ctx e).trans hp) _ _ rfl
    · rfl
  intro imp himp o ho
  obtain ⟨idx, hlt, hmem, hget⟩ := h3 imp himp o ho
  rw [hl2] at hlt
  simp only [List.length_nil, Nat.zero_add] at hlt
  refine ⟨idx, ?_, ?_⟩
  · rw [readU16_of_store _ o idx]
    · exact Nat.mod_eq_of_lt (by omega)
    · intro a ha
      exact applyStores_of_pairwise _ m ⟨o, 2, idx⟩ a hd
        (List.mem_append_right _ (List.mem_append_right _ (List.mem_append_left _ hmem))) ha
  · rw [hl4]; exact hget

/-! ## Link patching: single animtrees (wide-hash family) -/

theorem storesAnimTreeSingle_dense (ctx : T8GSCOBJContext) (e : GSC_USEANIMTREE_ITEM)
    (hd : Dense ctx.m_stringRefs) (hl : ctx.m_stringRefs.length < 4294967296) :
    (storesAnimTreeSingle ctx e).2 =
      { ctx with m_stringRefs := ctx.m_stringRefs ++ [(ctx.m_stringRefs.length, e.address)] } ∧
    (ctx.m_stringRefs.length ≤ 256 →
      (storesAnimTreeSingle ctx e).1 =
        e.fixups.map (fun o => (⟨o, 1, ctx.m_stringRefs.length⟩ : Store))) := by
  simp only [storesAnimTreeSingle, AddStringValue_dense ctx e.address hd hl]
  constructor
  · split_ifs <;> rfl
  · intro h
    have : ¬ ctx.m_stringRefs.length > 256 := by omega
    simp only [this, if_false]

theorem tracePhase_storesAnimTreeSingle :
    ∀ (es : List GSC_USEANIMTREE_ITEM) (ctx : T8GSCOBJContext), Dense ctx.m_stringRefs →
      ctx.m_stringRefs.length + es.length ≤ 4294967296 →
      Dense (tracePhase storesAnimTreeSingle ctx es).2.m_stringRefs ∧
      (tracePhase storesAnimTreeSingle ctx es).2.m_stringRefs.length =
        ctx.m_stringRefs.length + es.length ∧
      (∀ p ∈ ctx.m_stringRefs, p ∈ (tracePhase storesAnimTreeSingle ctx es).2.m_stringRefs) ∧
      (∀ k e, es[k]? = some e →
        (ctx.m_stringRefs.length + k, e.address) ∈
          (tracePhase storesAnimTreeSingle ctx es).2.m_stringRefs ∧
        (ctx.m_stringRefs.length + k ≤ 256 → ∀ o ∈ e.fixups,
          (⟨o, 1, ctx.m_stringRefs.length + k⟩ : Store) ∈
            (tracePhase storesAnimTreeSingle ctx es).1)) := by
  intro es
  induction es with
  | nil =>
    intro ctx hd _
    exact ⟨hd, rfl, fun _ h => h, fun k e h => by simp at h⟩
  | cons x t ih =>
    intro ctx hd hl
    simp only [List.length_cons] at hl
    have hlt : ctx.m_stringRefs.length < 4294967296 := by omega
    obtain ⟨hctx, hst⟩ := storesAnimTreeSingle_dense ctx x hd hlt
    simp only [tracePhase, hctx]
    obtain ⟨h1, h2, h3, h4⟩ := ih
      { ctx with m_stringRefs := ctx.m_stringRefs ++ [(ctx.m_stringRefs.length, x.address)] }
      (hd.append _) (by simp; omega)
    refine ⟨h1, ?_, ?_, ?_⟩
    · rw [h2]; simp; omega
    · intro p hp
      exact h3 p (List.mem_append_left _ hp)
    · intro k e hk
      cases k with
      | zero =>
        simp only [List.getElem?_cons_zero, Option.some.injEq] at hk
        subst hk
        refine ⟨h3 _ (by simp), ?_⟩
        intro hle o ho
        apply List.mem_append_left
        rw [hst (by omega)]
        exact List.mem_map.mpr ⟨o, ho, rfl⟩
      | succ k =>
        simp only [List.getElem?_cons_succ] at hk
        obtain ⟨g1, g2⟩ := h4 k e hk
        simp only [List.length_append, List.length_singleton] at g1 g2
        have e1 : ctx.m_stringRefs.length + 1 + k = ctx.m_stringRefs.length + (k + 1) := by
          omega
        rw [e1] at g1 g2
        exact ⟨g1, fun hle o ho => List.mem_append_right _ (g2 hle o ho)⟩

theorem tracePhase_storesAnimTreeDouble :
    ∀ (es : List GSC_ANIMTREE_ITEM) (ctx : T8GSCOBJContext), Dense ctx.m_stringRefs →
      ctx.m_stringRefs.length + 2 * es.length ≤ 4294967296 →
      Dense (tracePhase storesAnimTreeDouble ctx es).2.m_stringRefs ∧
      (∀ p ∈ ctx.m_stringRefs, p ∈ (tracePhase storesAnimTreeDouble ctx es).2.m_stringRefs) := by
  intro es
  induction es with
  | nil =>
    intro ctx hd _
    exact ⟨hd, fun _ h => h⟩
  | cons x t ih =>
    intro ctx hd hl
    simp only [List.length_cons] at hl
    have hlt : ctx.m_stringRefs.length < 4294967296 := by omega
    have hstep1 := AddStringValue_dense ctx x.address_str1 hd hlt
    have hstep2 := AddStringValue_dense
      { ctx with m_stringRefs := ctx.m_stringRefs ++ [(ctx.m_stringRefs.length, x.address_str1)] }
      x.address_str2 (hd.append _) (by simp; omega)
    simp only [tracePhase, storesAnimTreeDouble, hstep1, hstep2]
    obtain ⟨h1, h3⟩ := ih
      { ctx with m_stringRefs := ctx.m_stringRefs ++
          [(ctx.m_stringRefs.length, x.address_str1)] ++
          [((ctx.m_stringRefs ++ [(ctx.m_stringRefs.length, x.address_str1)]).length,
            x.address_str2)] }
      ((hd.append x.address_str1).append x.address_str2)
      (by simp only [List.length_append, List.length_singleton]; omega)
    refine ⟨h1, ?_⟩
    intro p hp
    exact h3 p (List.mem_append_left _ (List.mem_append_left _ hp))

/-- The guard `ref > 256` of the single-animtree loop lets the index 256 through: the
byte stored for it is `(byte)256 = 0`. -/
theorem patchAnimTreeSingle_index_256 (m : Mem) (ctx : T8GSCOBJContext) (a o : Nat)
    (h : (ctx.AddStringValue a).1 = 256) :
    readU8 (patchAnimTreeSingle (m, ctx) ⟨a, [o]⟩).1 o = 0 := by
  have h' : ctx.m_stringRefs.length % 4294967296 = 256 := h
  simp [patchAnimTreeSingle, T8GSCOBJContext.AddStringValue, h', readU8, writeU8]

/-- Patching over tables decoded beforehand, wide-hash family (fresh context,
single-animtree table present, 16-bit table counts): when the stores are pairwise
disjoint, for every single-animtree entry whose position `k` in the table is at most
255, the index `AddStringValue` returns for the entry's string is `k`, `GetStringValue k`
is the entry's string afterwards, and the byte at every fixup of the entry equals `k`. -/
theorem PatchCode_hash64_animtree_single (F : T8GSCImportFlags) (r : GSCOBJReader) (m : Mem)
    (hoff : r.GetAnimTreeSingleOffset ≠ 0)
    (hn1 : r.animTreeSingle.length < 65536) (hn2 : r.strings.length < 65536)
    (hn3 : r.animTreeDouble.length < 65536)
    (hd : (PatchCodeStores true F r T8GSCOBJContext.fresh).1.Pairwise Store.disjoint) :
    ∀ k e, r.animTreeSingle[k]? = some e → k ≤ 255 →
      (((r.animTreeSingle.take k).foldl patchAnimTreeSingle
        (m, T8GSCOBJContext.fresh)).2.AddStringValue e.address).1 = k ∧
      (PatchCode true F r (m, T8GSCOBJContext.fresh)).2.GetStringValue k = some e.address ∧
      ∀ o ∈ e.fixups, readU8 (PatchCode true F r (m, T8GSCOBJContext.fresh)).1 o = k := by
  rw [PatchCode_eq_stores]
  simp only [PatchCodeStores, if_true] at hd ⊢
  rw [if_pos hoff] at hd ⊢
  obtain ⟨a1, a2, _, a4⟩ := tracePhase_storesAnimTreeSingle r.animTreeSingle
    T8GSCOBJContext.fresh Dense.nil (by simp [T8GSCOBJContext.fresh]; omega)
  have hlen0 : T8GSCOBJContext.fresh.m_stringRefs.length = 0 := rfl
  rw [hlen0] at a2 a4
  generalize tracePhase storesAnimTreeSingle T8GSCOBJContext.fresh r.animTreeSingle = t1
    at hd a1 a2 a4 ⊢
  obtain ⟨b1, b2, b3, _, _, _⟩ := tracePhase_storesString r r.strings t1.2 a1
    (by rw [a2]; omega)
  generalize tracePhase (storesString r) t1.2 r.strings = t2 at hd b1 b2 b3 ⊢
  obtain ⟨_, c2, _⟩ := tracePhase_storesImport64 r.imports64 t2.2
  generalize tracePhase storesImport64 t2.2 r.imports64 = t3 at hd c2 ⊢
  have hfin : Dense (if r.GetAnimTreeDoubleOffset ≠ 0 then
        tracePhase storesAnimTreeDouble t3.2 r.animTreeDouble else ([], t3.2)).2.m_stringRefs ∧
      ∀ p ∈ t3.2.m_stringRefs, p ∈ (if r.GetAnimTreeDoubleOffset ≠ 0 then
        tracePhase storesAnimTreeDouble t3.2 r.animTreeDouble
          else ([], t3.2)).2.m_stringRefs := by
    split_ifs
    · exact tracePhase_storesAnimTreeDouble r.animTreeDouble t3.2 (by rw [c2]; exact b1)
        (by rw [c2, b2, a2]; omega)
    · exact ⟨by rw [c2]; exact b1, fun _ h => h⟩
  generalize (if r.GetAnimTreeDoubleOffset ≠ 0 then
      tracePhase storesAnimTreeDouble t3.2 r.animTreeDouble else ([], t3.2)) = t4
    at hd hfin ⊢
  intro k e hk hk255
  obtain ⟨g1, g2⟩ := a4 k e hk
  rw [Nat.zero_add] at g1 g2
  refine ⟨?_, ?_, ?_⟩
  · rw [foldl_eq_tracePhase patchAnimTreeSingle storesAnimTreeSingle patchAnimTreeSingle_eq]
    have hklt : k < r.animTreeSingle.length := by
      by_contra hcon
      rw [List.getElem?_eq_none (by omega)] at hk
      cases hk
    obtain ⟨p1, p2, _, _⟩ := tracePhase_storesAnimTreeSingle (r.animTreeSingle.take k)
      T8GSCOBJContext.fresh Dense.nil
      (by simp only [List.length_take, hlen0]; omega)
    rw [hlen0, List.length_take, Nat.zero_add, Nat.min_eq_left (Nat.le_of_lt hklt)] at p2
    rw [AddStringValue_dense _ _ p1 (by rw [p2]; omega)]
    exact p2
  · apply hfin.1.mapFind
    apply hfin.2
    rw [c2]
    exact b3 _ g1
  · intro o ho
    rw [readU8_of_store _ o k]
    · exact Nat.mod_eq_of_lt (by omega)
    · intro a ha
      exact applyStores_of_pairwise _ m ⟨o, 1, k⟩ a hd
        (List.mem_append_left _ (g2 (by omega) o ho)) ha

/-! ## VTable reader: one entry -/

theorem mapFind_mapSet_self {V : Type} (m : List (Nat × V)) (k : Nat) (v : V) :
    mapFind (mapSet m k v) k = some v := by
  induction m with
  | nil => simp [mapSet, mapFind]
  | cons x t ih =>
    obtain ⟨k', v'⟩ := x
    by_cases h : k' = k
    · simp [mapSet, mapFind, h]
    · simp [mapSet, mapFind, h, ih]

theorem mem_setEmplace (s : List Nat) (c x : Nat) :
    x ∈ setEmplace s c ↔ x ∈ s ∨ x = c := by
  unfold setEmplace
  split_ifs with h
  · constructor
    · exact Or.inl
    · rintro (h1 | rfl)
      · exact h1
      · exact h
  · simp

/-- C9: in `DumpVTable`, a table entry (a `GetResolveFunction` carrying method name `m`
and class name `c`, followed by a uid getter yielding `u`) is registered and the loop
goes on with the class record in which vtable slot `u` is `(name = m, namespace = c)`;
when `c` is the class name read in the prologue, `m` is appended to the method list and
the superclass set is unchanged, otherwise `c` is inserted in the superclass set and the
method list is unchanged. -/
theorem vtableEntry_registers (lookup : Nat → Option OPCode) (vm : Reader) (mem : Mem)
    (name bcl : Nat) (cls : gscclass) (op : OPCode) (u bcl2 : Nat)
    (h1 : lookup (readU16 mem (alignUp 2 bcl)) = some .OPCODE_GetResolveFunction)
    (h2 : lookup (readU16 mem (alignUp 2 (alignUp 8 (alignUp 2 bcl + 2) + 8))) = some op)
    (h3 : readUid mem op (alignUp 2 (alignUp 8 (alignUp 2 bcl + 2) + 8) + 2) = some (u, bcl2)) :
    ∃ cls1 m c, m = readU32 mem (alignUp 8 (alignUp 2 bcl + 2)) ∧
      c = readU32 mem (alignUp 8 (alignUp 2 bcl + 2) + 4) ∧
      vtableEntry lookup vm mem name bcl cls =
        .next (skipGroupTail vm bcl2) cls1 (.entry u c m) ∧
      (∀ fuel classes out, vtableLoop lookup vm mem name classes (fuel + 1) bcl cls out =
        vtableLoop lookup vm mem name classes fuel (skipGroupTail vm bcl2) cls1
          (out ++ [.entry u c m])) ∧
      mapFind cls1.m_vtable u = some (m, c) ∧
      (c = name → cls1.m_methods = cls.m_methods ++ [m] ∧
        cls1.m_superClass = cls.m_superClass) ∧
      (c ≠ name → cls1.m_methods = cls.m_methods ∧
        ∀ x, x ∈ cls1.m_superClass ↔ x ∈ cls.m_superClass ∨ x = c) := by
  have hstep : vtableEntry lookup vm mem name bcl cls =
      .next (skipGroupTail vm bcl2)
        (registerEntry name cls (readU32 mem (alignUp 8 (alignUp 2 bcl + 2)))
          (readU32 mem (alignUp 8 (alignUp 2 bcl + 2) + 4)) u)
        (.entry u (readU32 mem (alignUp 8 (alignUp 2 bcl + 2) + 4))
          (readU32 mem (alignUp 8 (alignUp 2 bcl + 2)))) := by
    simp [vtableEntry, h1, h2, h3]
  refine ⟨_, _, _, rfl, rfl, hstep, ?_, ?_, ?_, ?_⟩
  · intro fuel classes out
    simp only [vtableLoop, hstep]
  · simp only [registerEntry]
    exact mapFind_mapSet_self _ _ _
  · intro hc
    simp [registerEntry, hc]
  · intro hc
    simp only [registerEntry, hc, if_false]
    exact ⟨trivial, fun x => mem_setEmplace _ _ _⟩

/-- Witness of `vtableEntry_registers`: the group
`GetResolveFunction &0x12345678::0x11223344; GetUnsignedShort 0xA5A5`. -/
theorem vtableEntry_registers_witness :
    (sampleLookup (readU16 sampleGroup (alignUp 2 0)) = some .OPCODE_GetResolveFunction ∧
      sampleLookup (readU16 sampleGroup (alignUp 2 (alignUp 8 (alignUp 2 0 + 2) + 8))) =
        some .OPCODE_GetUnsignedShort ∧
      readUid sampleGroup .OPCODE_GetUnsignedShort
        (alignUp 2 (alignUp 8 (alignUp 2 0 + 2) + 8) + 2) = some (0xA5A5, 20)) ∧
    ∃ cls1 m c, m = readU32 sampleGroup (alignUp 8 (alignUp 2 0 + 2)) ∧
      c = readU32 sampleGroup (alignUp 8 (alignUp 2 0 + 2) + 4) ∧
      vtableEntry sampleLookup Reader.T8 sampleGroup 0x12345678 0 gscclass.empty =
        .next (skipGroupTail Reader.T8 20) cls1 (.entry 0xA5A5 c m) ∧
      (∀ fuel classes out,
        vtableLoop sampleLookup Reader.T8 sampleGroup 0x12345678 classes (fuel + 1) 0
          gscclass.empty out =
        vtableLoop sampleLookup Reader.T8 sampleGroup 0x12345678 classes fuel
          (skipGroupTail Reader.T8 20) cls1 (out ++ [.entry 0xA5A5 c m])) ∧
      mapFind cls1.m_vtable 0xA5A5 = some (m, c) ∧
      (c = 0x12345678 → cls1.m_methods = gscclass.empty.m_methods ++ [m] ∧
        cls1.m_superClass = gscclass.empty.m_superClass) ∧
      (c ≠ 0x12345678 → cls1.m_methods = gscclass.empty.m_methods ∧
        ∀ x, x ∈ cls1.m_superClass ↔ x ∈ gscclass.empty.m_superClass ∨ x = c) :=
  ⟨⟨by decide, by decide, by decide⟩,
    vtableEntry_registers sampleLookup Reader.T8 sampleGroup 0x12345678 0 gscclass.empty
      .OPCODE_GetUnsignedShort 0xA5A5 20 (by decide) (by decide) (by decide)⟩

/-! ## VTable reader: diagnostics -/

theorem readUid_eq_none_iff (mem : Mem) (g : OPCode) (b : Nat) :
    readUid mem g b = none ↔ g ∉ uidGetters := by
  cases g <;> simp [readUid, uidGetters]

theorem vtableEntry_error_iff (lookup : Nat → Option OPCode) (vm : Reader) (mem : Mem)
    (name bcl : Nat) (cls : gscclass) (line : VTableLine) :
    vtableEntry lookup vm mem name bcl cls = .error line ↔
      (lookup (readU16 mem (alignUp 2 bcl)) = none ∧
        line = .bad (readU16 mem (alignUp 2 bcl)) "") ∨
      (∃ id, lookup (readU16 mem (alignUp 2 bcl)) = some id ∧ id ≠ .OPCODE_End ∧
        id ≠ .OPCODE_GetResolveFunction ∧
        line = .bad (readU16 mem (alignUp 2 bcl)) "GetResolveFunction or End") ∨
      (lookup (readU16 mem (alignUp 2 bcl)) = some .OPCODE_GetResolveFunction ∧
        ∃ g, lookup (readU16 mem (alignUp 2 (alignUp 8 (alignUp 2 bcl + 2) + 8))) = some g ∧
          g ∉ uidGetters ∧ line = .badGetter g) := by
  cases h1 : lookup (readU16 mem (alignUp 2 bcl)) with
  | none => simp [vtableEntry, h1, eq_comm]
  | some id =>
    by_cases hE : id = .OPCODE_End
    · subst hE; simp [vtableEntry, h1]
    · by_cases hG : id = .OPCODE_GetResolveFunction
      · subst hG
        cases h2 : lookup (readU16 mem (alignUp 2 (alignUp 8 (alignUp 2 bcl + 2) + 8))) with
        | none => simp [vtableEntry, h1, h2]
        | some g =>
          cases h3 : readUid mem g (alignUp 2 (alignUp 8 (alignUp 2 bcl + 2) + 8) + 2) with
          | none =>
            have hg := (readUid_eq_none_iff mem g _).mp h3
            simp [vtableEntry, h1, h2, h3, hg, eq_comm]
          | some r =>
            have hg : ¬ g ∉ uidGetters := by
              intro hn
              rw [(readUid_eq_none_iff mem g _).mpr hn] at h3
              cases h3
            simp [vtableEntry, h1, h2, h3, hg]
      · simp [vtableEntry, h1, hE, hG, eq_comm]

theorem vtableEntry_error_isDiagnostic (lookup : Nat → Option OPCode) (vm : Reader)
    (mem : Mem) (name bcl : Nat) (cls : gscclass) (line : VTableLine)
    (h : vtableEntry lookup vm mem name bcl cls = .error line) :
    line.isDiagnostic = true := by
  rcases (vtableEntry_error_iff lookup vm mem name bcl cls line).mp h with
    ⟨_, rfl⟩ | ⟨_, _, _, _, rfl⟩ | ⟨_, _, _, _, rfl⟩ <;> rfl

theorem vtableEntry_next_isDiagnostic (lookup : Nat → Option OPCode) (vm : Reader)
    (mem : Mem) (name bcl : Nat) (cls : gscclass) (bcl1 : Nat) (cls1 : gscclass)
    (line : VTableLine)
    (h : vtableEntry lookup vm mem name bcl cls = .next bcl1 cls1 line) :
    line.isDiagnostic = false := by
  cases h1 : lookup (readU16 mem (alignUp 2 bcl)) with
  | none => simp [vtableEntry, h1] at h
  | some id =>
    by_cases hE : id = .OPCODE_End
    · subst hE; simp [vtableEntry, h1] at h
    · by_cases hG : id = .OPCODE_GetResolveFunction
      · subst hG
        cases h2 : lookup (readU16 mem (alignUp 2 (alignUp 8 (alignUp 2 bcl + 2) + 8))) with
        | none => simp [vtableEntry, h1, h2] at h
        | some g =>
          cases h3 : readUid mem g (alignUp 2 (alignUp 8 (alignUp 2 bcl + 2) + 8) + 2) with
          | none => simp [vtableEntry, h1, h2, h3] at h
          | some r =>
            simp [vtableEntry, h1, h2, h3] at h
            obtain ⟨_, _, rfl⟩ := h
            rfl
      · simp [vtableEntry, h1, hE, hG] at h

theorem diagnosticCount_append (out : List VTableLine) (line : VTableLine) :
    diagnosticCount (out ++ [line]) =
      diagnosticCount out + (if line.isDiagnostic then 1 else 0) := by
  simp [diagnosticCount, List.countP_append, List.countP_cons]

theorem vtableLoop_diagnostics (lookup : Nat → Option OPCode) (vm : Reader) (mem : Mem)
    (name : Nat) (classes : List (Nat × gscclass)) :
    ∀ (fuel bcl : Nat) (cls : gscclass) (out : List VTableLine) (ret : Int)
      (out1 : List VTableLine) (cl : List (Nat × gscclass)),
      diagnosticCount out = 0 →
      vtableLoop lookup vm mem name classes fuel bcl cls out = .returned ret out1 cl →
      (ret = -1 ∧ diagnosticCount out1 = 1) ∨ (ret = 0 ∧ diagnosticCount out1 = 0) := by
  intro fuel
  induction fuel with
  | zero => intro bcl cls out ret out1 cl _ h; simp [vtableLoop] at h
  | succ n ih =>
    intro bcl cls out ret out1 cl h0 h
    simp only [vtableLoop] at h
    cases hs : vtableEntry lookup vm mem name bcl cls with
    | error line =>
      rw [hs] at h
      simp only [VTableResult.returned.injEq] at h
      obtain ⟨rfl, rfl, _⟩ := h
      left
      refine ⟨rfl, ?_⟩
      rw [diagnosticCount_append, h0,
        vtableEntry_error_isDiagnostic lookup vm mem name bcl cls line hs]
      rfl
    | crash => rw [hs] at h; cases h
    | finished b =>
      rw [hs] at h
      simp only [VTableResult.returned.injEq] at h
      obtain ⟨rfl, rfl, _⟩ := h
      right
      refine ⟨rfl, ?_⟩
      rw [diagnosticCount_append, h0]
      rfl
    | next bcl1 cls1 line =>
      rw [hs] at h
      apply ih bcl1 cls1 (out ++ [line]) ret out1 cl _ h
      rw [diagnosticCount_append, h0,
        vtableEntry_next_isDiagnostic lookup vm mem name bcl cls bcl1 cls1 line hs]
      rfl

/-- C10 as stated fails.  On `VM_T9` an export whose third instruction is `GetZero`
rather than a call makes `DumpVTable` return `0` without writing a line; and on `VM_T8`
an export with the unregistered opcode `0xffff` where `GetZero` is expected is accepted:
`DumpVTable` returns `0` and writes only the class line. -/
theorem DumpVTable_deviation_counterexample :
    (sampleLookup (vtableCode3 noCallExport 0) = some .OPCODE_GetZero ∧
      DumpVTable sampleLookup Reader.T9 noCallExport 0x99 [] 0 8 = .returned 0 [] []) ∧
    (sampleLookup (readU16 noGetZeroExport 16) = none ∧
      DumpVTable sampleLookup Reader.T8 noGetZeroExport 0x99 [] 0 8 =
        .returned 0 [.classHeader 0x12345678 []]
          [(0x12345678, { gscclass.empty with name_space := 0x99 })]) := by
  refine ⟨⟨by decide, by decide⟩, ⟨by decide, by decide⟩⟩

/-- C10 (amended): `DumpVTable` returns `-1` after writing exactly one diagnostic line
when a position it checks deviates: the first opcode is not `CheckClearParams`, the
second is not `PreScriptCall`, the third is unregistered, or is registered, not a call,
and the VM is not `VM_T9` (on `VM_T9` it then returns `0` and writes nothing); in the
table loop, when the first opcode of a group is unregistered or is neither `End` nor
`GetResolveFunction`, or when the uid getter is a registered opcode that is not one of
the nine getters.  The other positions are stepped over unread.  Whenever it returns,
it has returned `-1` with exactly one diagnostic line or `0` with none. -/
theorem DumpVTable_diagnostics (lookup : Nat → Option OPCode) (vm : Reader) (mem : Mem)
    (expNamespace : Nat) (classes : List (Nat × gscclass)) (bcl : Nat) :
    (lookup (vtableCode1 mem bcl) ≠ some .OPCODE_CheckClearParams →
      ∀ fuel, DumpVTable lookup vm mem expNamespace classes bcl fuel =
        .returned (-1) [.bad (vtableCode1 mem bcl) "CheckClearParams"] classes) ∧
    (lookup (vtableCode1 mem bcl) = some .OPCODE_CheckClearParams →
      lookup (vtableCode2 mem bcl) ≠ some .OPCODE_PreScriptCall →
      ∀ fuel, DumpVTable lookup vm mem expNamespace classes bcl fuel =
        .returned (-1) [.bad (vtableCode2 mem bcl) "PreScriptCall"] classes) ∧
    (lookup (vtableCode1 mem bcl) = some .OPCODE_CheckClearParams →
      lookup (vtableCode2 mem bcl) = some .OPCODE_PreScriptCall →
      lookup (vtableCode3 mem bcl) = none →
      ∀ fuel, DumpVTable lookup vm mem expNamespace classes bcl fuel =
        .returned (-1) [.bad (vtableCode3 mem bcl) ""] classes) ∧
    (lookup (vtableCode1 mem bcl) = some .OPCODE_CheckClearParams →
      lookup (vtableCode2 mem bcl) = some .OPCODE_PreScriptCall →
      ∀ op, lookup (vtableCode3 mem bcl) = some op →
      op ≠ .OPCODE_ScriptFunctionCall → op ≠ .OPCODE_CallBuiltinFunction →
      ∀ fuel, DumpVTable lookup vm mem expNamespace classes bcl fuel =
        if vm = Reader.T9 then .returned 0 [] classes
        else .returned (-1) [.bad (vtableCode3 mem bcl) "ScriptFunctionCall"] classes) ∧
    (∀ name b cls line, vtableEntry lookup vm mem name b cls = .error line ↔
      (lookup (readU16 mem (alignUp 2 b)) = none ∧
        line = .bad (readU16 mem (alignUp 2 b)) "") ∨
      (∃ id, lookup (readU16 mem (alignUp 2 b)) = some id ∧ id ≠ .OPCODE_End ∧
        id ≠ .OPCODE_GetResolveFunction ∧
        line = .bad (readU16 mem (alignUp 2 b)) "GetResolveFunction or End") ∨
      (lookup (readU16 mem (alignUp 2 b)) = some .OPCODE_GetResolveFunction ∧
        ∃ g, lookup (readU16 mem (alignUp 2 (alignUp 8 (alignUp 2 b + 2) + 8))) = some g ∧
          g ∉ uidGetters ∧ line = .badGetter g)) ∧
    (∀ name b cls line, vtableEntry lookup vm mem name b cls = .error line →
      line.isDiagnostic = true ∧
      ∀ fuel cl out, vtableLoop lookup vm mem name cl (fuel + 1) b cls out =
        .returned (-1) (out ++ [line]) (mapSet cl name cls)) ∧
    (∀ fuel ret out cl,
      DumpVTable lookup vm mem expNamespace classes bcl fuel = .returned ret out cl →
      (ret = -1 ∧ diagnosticCount out = 1) ∨ (ret = 0 ∧ diagnosticCount out = 0)) := by
  refine ⟨?_, ?_, ?_, ?_, ?_, ?_, ?_⟩
  · intro h fuel
    simp only [vtableCode1] at h
    simp [DumpVTable, vtableCode1, h]
  · intro h1 h2 fuel
    simp only [vtableCode1, vtableCode2] at h1 h2
    simp [DumpVTable, vtableCode2, h1, h2]
  · intro h1 h2 h3 fuel
    simp only [vtableCode1, vtableCode2, vtableCode3] at h1 h2 h3
    simp [DumpVTable, vtableCode3, h1, h2, h3]
  · intro h1 h2 op h3 ho1 ho2 fuel
    simp only [vtableCode1, vtableCode2, vtableCode3] at h1 h2 h3
    simp [DumpVTable, vtableCode3, h1, h2, h3, ho1, ho2]
  · intro name b cls line
    exact vtableEntry_error_iff lookup vm mem name b cls line
  · intro name b cls line h
    refine ⟨vtableEntry_error_isDiagnostic lookup vm mem name b cls line h, ?_⟩
    intro fuel cl out
    simp only [vtableLoop, h]
  · intro fuel ret out cl h
    by_cases h1 : lookup (readU16 mem (alignUp 2 bcl)) = some .OPCODE_CheckClearParams
    swap
    · simp only [DumpVTable, ne_eq, h1, not_false_eq_true, if_true,
        VTableResult.returned.injEq] at h
      obtain ⟨rfl, rfl, _⟩ := h
      left; exact ⟨rfl, rfl⟩
    by_cases h2 : lookup (readU16 mem (alignUp 2 (alignUp 2 bcl + 2))) =
        some .OPCODE_PreScriptCall
    swap
    · simp only [DumpVTable, ne_eq, h1, h2, not_true_eq_false, not_false_eq_true, if_true,
        if_false, VTableResult.returned.injEq] at h
      obtain ⟨rfl, rfl, _⟩ := h
      left; exact ⟨rfl, rfl⟩
    cases h3 : lookup (readU16 mem (alignUp 2 (alignUp 2 (alignUp 2 bcl + 2) + 2))) with
    | none =>
      simp only [DumpVTable, ne_eq, h1, h2, h3, not_true_eq_false, if_false,
        VTableResult.returned.injEq] at h
      obtain ⟨rfl, rfl, _⟩ := h
      left; exact ⟨rfl, rfl⟩
    | some op =>
      by_cases hc : op ≠ .OPCODE_ScriptFunctionCall ∧ op ≠ .OPCODE_CallBuiltinFunction
      · by_cases hv : vm = Reader.T9
        · simp only [DumpVTable, ne_eq, h1, h2, h3, not_true_eq_false, if_false] at h
          rw [if_pos hc, if_pos hv] at h
          simp only [VTableResult.returned.injEq] at h
          obtain ⟨rfl, rfl, _⟩ := h
          right; exact ⟨rfl, rfl⟩
        · simp only [DumpVTable, ne_eq, h1, h2, h3, not_true_eq_false, if_false] at h
          rw [if_pos hc, if_neg hv] at h
          simp only [VTableResult.returned.injEq] at h
          obtain ⟨rfl, rfl, _⟩ := h
          left; exact ⟨rfl, rfl⟩
      · simp only [DumpVTable, ne_eq, h1, h2, h3, not_true_eq_false, if_false] at h
        rw [if_neg hc] at h
        exact vtableLoop_diagnostics lookup vm mem _ classes fuel _ _ [] ret out cl rfl h

/-! ## VTable reader: the class record -/

theorem mapFind_mapSet_ne {V : Type} (m : List (Nat × V)) (k k' : Nat) (v : V)
    (h : k' ≠ k) : mapFind (mapSet m k v) k' = mapFind m k' := by
  induction m with
  | nil => simp [mapSet, mapFind, Ne.symm h]
  | cons x t ih =>
    obtain ⟨k0, v0⟩ := x
    by_cases h0 : k0 = k
    · subst h0
      simp [mapSet, mapFind, Ne.symm h]
    · by_cases h1 : k0 = k'
      · subst h1
        simp [mapSet, mapFind, h0]
      · simp [mapSet, mapFind, h0, h1, ih]

theorem vtableEntry_next_eq (lookup : Nat → Option OPCode) (vm : Reader)
    (mem : Mem) (name bcl : Nat) (cls : gscclass) (bcl1 : Nat) (cls1 : gscclass)
    (line : VTableLine)
    (h : vtableEntry lookup vm mem name bcl cls = .next bcl1 cls1 line) :
    ∃ u c m, line = .entry u c m ∧ cls1 = registerEntry name cls m c u := by
  cases h1 : lookup (readU16 mem (alignUp 2 bcl)) with
  | none => simp [vtableEntry, h1] at h
  | some id =>
    by_cases hE : id = .OPCODE_End
    · subst hE; simp [vtableEntry, h1] at h
    · by_cases hG : id = .OPCODE_GetResolveFunction
      · subst hG
        cases h2 : lookup (readU16 mem (alignUp 2 (alignUp 8 (alignUp 2 bcl + 2) + 8))) with
        | none => simp [vtableEntry, h1, h2] at h
        | some g =>
          cases h3 : readUid mem g (alignUp 2 (alignUp 8 (alignUp 2 bcl + 2) + 8) + 2) with
          | none => simp [vtableEntry, h1, h2, h3] at h
          | some r =>
            simp [vtableEntry, h1, h2, h3] at h
            obtain ⟨_, hc, hl⟩ := h
            exact ⟨_, _, _, hl.symm, hc.symm⟩
      · simp [vtableEntry, h1, hE, hG] at h

theorem registerEntry_methods (name : Nat) (cls : gscclass) (m c u : Nat) :
    (registerEntry name cls m c u).m_methods = cls.m_methods ++ entryMethods name [.entry u c m] := by
  by_cases hc : c = name
  · simp [registerEntry, entryMethods, hc]
  · simp [registerEntry, entryMethods, hc]

theorem registerEntry_name_space (name : Nat) (cls : gscclass) (m c u : Nat) :
    (registerEntry name cls m c u).name_space = cls.name_space := by
  by_cases hc : c = name <;> simp [registerEntry, hc]

theorem registerEntry_vtable (name : Nat) (cls : gscclass) (m c u u1 : Nat) (p : Nat × Nat)
    (h : mapFind (registerEntry name cls m c u).m_vtable u1 = some p) :
    mapFind cls.m_vtable u1 = some p ∨ (u1 = u ∧ p = (m, c)) := by
  have hv : (registerEntry name cls m c u).m_vtable = mapSet cls.m_vtable u (m, c) := by
    by_cases hc : c = name <;> simp [registerEntry, hc]
  rw [hv] at h
  by_cases hu : u1 = u
  · subst hu
    rw [mapFind_mapSet_self] at h
    exact Or.inr ⟨rfl, (Option.some.inj h).symm⟩
  · rw [mapFind_mapSet_ne _ _ _ _ hu] at h
    exact Or.inl h

theorem entryMethods_append (name : Nat) (a b : List VTableLine) :
    entryMethods name (a ++ b) = entryMethods name a ++ entryMethods name b := by
  simp [entryMethods, List.filterMap_append]

theorem vtableLoop_record (lookup : Nat → Option OPCode) (vm : Reader) (mem : Mem)
    (name : Nat) (classes : List (Nat × gscclass)) :
    ∀ (fuel bcl : Nat) (cls : gscclass) (out : List VTableLine) (ret : Int)
      (out1 : List VTableLine) (cl : List (Nat × gscclass)),
      vtableLoop lookup vm mem name classes fuel bcl cls out = .returned ret out1 cl →
      ∃ cls1 extra, cl = mapSet classes name cls1 ∧ out1 = out ++ extra ∧
        cls1.name_space = cls.name_space ∧
        cls1.m_methods = cls.m_methods ++ entryMethods name extra ∧
        ∀ u p, mapFind cls1.m_vtable u = some p →
          mapFind cls.m_vtable u = some p ∨ VTableLine.entry u p.2 p.1 ∈ extra := by
  intro fuel
  induction fuel with
  | zero => intro bcl cls out ret out1 cl h; simp [vtableLoop] at h
  | succ n ih =>
    intro bcl cls out ret out1 cl h
    simp only [vtableLoop] at h
    cases hs : vtableEntry lookup vm mem name bcl cls with
    | error line =>
      rw [hs] at h
      simp only [VTableResult.returned.injEq] at h
      obtain ⟨_, rfl, rfl⟩ := h
      have hl := vtableEntry_error_isDiagnostic lookup vm mem name bcl cls line hs
      refine ⟨cls, [line], rfl, rfl, rfl, ?_, fun u p hp => Or.inl hp⟩
      cases line <;> simp [VTableLine.isDiagnostic] at hl <;> simp [entryMethods]
    | crash => rw [hs] at h; cases h
    | finished b =>
      rw [hs] at h
      simp only [VTableResult.returned.injEq] at h
      obtain ⟨_, rfl, rfl⟩ := h
      exact ⟨cls, _, rfl, rfl, rfl, by simp [entryMethods], fun u p hp => Or.inl hp⟩
    | next bcl1 cls1 line =>
      rw [hs] at h
      obtain ⟨u, c, m, rfl, rfl⟩ := vtableEntry_next_eq lookup vm mem name bcl cls bcl1 cls1 line hs
      obtain ⟨cls2, extra, h1, h2, h3, h4, h5⟩ := ih _ _ _ _ _ _ h
      refine ⟨cls2, .entry u c m :: extra, h1, ?_, ?_, ?_, ?_⟩
      · rw [h2]; simp
      · rw [h3, registerEntry_name_space]
      · rw [h4, registerEntry_methods, List.append_assoc, ← entryMethods_append]
        rfl
      · intro u1 p hp
        rcases h5 u1 p hp with hreg | hmem
        · rcases registerEntry_vtable name cls m c u u1 p hreg with h0 | ⟨rfl, rfl⟩
          · exact Or.inl h0
          · exact Or.inr (List.mem_cons_self _ _)
        · exact Or.inr (List.mem_cons_of_mem _ hmem)

/-- C11 as stated fails: `DumpVTable` accepts (returns `0` on) a vtable export whose
only entry binds method hash `0` of a superclass; the class record it leaves has an
empty method list and its vtable slot `0xA5A5` holds the method hash `0`. -/
theorem DumpVTable_class_record_counterexample :
    DumpVTable sampleLookup Reader.T8 superOnlyExport 0x99 [] 0 8 =
      .returned 0 [.entry 0xA5A5 0x9ABCDEF0 0, .classHeader 0x12345678 [0x9ABCDEF0]]
        [(0x12345678, { name_space := 0x99, m_superClass := [0x9ABCDEF0], m_methods := [],
                        m_vtable := [(0xA5A5, (0, 0x9ABCDEF0))] })] := by
  decide

/-- C11 (amended): for every export on which `DumpVTable` returns `0` after reading the
class name (the third instruction is a call), the class record it leaves under that
name has the export's namespace, its method list is the prior list followed by the
method names of the entries written to `out` whose class is the class name, and every
slot of its vtable map is a prior slot or the `(method, class)` pair of an entry written
to `out`.  Neither an empty method list nor a zero method hash is refused. -/
theorem DumpVTable_class_record (lookup : Nat → Option OPCode) (vm : Reader) (mem : Mem)
    (expNamespace : Nat) (classes : List (Nat × gscclass)) (bcl fuel : Nat)
    (out : List VTableLine) (cl : List (Nat × gscclass))
    (h3 : lookup (vtableCode3 mem bcl) = some .OPCODE_ScriptFunctionCall ∨
      lookup (vtableCode3 mem bcl) = some .OPCODE_CallBuiltinFunction)
    (h : DumpVTable lookup vm mem expNamespace classes bcl fuel = .returned 0 out cl) :
    ∃ cls1, cl = mapSet classes (vtableClassName vm mem bcl) cls1 ∧
      cls1.name_space = expNamespace ∧
      cls1.m_methods = (priorClass classes (vtableClassName vm mem bcl)).m_methods ++
        entryMethods (vtableClassName vm mem bcl) out ∧
      ∀ u p, mapFind cls1.m_vtable u = some p →
        mapFind (priorClass classes (vtableClassName vm mem bcl)).m_vtable u = some p ∨
        VTableLine.entry u p.2 p.1 ∈ out := by
  by_cases h1 : lookup (readU16 mem (alignUp 2 bcl)) = some .OPCODE_CheckClearParams
  swap
  · simp only [DumpVTable, ne_eq, h1, not_false_eq_true, if_true,
      VTableResult.returned.injEq] at h
    omega
  by_cases h2 : lookup (readU16 mem (alignUp 2 (alignUp 2 bcl + 2))) =
      some .OPCODE_PreScriptCall
  swap
  · simp only [DumpVTable, ne_eq, h1, h2, not_true_eq_false, not_false_eq_true, if_true,
      if_false, VTableResult.returned.injEq] at h
    omega
  simp only [vtableCode3] at h3
  obtain ⟨op, hop, hcall⟩ : ∃ op, lookup (readU16 mem (alignUp 2 (alignUp 2
      (alignUp 2 bcl + 2) + 2))) = some op ∧
      ¬ (op ≠ .OPCODE_ScriptFunctionCall ∧ op ≠ .OPCODE_CallBuiltinFunction) := by
    rcases h3 with h3 | h3
    · exact ⟨_, h3, by simp⟩
    · exact ⟨_, h3, by simp⟩
  simp only [DumpVTable, ne_eq, h1, h2, hop, not_true_eq_false, if_false] at h
  rw [if_neg hcall] at h
  obtain ⟨cls1, extra, e1, e2, e3, e4, e5⟩ :=
    vtableLoop_record lookup vm mem _ classes fuel _ _ [] 0 out cl h
  rw [List.nil_append] at e2
  subst e2
  exact ⟨cls1, e1, e3, e4, e5⟩

/-- Witness of `DumpVTable_class_record`: an export binding one method of the class
itself. -/
theorem DumpVTable_class_record_witness :
    ((sampleLookup (vtableCode3 oneMethodExport 0) = some .OPCODE_ScriptFunctionCall ∨
      sampleLookup (vtableCode3 oneMethodExport 0) = some .OPCODE_CallBuiltinFunction) ∧
      DumpVTable sampleLookup Reader.T8 oneMethodExport 0x99 [] 0 8 =
        .returned 0 [.entry 0xA5A5 0x12345678 0x11223344, .classHeader 0x12345678 []]
          [(0x12345678, oneMethodClass)]) ∧
    ∃ cls1, [(0x12345678, oneMethodClass)] =
        mapSet [] (vtableClassName Reader.T8 oneMethodExport 0) cls1 ∧
      cls1.name_space = 0x99 ∧
      cls1.m_methods = (priorClass [] (vtableClassName Reader.T8 oneMethodExport 0)).m_methods ++
        entryMethods (vtableClassName Reader.T8 oneMethodExport 0)
          [.entry 0xA5A5 0x12345678 0x11223344, .classHeader 0x12345678 []] ∧
      ∀ u p, mapFind cls1.m_vtable u = some p →
        mapFind (priorClass [] (vtableClassName Reader.T8 oneMethodExport 0)).m_vtable u =
          some p ∨
        VTableLine.entry u p.2 p.1 ∈
          [VTableLine.entry 0xA5A5 0x12345678 0x11223344, .classHeader 0x12345678 []] :=
  ⟨⟨by decide, by decide⟩,
    DumpVTable_class_record sampleLookup Reader.T8 oneMethodExport 0x99 [] 0 8 _ _
      (by decide) (by decide)⟩

/-! ## `ComputeSize` -/

/-- On the sample walker, an export made of the single instruction `End` has size 2. -/
theorem ComputeSize_endOnly_sample :
    ComputeSize (sampleSkipOps endOnlyExport) 4 sampleStart = some 2 := by
  decide

/-- C13 as stated fails: on an export `jump +4; <opcode 0xf000>; End; End`, `DumpAsm`
sets `m_disableDecompiler` at the opcode `0xf000` without invoking a handler for it,
and then decodes the queued jump target: the handler of the `End` there is invoked. -/
theorem DumpAsm_top_nibble_counterexample :
    (DumpAsm (sampleDumpOps failThenTargetExport) true 8 ⟨false, sampleStart⟩ []).map
      (fun r => (r.1.m_disableDecompiler, r.2)) =
      some (true, [.dumped 0x0020, .failure 0xf000, .dumped 0x0010]) ∧
    (DumpAsm (sampleDumpOps failThenTargetExport) true 8 ⟨false, sampleStart⟩ []).map
      (fun r => r.1.rest.locs) = some [0, 4, 8] := by
  refine ⟨by decide, by decide⟩

/-- C13 (amended): in `DumpAsm`, when the fetched opcode number has a bit of its top
nibble (bits 12 to 15) set, `m_disableDecompiler` is set, the handler is not invoked for
that instruction, and the current run of instructions stops; `DumpAsm` then asks
`FindNextLocation` again and goes on with the next unhandled location, if there is
one. -/
theorem DumpAsm_top_nibble {σ : Type} (W : DumpOps σ) (short : Bool) (fuel : Nat)
    (ctx : ASMContext σ) (ev : List DumpEvent)
    (hbad : W.fetch short (W.enter short ctx) % 65536 &&& 0xF000 ≠ 0) :
    dumpRun W short (fuel + 1) ctx ev =
      some ({ W.enter short ctx with m_disableDecompiler := true },
        ev ++ [.failure (W.fetch short (W.enter short ctx) % 65536)]) ∧
    (∀ ctx0, W.FindNextLocation ctx0 = (true, ctx) →
      DumpAsm W short (fuel + 2) ctx0 ev =
        DumpAsm W short (fuel + 1) { W.enter short ctx with m_disableDecompiler := true }
          (ev ++ [.failure (W.fetch short (W.enter short ctx) % 65536)])) := by
  have hrun : ∀ f, dumpRun W short (f + 1) ctx ev =
      some ({ W.enter short ctx with m_disableDecompiler := true },
        ev ++ [.failure (W.fetch short (W.enter short ctx) % 65536)]) := by
    intro f
    simp only [DumpOps.enter] at hbad
    simp [dumpRun, DumpOps.enter, hbad]
  refine ⟨hrun fuel, ?_⟩
  intro ctx0 h0
  rw [DumpAsm]
  simp only [h0, if_true, hrun fuel]

/-- Witness of `DumpAsm_top_nibble`: the opcode `0xf000` at offset 4 of the sample
export, reached with the jump target 8 still queued. -/
theorem DumpAsm_top_nibble_witness :
    (sampleDumpOps failThenTargetExport).fetch true
      ((sampleDumpOps failThenTargetExport).enter true
        ⟨false, { bcl := 4, work := [0, 8], locs := [0] }⟩) % 65536 &&& 0xF000 ≠ 0 ∧
    (dumpRun (sampleDumpOps failThenTargetExport) true (0 + 1)
        ⟨false, { bcl := 4, work := [0, 8], locs := [0] }⟩ [.dumped 0x0020] =
      some ({ (sampleDumpOps failThenTargetExport).enter true
          ⟨false, { bcl := 4, work := [0, 8], locs := [0] }⟩ with
          m_disableDecompiler := true },
        [.dumped 0x0020] ++ [.failure ((sampleDumpOps failThenTargetExport).fetch true
          ((sampleDumpOps failThenTargetExport).enter true
            ⟨false, { bcl := 4, work := [0, 8], locs := [0] }⟩) % 65536)]) ∧
    (∀ ctx0, (sampleDumpOps failThenTargetExport).FindNextLocation ctx0 =
        (true, ⟨false, { bcl := 4, work := [0, 8], locs := [0] }⟩) →
      DumpAsm (sampleDumpOps failThenTargetExport) true (0 + 2) ctx0 [.dumped 0x0020] =
        DumpAsm (sampleDumpOps failThenTargetExport) true (0 + 1)
          { (sampleDumpOps failThenTargetExport).enter true
            ⟨false, { bcl := 4, work := [0, 8], locs := [0] }⟩ with
            m_disableDecompiler := true }
          ([.dumped 0x0020] ++ [.failure ((sampleDumpOps failThenTargetExport).fetch true
            ((sampleDumpOps failThenTargetExport).enter true
              ⟨false, { bcl := 4, work := [0, 8], locs := [0] }⟩) % 65536)]))) :=
  ⟨by decide,
    DumpAsm_top_nibble (sampleDumpOps failThenTargetExport) true 0
      ⟨false, { bcl := 4, work := [0, 8], locs := [0] }⟩ [.dumped 0x0020] (by decide)⟩

/-! ## Reconstruction passes -/

/-- The call of the special-pattern pass at line 1614 is not guarded in
`GscInfoHandleData`: with only the bit `STEPSKIP_SPECIAL_PATTERN` set in `m_stepskip`, the
call is made all the same (after the eight others). -/
theorem reconstruct_special_pattern_called :
    stepSkip.STEPSKIP_SPECIAL_PATTERN &&& stepSkip.STEPSKIP_SPECIAL_PATTERN ≠ 0 ∧
    reconstruct stepSkip recordPass stepSkip.STEPSKIP_SPECIAL_PATTERN [] =
      [.ComputeDevBlocks, .ComputeSwitchBlocks, .ComputeForEachBlocks, .ComputeWhileBlocks,
        .ComputeForBlocks, .ComputeIfBlocks, .ComputeReturnJump, .ComputeBoolReturn,
        .ComputeSpecialPattern] := by
  refine ⟨by decide, by decide⟩

theorem foldl_filter_map {α β γ : Type} (q : α → Bool) (f : α → β) (g : γ → β → γ) :
    ∀ (l : List α) (a : γ), ((l.filter q).map f).foldl g a =
      l.foldl (fun c x => if q x then g c (f x) else c) a := by
  intro l
  induction l with
  | nil => intro a; rfl
  | cons x t ih =>
    intro a
    by_cases hq : q x
    · simp [List.filter_cons, hq, ih]
    · simp [List.filter_cons, hq, ih]

/-- The calls `GscInfoHandleData` makes for a decompiled non-vtable export, in the
fixed order developer blocks, switch, for-each, while, for, if/else, return jump,
boolean return, special patterns: each of the first eight is made if and only if its
skip bit is clear in `m_stepskip`, and the call of the special-pattern pass is always
made. -/
theorem reconstruct_eq_passesToRun {σ : Type} (K : StepSkip) (run : Pass → σ → σ)
    (m_stepskip : Nat) (asmctx : σ) :
    reconstruct K run m_stepskip asmctx =
      (passesToRun K m_stepskip).foldl (fun ctx p => run p ctx) asmctx ∧
    (passesToRun K m_stepskip).Sublist
      [.ComputeDevBlocks, .ComputeSwitchBlocks, .ComputeForEachBlocks, .ComputeWhileBlocks,
        .ComputeForBlocks, .ComputeIfBlocks, .ComputeReturnJump, .ComputeBoolReturn,
        .ComputeSpecialPattern] ∧
    (∀ p bit, (p, bit) ∈ gatedPasses K →
      (p ∈ passesToRun K m_stepskip ↔ m_stepskip &&& bit = 0)) ∧
    Pass.ComputeSpecialPattern ∈ passesToRun K m_stepskip := by
  refine ⟨?_, ?_, ?_, ?_⟩
  · simp only [reconstruct, passesToRun, List.foldl_append, foldl_filter_map, gatedPasses,
      List.foldl_cons, List.foldl_nil, decide_eq_true_eq]
  · have hs : ((gatedPasses K).filter
        (fun pb => decide (m_stepskip &&& pb.2 = 0))).Sublist (gatedPasses K) :=
      List.filter_sublist _
    have hm := hs.map Prod.fst
    have := hm.append (List.Sublist.refl [Pass.ComputeSpecialPattern])
    simpa [passesToRun, gatedPasses] using this
  · intro p bit hp
    have hne : p ≠ .ComputeSpecialPattern := by
      simp only [gatedPasses, List.mem_cons, Prod.mk.injEq, List.mem_singleton,
        List.not_mem_nil, or_false] at hp
      rcases hp with ⟨rfl, _⟩ | ⟨rfl, _⟩ | ⟨rfl, _⟩ | ⟨rfl, _⟩ | ⟨rfl, _⟩ |
        ⟨rfl, _⟩ | ⟨rfl, _⟩ | ⟨rfl, _⟩ <;> decide
    have huniq : ∀ b, (p, b) ∈ gatedPasses K → b = bit := by
      intro b hb
      simp only [gatedPasses, List.mem_cons, Prod.mk.injEq, List.mem_singleton,
        List.not_mem_nil, or_false] at hp hb
      rcases hp with h | h | h | h | h | h | h | h <;> obtain ⟨rfl, rfl⟩ := h <;>
        simpa using hb
    simp only [passesToRun, List.mem_append, List.mem_map, List.mem_filter,
      decide_eq_true_eq, List.mem_singleton, hne, or_false]
    constructor
    · rintro ⟨⟨p1, b⟩, ⟨hmem, hclear⟩, rfl⟩
      rw [← huniq b hmem]
      exact hclear
    · intro hclear
      exact ⟨(p, bit), ⟨hp, hclear⟩, rfl⟩
  · simp [passesToRun]

/-! ## The `--ignore` option -/

theorem ignoreLetter_bitLetter (K : StepSkip) (width acc : Nat) (c : Char)
    (hc : c ∈ bitLetters) :
    ignoreLetter K width acc c = some (acc ||| letterBit K c) := by
  simp only [bitLetters, List.mem_cons, List.mem_singleton, List.not_mem_nil, or_false] at hc
  rcases hc with rfl | rfl | rfl | rfl | rfl | rfl | rfl | rfl | rfl | rfl | rfl <;>
    simp [ignoreLetter, letterBit]

theorem ignoreLetter_isSome (K : StepSkip) (width acc : Nat) (c : Char)
    (hc : c ∈ bitLetters ∨ c = 'a') : ∃ m, ignoreLetter K width acc c = some m := by
  rcases hc with hc | rfl
  · exact ⟨_, ignoreLetter_bitLetter K width acc c hc⟩
  · exact ⟨2 ^ width - 1, by simp [ignoreLetter]⟩

theorem ignoreLetter_other (K : StepSkip) (width acc : Nat) (c : Char)
    (hc : c ∉ bitLetters) (ha : c ≠ 'a') : ignoreLetter K width acc c = none := by
  simp only [bitLetters, List.mem_cons, List.mem_singleton, List.not_mem_nil, or_false,
    not_or] at hc
  obtain ⟨h1, h2, h3, h4, h5, h6, h7, h8, h9, h10, h11⟩ := hc
  simp [ignoreLetter, h1, h2, h3, h4, h5, h6, h7, h8, h9, h10, h11, ha]

/-- C15 as stated fails: the letter `a` is not mapped to one skip bit; it sets every bit
of `m_stepskip`, among them both `STEPSKIP_DEV` and `STEPSKIP_SWITCH`. -/
theorem ignoreParam_all_counterexample :
    ignoreParam stepSkip 32 0 ['a'] = some 0xFFFFFFFF ∧
    0xFFFFFFFF &&& stepSkip.STEPSKIP_DEV ≠ 0 ∧
    0xFFFFFFFF &&& stepSkip.STEPSKIP_SWITCH ≠ 0 ∧
    stepSkip.STEPSKIP_DEV ≠ stepSkip.STEPSKIP_SWITCH := by
  refine ⟨by decide, by decide, by decide, by decide⟩

/-- C15 (amended): in the `--ignore` argument each of the eleven letters `d, D, s, e, w,
i, f, r, R, c, S` ORs its one skip bit into `m_stepskip`, so that for an argument made
of these letters `m_stepskip` ends as the OR of its former value and the bits of the
letters given; the letter `a` sets every bit of `m_stepskip`; and any other letter makes
`Compute` return `false`. -/
theorem ignoreParam_spec (K : StepSkip) (width : Nat) :
    (∀ cs acc, (∀ c ∈ cs, c ∈ bitLetters) →
      ignoreParam K width acc cs = some (cs.foldl (fun a c => a ||| letterBit K c) acc)) ∧
    (∀ acc, ignoreLetter K width acc 'a' = some (2 ^ width - 1)) ∧
    (∀ acc c, c ∉ bitLetters → c ≠ 'a' → ignoreLetter K width acc c = none) ∧
    (∀ pre c post acc, (∀ x ∈ pre, x ∈ bitLetters ∨ x = 'a') → c ∉ bitLetters → c ≠ 'a' →
      ignoreParam K width acc (pre ++ c :: post) = none) := by
  refine ⟨?_, ?_, ?_, ?_⟩
  · intro cs
    induction cs with
    | nil => intro acc _; rfl
    | cons c t ih =>
      intro acc h
      simp only [ignoreParam, ignoreLetter_bitLetter K width acc c (h c (List.mem_cons_self _ _)),
        List.foldl_cons]
      exact ih _ (fun x hx => h x (List.mem_cons_of_mem _ hx))
  · intro acc
    simp [ignoreLetter]
  · intro acc c hc ha
    exact ignoreLetter_other K width acc c hc ha
  · intro pre
    induction pre with
    | nil =>
      intro c post acc _ hc ha
      simp [ignoreParam, ignoreLetter_other K width acc c hc ha]
    | cons x t ih =>
      intro c post acc h hc ha
      obtain ⟨m, hm⟩ := ignoreLetter_isSome K width acc x (h x (List.mem_cons_self _ _))
      simp only [List.cons_append, ignoreParam, hm]
      exact ih c post m (fun y hy => h y (List.mem_cons_of_mem _ hy)) hc ha

/-! ## `GscInfoHandleData`: magic and VM -/

theorem magicVal_eq_iff_bytes (m : Mem) (v : Nat) (hv : v < 72057594037927936) :
    magicVal m = v ↔ ∀ i, i < 7 → readU8 m i = v / 256 ^ i % 256 := by
  have h0 := readU8_lt m 0
  have h1 := readU8_lt m 1
  have h2 := readU8_lt m 2
  have h3 := readU8_lt m 3
  have h4 := readU8_lt m 4
  have h5 := readU8_lt m 5
  have h6 := readU8_lt m 6
  have h7 := readU8_lt m 7
  simp only [magicVal, readU64, readU32, readU16]
  norm_num
  constructor
  · intro h i hi
    interval_cases i <;> norm_num <;> omega
  · intro h
    have e0 := h 0 (by omega)
    have e1 := h 1 (by omega)
    have e2 := h 2 (by omega)
    have e3 := h 3 (by omega)
    have e4 := h 4 (by omega)
    have e5 := h 5 (by omega)
    have e6 := h 6 (by omega)
    norm_num at e0 e1 e2 e3 e4 e5 e6
    omega

theorem startsWith7_treyarch_iff (m : Mem) :
    startsWith7 m treyarchMagic ↔ magicVal m = 0xa0d43534780 := by
  rw [magicVal_eq_iff_bytes m _ (by norm_num)]
  unfold startsWith7 treyarchMagic
  constructor
  · intro h i hi
    rw [h i hi]
    interval_cases i <;> rfl
  · intro h i hi
    rw [h i hi]
    interval_cases i <;> rfl

theorem startsWith7_wideHash_iff (m : Mem) :
    startsWith7 m wideHashMagic ↔ magicVal m = 0xa0d4353478a := by
  rw [magicVal_eq_iff_bytes m _ (by norm_num)]
  unfold startsWith7 wideHashMagic
  constructor
  · intro h i hi
    rw [h i hi]
    interval_cases i <;> rfl
  · intro h i hi
    rw [h i hi]
    interval_cases i <;> rfl

theorem handleVm_vm (E : HandleEnv) (data : Mem) (size vm : Nat) (m_patch : Bool) :
    (handleVm E data size vm m_patch).vm = some vm ∧
    ∀ magic, HandleLog.badMagic magic ∉ (handleVm E data size vm m_patch).log := by
  by_cases h1 : E.IsValidVm vm = false
  · simp [handleVm, h1]
  · cases hf : E.findReader vm with
    | none => simp [handleVm, h1, hf]
    | some sf =>
      by_cases h2 : IsValidHeader sf (E.headerSize sf) data size = false
      · simp [handleVm, h1, hf, h2]
      · by_cases h3 : E.canOpenOutput = false
        · simp [handleVm, h1, hf, h2, h3]
        · simp [handleVm, h1, hf, h2, h3]

theorem handleVm_ret_zero (E : HandleEnv) (data : Mem) (size vm : Nat) (m_patch : Bool)
    (r : Reader) (h0 : (handleVm E data size vm m_patch).ret = 0)
    (hr : (handleVm E data size vm m_patch).reader = some r) :
    IsValidHeader r (E.headerSize r) data size = true := by
  by_cases h1 : E.IsValidVm vm = false
  · simp [handleVm, h1] at h0
  · cases hf : E.findReader vm with
    | none => simp [handleVm, h1, hf] at h0
    | some sf =>
      by_cases h2 : IsValidHeader sf (E.headerSize sf) data size = false
      · simp [handleVm, h1, hf, h2] at h0
      · by_cases h3 : E.canOpenOutput = false
        · simp [handleVm, h1, hf, h2, h3] at h0
        · simp [handleVm, h1, hf, h2, h3] at hr
          subst hr
          simpa using h2

theorem handleBlob_wideHash (E : HandleEnv) (data : Mem) (size m_vm : Nat)
    (m_patch : Bool) (h : magicVal data = 0xa0d4353478a) :
    handleBlob E data size m_vm m_patch
      = if m_vm = E.VM_UNKNOWN then ⟨BASIC_ERROR, [.vmNeeded], none, none, false, false⟩
        else handleVm E data size (m_vm % 256) m_patch := by
  unfold handleBlob
  rw [if_pos h]

theorem handleBlob_treyarch (E : HandleEnv) (data : Mem) (size m_vm : Nat)
    (m_patch : Bool) (h : magicVal data = 0xa0d43534780) :
    handleBlob E data size m_vm m_patch
      = handleVm E data size (readU8 data 7) m_patch := by
  have h2 : magicVal data ≠ 0xa0d4353478a := by rw [h]; decide
  unfold handleBlob
  rw [if_neg h2, if_pos h]

theorem handleBlob_other (E : HandleEnv) (data : Mem) (size m_vm : Nat)
    (m_patch : Bool) (h1 : magicVal data ≠ 0xa0d43534780)
    (h2 : magicVal data ≠ 0xa0d4353478a) :
    handleBlob E data size m_vm m_patch
      = ⟨BASIC_ERROR, [.badMagic (readU64 data 0)], none, none, false, false⟩ := by
  unfold handleBlob
  rw [if_neg h2, if_neg h1]

theorem handleBlob_badMagic_iff (E : HandleEnv) (data : Mem) (size m_vm : Nat)
    (m_patch : Bool) :
    (handleBlob E data size m_vm m_patch).log = [.badMagic (readU64 data 0)] ↔
      magicVal data ≠ 0xa0d43534780 ∧ magicVal data ≠ 0xa0d4353478a := by
  by_cases h1 : magicVal data = 0xa0d4353478a
  · rw [handleBlob_wideHash E data size m_vm m_patch h1]
    by_cases h3 : m_vm = E.VM_UNKNOWN
    · rw [if_pos h3]
      constructor
      · intro h
        simp at h
      · intro h
        exact absurd h1 h.2
    · have hv := (handleVm_vm E data size (m_vm % 256) m_patch).2 (readU64 data 0)
      rw [if_neg h3]
      constructor
      · intro h
        rw [h] at hv
        simp at hv
      · intro h
        exact absurd h1 h.2
  · by_cases h2 : magicVal data = 0xa0d43534780
    · have hv := (handleVm_vm E data size (readU8 data 7) m_patch).2 (readU64 data 0)
      rw [handleBlob_treyarch E data size m_vm m_patch h2]
      constructor
      · intro h
        rw [h] at hv
        simp at hv
      · intro h
        exact absurd h2 h.1
    · rw [handleBlob_other E data size m_vm m_patch h2 h1]
      exact ⟨fun _ => ⟨h2, h1⟩, fun _ => rfl⟩

/-- C16 as stated fails: the blob `8A 47 53 43 0D 0A 00 00`, whose first byte
is `8A` and not `80`, is accepted with `--vm 0x90`: the wide-hash reader is selected,
nothing is logged and the code is `0`. -/
theorem GscInfoHandleData_magic_counterexample :
    readU8 wideHashBlob 0 = 0x8a ∧
    ¬ startsWith7 wideHashBlob treyarchMagic ∧
    gsicStage wideHashBlob 24 = .ok 0 ∧
    (GscInfoHandleData sampleEnv wideHashBlob 24 0x90 false).log = [] ∧
    (GscInfoHandleData sampleEnv wideHashBlob 24 0x90 false).reader = some .MW23 ∧
    (GscInfoHandleData sampleEnv wideHashBlob 24 0x90 false).ret = 0 := by
  refine ⟨by decide, ?_, rfl, by decide, by decide, by decide⟩
  intro h
  have h0 := h 0 (by decide)
  revert h0
  decide

/-- C16 (amended): on the blob left after the `GSIC` wrapper, `GscInfoHandleData`
logs the Bad magic error exactly when the first seven bytes are neither
`80 47 53 43 0D 0A 00` nor `8A 47 53 43 0D 0A 00`, and it then returns the basic-error
code without a reader; with the first signature the VM is the eighth byte, with the
second it is the `--vm` value; and the wide-hash reader accepts the header only when
the eight bytes are `8A 47 53 43 0D 0A 00 00`. -/
theorem GscInfoHandleData_magic (E : HandleEnv) (data : Mem) (size m_vm : Nat)
    (m_patch : Bool) (g : Nat) (hg : gsicStage data size = .ok g) :
    ((GscInfoHandleData E data size m_vm m_patch).log
        = [.badMagic (readU64 (fun a => data (a + g)) 0)] ↔
      ¬ startsWith7 (fun a => data (a + g)) treyarchMagic ∧
      ¬ startsWith7 (fun a => data (a + g)) wideHashMagic) ∧
    (¬ startsWith7 (fun a => data (a + g)) treyarchMagic →
      ¬ startsWith7 (fun a => data (a + g)) wideHashMagic →
      (GscInfoHandleData E data size m_vm m_patch).ret = BASIC_ERROR ∧
      (GscInfoHandleData E data size m_vm m_patch).reader = none) ∧
    (startsWith7 (fun a => data (a + g)) treyarchMagic →
      (GscInfoHandleData E data size m_vm m_patch).vm
        = some (readU8 (fun a => data (a + g)) 7)) ∧
    (startsWith7 (fun a => data (a + g)) wideHashMagic → m_vm ≠ E.VM_UNKNOWN →
      (GscInfoHandleData E data size m_vm m_patch).vm = some (m_vm % 256)) ∧
    ((GscInfoHandleData E data size m_vm m_patch).ret = 0 →
      (GscInfoHandleData E data size m_vm m_patch).reader = some .MW23 →
      startsWith7 (fun a => data (a + g)) wideHashMagic ∧
      readU8 (fun a => data (a + g)) 7 = 0) := by
  have hG : GscInfoHandleData E data size m_vm m_patch
      = handleBlob E (fun a => data (a + g)) size m_vm m_patch := by
    simp [GscInfoHandleData, hg]
  rw [hG]
  simp only [startsWith7_treyarch_iff, startsWith7_wideHash_iff]
  refine ⟨handleBlob_badMagic_iff E _ size m_vm m_patch, ?_, ?_, ?_, ?_⟩
  · intro h1 h2
    rw [handleBlob_other E _ size m_vm m_patch h1 h2]
    exact ⟨rfl, rfl⟩
  · intro h1
    rw [handleBlob_treyarch E _ size m_vm m_patch h1]
    exact (handleVm_vm E _ size _ m_patch).1
  · intro h1 h3
    rw [handleBlob_wideHash E _ size m_vm m_patch h1, if_neg h3]
    exact (handleVm_vm E _ size _ m_patch).1
  · intro h0 hr
    have key : readU64 (fun a => data (a + g)) 0 = 0xa0d4353478a := by
      by_cases h1 : magicVal (fun a => data (a + g)) = 0xa0d4353478a
      · rw [handleBlob_wideHash E _ size m_vm m_patch h1] at h0 hr
        by_cases h3 : m_vm = E.VM_UNKNOWN
        · rw [if_pos h3] at h0
          simp [BASIC_ERROR] at h0
        · rw [if_neg h3] at h0 hr
          have hv := handleVm_ret_zero E _ size _ m_patch _ h0 hr
          simp only [IsValidHeader, Bool.and_eq_true, decide_eq_true_eq] at hv
          exact hv.2
      · by_cases h2 : magicVal (fun a => data (a + g)) = 0xa0d43534780
        · rw [handleBlob_treyarch E _ size m_vm m_patch h2] at h0 hr
          have hv := handleVm_ret_zero E _ size _ m_patch _ h0 hr
          simp only [IsValidHeader, Bool.and_eq_true, decide_eq_true_eq] at hv
          exact hv.2
        · rw [handleBlob_other E _ size m_vm m_patch h2 h1] at h0
          simp [BASIC_ERROR] at h0
    have hm : magicVal (fun a => data (a + g)) = 0xa0d4353478a := by
      unfold magicVal
      rw [key]
    refine ⟨hm, ?_⟩
    have b0 := readU8_lt (fun a => data (a + g)) 0
    have b1 := readU8_lt (fun a => data (a + g)) 1
    have b2 := readU8_lt (fun a => data (a + g)) 2
    have b3 := readU8_lt (fun a => data (a + g)) 3
    have b4 := readU8_lt (fun a => data (a + g)) 4
    have b5 := readU8_lt (fun a => data (a + g)) 5
    have b6 := readU8_lt (fun a => data (a + g)) 6
    have b7 := readU8_lt (fun a => data (a + g)) 7
    simp only [readU64, readU32, readU16] at key
    norm_num at key
    omega

theorem GscInfoHandleData_magic_witness :
    gsicStage treyarchBlob 24 = .ok 0 ∧
    (((GscInfoHandleData sampleEnv treyarchBlob 24 0 true).log
        = [.badMagic (readU64 (fun a => treyarchBlob (a + 0)) 0)] ↔
      ¬ startsWith7 (fun a => treyarchBlob (a + 0)) treyarchMagic ∧
      ¬ startsWith7 (fun a => treyarchBlob (a + 0)) wideHashMagic) ∧
    (¬ startsWith7 (fun a => treyarchBlob (a + 0)) treyarchMagic →
      ¬ startsWith7 (fun a => treyarchBlob (a + 0)) wideHashMagic →
      (GscInfoHandleData sampleEnv treyarchBlob 24 0 true).ret = BASIC_ERROR ∧
      (GscInfoHandleData sampleEnv treyarchBlob 24 0 true).reader = none) ∧
    (startsWith7 (fun a => treyarchBlob (a + 0)) treyarchMagic →
      (GscInfoHandleData sampleEnv treyarchBlob 24 0 true).vm
        = some (readU8 (fun a => treyarchBlob (a + 0)) 7)) ∧
    (startsWith7 (fun a => treyarchBlob (a + 0)) wideHashMagic → 0 ≠ sampleEnv.VM_UNKNOWN →
      (GscInfoHandleData sampleEnv treyarchBlob 24 0 true).vm = some (0 % 256)) ∧
    ((GscInfoHandleData sampleEnv treyarchBlob 24 0 true).ret = 0 →
      (GscInfoHandleData sampleEnv treyarchBlob 24 0 true).reader = some .MW23 →
      startsWith7 (fun a => treyarchBlob (a + 0)) wideHashMagic ∧
      readU8 (fun a => treyarchBlob (a + 0)) 7 = 0)) :=
  ⟨rfl, GscInfoHandleData_magic sampleEnv treyarchBlob 24 0 true 0 rfl⟩

/-- C17: a blob without `GSIC` wrapper whose first eight bytes, top byte masked
off, are neither `0xa0d43534780` nor `0xa0d4353478a` makes `GscInfoHandleData` log
Bad magic and return the basic-error code, which is not zero; no VM and no reader is
selected, no output file is opened and nothing is patched. -/
theorem GscInfoHandleData_bad_magic (E : HandleEnv) (data : Mem) (size m_vm : Nat)
    (m_patch : Bool) (hw : isGsic data size = false)
    (h1 : magicVal data ≠ 0xa0d43534780) (h2 : magicVal data ≠ 0xa0d4353478a) :
    (GscInfoHandleData E data size m_vm m_patch).ret = BASIC_ERROR ∧
    (GscInfoHandleData E data size m_vm m_patch).ret ≠ 0 ∧
    (GscInfoHandleData E data size m_vm m_patch).log = [.badMagic (readU64 data 0)] ∧
    (GscInfoHandleData E data size m_vm m_patch).vm = none ∧
    (GscInfoHandleData E data size m_vm m_patch).reader = none ∧
    (GscInfoHandleData E data size m_vm m_patch).outputOpened = false ∧
    (GscInfoHandleData E data size m_vm m_patch).patched = false := by
  have hs : gsicStage data size = .ok 0 := by simp [gsicStage, hw]
  have hd : (fun a => data (a + 0)) = data := by funext a; simp
  have hG : GscInfoHandleData E data size m_vm m_patch
      = ⟨BASIC_ERROR, [.badMagic (readU64 data 0)], none, none, false, false⟩ := by
    simp only [GscInfoHandleData, hs, hd]
    exact handleBlob_other E data size m_vm m_patch h1 h2
  rw [hG]
  simp [BASIC_ERROR]

theorem GscInfoHandleData_bad_magic_witness :
    (isGsic corruptedBlob 24 = false ∧ magicVal corruptedBlob ≠ 0xa0d43534780 ∧
      magicVal corruptedBlob ≠ 0xa0d4353478a) ∧
    ((GscInfoHandleData sampleEnv corruptedBlob 24 0 true).ret = BASIC_ERROR ∧
    (GscInfoHandleData sampleEnv corruptedBlob 24 0 true).ret ≠ 0 ∧
    (GscInfoHandleData sampleEnv corruptedBlob 24 0 true).log
      = [.badMagic (readU64 corruptedBlob 0)] ∧
    (GscInfoHandleData sampleEnv corruptedBlob 24 0 true).vm = none ∧
    (GscInfoHandleData sampleEnv corruptedBlob 24 0 true).reader = none ∧
    (GscInfoHandleData sampleEnv corruptedBlob 24 0 true).outputOpened = false ∧
    (GscInfoHandleData sampleEnv corruptedBlob 24 0 true).patched = false) :=
  ⟨⟨by decide, by decide, by decide⟩,
    GscInfoHandleData_bad_magic sampleEnv corruptedBlob 24 0 true (by decide) (by decide)
      (by decide)⟩

/-- C20: on the blob left after the `GSIC` wrapper, with the wide-hash magic
`GscInfoHandleData` returns the basic-error code when `m_vm` is `VM_UNKNOWN` and
otherwise goes on with the VM byte of the option; with the Treyarch magic it goes on
with the blob's eighth byte, whatever `m_vm` is. -/
theorem GscInfoHandleData_vm (E : HandleEnv) (data : Mem) (size m_vm : Nat)
    (m_patch : Bool) (g : Nat) (hg : gsicStage data size = .ok g) :
    (magicVal (fun a => data (a + g)) = 0xa0d4353478a → m_vm = E.VM_UNKNOWN →
      (GscInfoHandleData E data size m_vm m_patch).ret = BASIC_ERROR ∧
      (GscInfoHandleData E data size m_vm m_patch).log = [.vmNeeded] ∧
      (GscInfoHandleData E data size m_vm m_patch).reader = none) ∧
    (magicVal (fun a => data (a + g)) = 0xa0d4353478a → m_vm ≠ E.VM_UNKNOWN →
      GscInfoHandleData E data size m_vm m_patch
        = handleVm E (fun a => data (a + g)) size (m_vm % 256) m_patch ∧
      (GscInfoHandleData E data size m_vm m_patch).vm = some (m_vm % 256)) ∧
    (magicVal (fun a => data (a + g)) = 0xa0d43534780 →
      GscInfoHandleData E data size m_vm m_patch
        = handleVm E (fun a => data (a + g)) size (readU8 (fun a => data (a + g)) 7) m_patch ∧
      (GscInfoHandleData E data size m_vm m_patch).vm
        = some (readU8 (fun a => data (a + g)) 7)) := by
  have hG : GscInfoHandleData E data size m_vm m_patch
      = handleBlob E (fun a => data (a + g)) size m_vm m_patch := by
    simp [GscInfoHandleData, hg]
  rw [hG]
  refine ⟨?_, ?_, ?_⟩
  · intro h1 h3
    rw [handleBlob_wideHash E _ size m_vm m_patch h1, if_pos h3]
    exact ⟨rfl, rfl, rfl⟩
  · intro h1 h3
    rw [handleBlob_wideHash E _ size m_vm m_patch h1, if_neg h3]
    exact ⟨rfl, (handleVm_vm E _ size _ m_patch).1⟩
  · intro h1
    rw [handleBlob_treyarch E _ size m_vm m_patch h1]
    exact ⟨rfl, (handleVm_vm E _ size _ m_patch).1⟩

theorem GscInfoHandleData_vm_witness :
    gsicStage wideHashBlob 24 = .ok 0 ∧
    ((magicVal (fun a => wideHashBlob (a + 0)) = 0xa0d4353478a → 0 = sampleEnv.VM_UNKNOWN →
      (GscInfoHandleData sampleEnv wideHashBlob 24 0 false).ret = BASIC_ERROR ∧
      (GscInfoHandleData sampleEnv wideHashBlob 24 0 false).log = [.vmNeeded] ∧
      (GscInfoHandleData sampleEnv wideHashBlob 24 0 false).reader = none) ∧
    (magicVal (fun a => wideHashBlob (a + 0)) = 0xa0d4353478a → 0 ≠ sampleEnv.VM_UNKNOWN →
      GscInfoHandleData sampleEnv wideHashBlob 24 0 false
        = handleVm sampleEnv (fun a => wideHashBlob (a + 0)) 24 (0 % 256) false ∧
      (GscInfoHandleData sampleEnv wideHashBlob 24 0 false).vm = some (0 % 256)) ∧
    (magicVal (fun a => wideHashBlob (a + 0)) = 0xa0d43534780 →
      GscInfoHandleData sampleEnv wideHashBlob 24 0 false
        = handleVm sampleEnv (fun a => wideHashBlob (a + 0)) 24
            (readU8 (fun a => wideHashBlob (a + 0)) 7) false ∧
      (GscInfoHandleData sampleEnv wideHashBlob 24 0 false).vm
        = some (readU8 (fun a => wideHashBlob (a + 0)) 7))) :=
  ⟨rfl, GscInfoHandleData_vm sampleEnv wideHashBlob 24 0 false 0 rfl⟩

/-! ## `GscInfoFile` and `gscinfo`: return codes -/

theorem foldl_attach_val {α β : Type} (l : List α) (f : β → α → β) (b : β) :
    l.attach.foldl (fun acc x => f acc x.1) b = l.foldl f b := by
  have h := (List.foldl_map (fun x : { x // x ∈ l } => x.1) f l.attach b).symm
  rw [List.attach_map_subtype_val] at h
  exact h

theorem GscInfoFile_dir (E : HandleEnv) (m_vm : Nat) (m_patch : Bool)
    (entries : List FsNode) :
    GscInfoFile E m_vm m_patch (.dir entries)
      = entries.foldl
          (fun acc sub => keepFirst acc (GscInfoFile E m_vm m_patch sub)) (0, []) := by
  rw [GscInfoFile]
  exact foldl_attach_val entries
    (fun acc sub => keepFirst acc (GscInfoFile E m_vm m_patch sub)) (0, [])

theorem GscInfoFile_file (E : HandleEnv) (m_vm : Nat) (m_patch : Bool)
    (pathname : String) (content : Option (Mem × Nat)) (canOpenOutput : Bool) :
    GscInfoFile E m_vm m_patch (.file pathname content canOpenOutput)
      = if (ends_with pathname ".gscc" || ends_with pathname ".cscc"
            || ends_with pathname ".gscbin" || ends_with pathname ".cscbin"
            || ends_with pathname ".gsic" || ends_with pathname ".csic") = false then
          (0, [(pathname, 0)])
        else
          match content with
          | none => (-1, [(pathname, -1)])
          | some (buffer, size) =>
            if size < 0x18 then (-1, [(pathname, -1)])
            else
              ((GscInfoHandleData { E with canOpenOutput := canOpenOutput }
                  buffer size m_vm m_patch).ret,
               [(pathname, (GscInfoHandleData { E with canOpenOutput := canOpenOutput }
                  buffer size m_vm m_patch).ret)]) := by
  rw [GscInfoFile.eq_def]

theorem firstNonZero_cons (c : Int) (codes : List Int) :
    firstNonZero (c :: codes) = if c = 0 then firstNonZero codes else c := by
  by_cases h : c = 0
  · simp [firstNonZero, List.find?, h]
  · simp [firstNonZero, List.find?, h]

theorem firstNonZero_mem (codes : List Int) :
    firstNonZero codes = 0 ∨ firstNonZero codes ∈ codes := by
  induction codes with
  | nil => left; rfl
  | cons c codes ih =>
    rw [firstNonZero_cons]
    by_cases h : c = 0
    · rw [if_pos h]
      rcases ih with ih | ih
      · exact Or.inl ih
      · exact Or.inr (List.mem_cons_of_mem _ ih)
    · rw [if_neg h]
      exact Or.inr (List.mem_cons_self _ _)

theorem foldl_keepFirst {α : Type} (f : α → Int × List FileEvent) (l : List α)
    (acc : Int × List FileEvent) :
    l.foldl (fun acc x => keepFirst acc (f x)) acc
      = (if acc.1 = 0 then firstNonZero (l.map (fun x => (f x).1)) else acc.1,
         acc.2 ++ (l.map (fun x => (f x).2)).flatten) := by
  induction l generalizing acc with
  | nil =>
    obtain ⟨a, t⟩ := acc
    by_cases h : a = 0
    · simp [firstNonZero, h]
    · simp [h]
  | cons x l ih =>
    rw [List.foldl_cons, ih]
    by_cases h : acc.1 = 0
    · simp [keepFirst, OK, h, firstNonZero_cons, List.append_assoc]
    · simp [keepFirst, OK, h, List.append_assoc]

theorem handleVm_code (E : HandleEnv) (data : Mem) (size vm : Nat) (m_patch : Bool) :
    (handleVm E data size vm m_patch).ret = 0 ∨
    (handleVm E data size vm m_patch).ret = -1 := by
  by_cases h1 : E.IsValidVm vm = false
  · simp [handleVm, h1]
  · cases hf : E.findReader vm with
    | none => simp [handleVm, h1, hf]
    | some sf =>
      by_cases h2 : IsValidHeader sf (E.headerSize sf) data size = false
      · simp [handleVm, h1, hf, h2]
      · by_cases h3 : E.canOpenOutput = false
        · simp [handleVm, h1, hf, h2, h3]
        · simp [handleVm, h1, hf, h2, h3]

theorem handleBlob_code (E : HandleEnv) (data : Mem) (size m_vm : Nat) (m_patch : Bool) :
    (handleBlob E data size m_vm m_patch).ret = 0 ∨
    (handleBlob E data size m_vm m_patch).ret = BASIC_ERROR ∨
    (handleBlob E data size m_vm m_patch).ret = -1 := by
  by_cases h1 : magicVal data = 0xa0d4353478a
  · rw [handleBlob_wideHash E data size m_vm m_patch h1]
    by_cases h3 : m_vm = E.VM_UNKNOWN
    · rw [if_pos h3]
      exact Or.inr (Or.inl rfl)
    · rw [if_neg h3]
      rcases handleVm_code E data size (m_vm % 256) m_patch with h | h
      · exact Or.inl h
      · exact Or.inr (Or.inr h)
  · by_cases h2 : magicVal data = 0xa0d43534780
    · rw [handleBlob_treyarch E data size m_vm m_patch h2]
      rcases handleVm_code E data size (readU8 data 7) m_patch with h | h
      · exact Or.inl h
      · exact Or.inr (Or.inr h)
    · rw [handleBlob_other E data size m_vm m_patch h2 h1]
      exact Or.inr (Or.inl rfl)

theorem GscInfoHandleData_code (E : HandleEnv) (data : Mem) (size m_vm : Nat)
    (m_patch : Bool) :
    (GscInfoHandleData E data size m_vm m_patch).ret = 0 ∨
    (GscInfoHandleData E data size m_vm m_patch).ret = BASIC_ERROR ∨
    (GscInfoHandleData E data size m_vm m_patch).ret = -1 := by
  cases hg : gsicStage data size with
  | error fieldType =>
    simp [GscInfoHandleData, hg]
  | ok g =>
    have hG : GscInfoHandleData E data size m_vm m_patch
        = handleBlob E (fun a => data (a + g)) size m_vm m_patch := by
      simp [GscInfoHandleData, hg]
    rw [hG]
    exact handleBlob_code E _ size m_vm m_patch

theorem GscInfoFile_code (E : HandleEnv) (m_vm : Nat) (m_patch : Bool) (node : FsNode) :
    (GscInfoFile E m_vm m_patch node).1 = 0 ∨
    (GscInfoFile E m_vm m_patch node).1 = BASIC_ERROR ∨
    (GscInfoFile E m_vm m_patch node).1 = -1 := by
  refine @FsNode.rec
    (fun node => (GscInfoFile E m_vm m_patch node).1 = 0 ∨
      (GscInfoFile E m_vm m_patch node).1 = BASIC_ERROR ∨
      (GscInfoFile E m_vm m_patch node).1 = -1)
    (fun l => ∀ x, x ∈ l → ((GscInfoFile E m_vm m_patch x).1 = 0 ∨
      (GscInfoFile E m_vm m_patch x).1 = BASIC_ERROR ∨
      (GscInfoFile E m_vm m_patch x).1 = -1)) ?_ ?_ ?_ ?_ node
  · intro entries ih
    rw [GscInfoFile_dir, foldl_keepFirst]
    simp only [if_true]
    rcases firstNonZero_mem
      (entries.map (fun x => (GscInfoFile E m_vm m_patch x).1)) with h | h
    · exact Or.inl h
    · rcases List.mem_map.mp h with ⟨x, hx, e⟩
      rw [← e]
      exact ih x hx
  · intro pathname content canOpenOutput
    rw [GscInfoFile_file]
    split_ifs with h1
    · exact Or.inl rfl
    · cases content with
      | none => exact Or.inr (Or.inr rfl)
      | some c =>
        obtain ⟨buffer, size⟩ := c
        simp only
        split_ifs with h2
        · exact Or.inr (Or.inr rfl)
        · exact GscInfoHandleData_code _ buffer size m_vm m_patch
  · intro x hx
    cases hx
  · intro head tail ihh iht x hx
    rcases List.mem_cons.mp hx with e | e
    · rw [e]
      exact ihh
    · exact iht x e

/-- The sample run: the second and third file fail, all three are reached, and the
code of the run is that of the second file. -/
theorem gscinfo_sampleFiles :
    gscinfo sampleEnv true false 0 false sampleFiles
      = (-1, [("a.gscc", 0), ("b.gscc", -1), ("c.gscc", -1)]) := by
  simp only [gscinfo, sampleFiles, List.foldl, keepFirst, GscInfoFile]
  decide

/-- C19 as stated fails: a Treyarch blob with an unknown VM byte makes
`GscInfoHandleData` return `-1`, a file that cannot be read makes `GscInfoFile`
return `-1`, and a run over them makes `gscinfo` return `-1`, which is none of
`0`, `1`, `2`. -/
theorem exit_codes_counterexample :
    (GscInfoHandleData sampleEnv badVmBlob 24 0 false).ret = -1 ∧
    (GscInfoFile sampleEnv 0 false (.file "b.gscc" none true)).1 = -1 ∧
    (gscinfo sampleEnv true false 0 false sampleFiles).1 = -1 ∧
    (-1 : Int) ≠ OK ∧ (-1 : Int) ≠ BASIC_ERROR ∧ (-1 : Int) ≠ BAD_USAGE := by
  refine ⟨by decide, ?_, ?_, by decide, by decide, by decide⟩
  · simp only [GscInfoFile]
    decide
  · simp only [gscinfo, sampleFiles, List.foldl, keepFirst, GscInfoFile]
    decide

/-- C19 (amended): every code returned by `GscInfoHandleData`, by `GscInfoFile`
and by `gscinfo` is one of `0`, the basic-error code `1` or `-1`; the bad-usage code
`2` is never returned. -/
theorem exit_codes (E : HandleEnv) (m_vm : Nat) (m_patch : Bool) :
    (∀ data size,
      ((GscInfoHandleData E data size m_vm m_patch).ret = 0 ∨
       (GscInfoHandleData E data size m_vm m_patch).ret = 1 ∨
       (GscInfoHandleData E data size m_vm m_patch).ret = -1) ∧
      (GscInfoHandleData E data size m_vm m_patch).ret ≠ BAD_USAGE) ∧
    (∀ node,
      ((GscInfoFile E m_vm m_patch node).1 = 0 ∨
       (GscInfoFile E m_vm m_patch node).1 = 1 ∨
       (GscInfoFile E m_vm m_patch node).1 = -1) ∧
      (GscInfoFile E m_vm m_patch node).1 ≠ BAD_USAGE) ∧
    (∀ computeOk m_help m_inputFiles,
      ((gscinfo E computeOk m_help m_vm m_patch m_inputFiles).1 = 0 ∨
       (gscinfo E computeOk m_help m_vm m_patch m_inputFiles).1 = 1 ∨
       (gscinfo E computeOk m_help m_vm m_patch m_inputFiles).1 = -1) ∧
      (gscinfo E computeOk m_help m_vm m_patch m_inputFiles).1 ≠ BAD_USAGE) := by
  have key : ∀ c : Int, (c = 0 ∨ c = BASIC_ERROR ∨ c = -1) →
      (c = 0 ∨ c = 1 ∨ c = -1) ∧ c ≠ BAD_USAGE := by
    intro c h
    simp only [BASIC_ERROR, BAD_USAGE] at *
    omega
  refine ⟨?_, ?_, ?_⟩
  · intro data size
    exact key _ (GscInfoHandleData_code E data size m_vm m_patch)
  · intro node
    exact key _ (GscInfoFile_code E m_vm m_patch node)
  · intro computeOk m_help m_inputFiles
    apply key
    by_cases h : computeOk = false ∨ m_help = true
    · simp [gscinfo, h]
    · have hg : gscinfo E computeOk m_help m_vm m_patch m_inputFiles
          = m_inputFiles.foldl
              (fun acc file => keepFirst acc (GscInfoFile E m_vm m_patch file))
              (OK, []) := by
        unfold gscinfo
        rw [if_neg h]
      rw [hg, foldl_keepFirst]
      simp only [OK, if_true]
      rcases firstNonZero_mem
        (m_inputFiles.map (fun x => (GscInfoFile E m_vm m_patch x).1)) with h | h
      · exact Or.inl h
      · rcases List.mem_map.mp h with ⟨x, _, e⟩
        rw [← e]
        exact GscInfoFile_code E m_vm m_patch x

/-! ## The `GSIC` wrapper -/

theorem gsicDetourLoop_eq (fixupOffset : Mem → Nat → Nat) (data : Mem) (detourCount : Nat) :
    ∀ (gsicSize : Nat) (detours : List (Nat × Nat)),
      gsicDetourLoop fixupOffset data detourCount gsicSize detours =
        (gsicSize + 256 * detourCount,
          registerAll fixupOffset data
            ((List.range detourCount).map (fun j => gsicSize + 256 * j)) detours) := by
  induction detourCount with
  | zero => intro gsicSize detours; rfl
  | succ n ih =>
    intro gsicSize detours
    rw [gsicDetourLoop, ih]
    refine Prod.ext (by simp only; omega) ?_
    simp only [registerAll, List.range_succ_eq_map, List.map_cons, List.map_map,
      List.foldl_cons, Nat.mul_zero, Nat.add_zero]
    congr 2
    funext j
    simp only [Function.comp_apply]
    omega

theorem registerAll_append (fixupOffset : Mem → Nat → Nat) (data : Mem)
    (r1 r2 : List Nat) (detours : List (Nat × Nat)) :
    registerAll fixupOffset data (r1 ++ r2) detours
      = registerAll fixupOffset data r2 (registerAll fixupOffset data r1 detours) := by
  simp [registerAll, List.foldl_append]

theorem gsicRead_all_zero (fixupOffset : Mem → Nat → Nat) (data : Mem) (numFields : Nat) :
    ∀ (pos : Nat) (detours : List (Nat × Nat)),
      (∀ f ∈ gsicDeclared data numFields pos, f.1 = 0) →
      gsicRead fixupOffset data numFields pos detours =
        .ok (pos + ((gsicDeclared data numFields pos).map (fun f => 8 + 256 * f.2)).sum,
          registerAll fixupOffset data (gsicRecords data numFields pos) detours) := by
  induction numFields with
  | zero => intro pos detours _; rfl
  | succ n ih =>
    intro pos detours h
    have h0 : readU32 data pos = 0 := h _ (List.mem_cons_self _ _)
    have ht : ∀ f ∈ gsicDeclared data n
        (pos + 8 + 256 * signExtend32 (readU32 data (pos + 4))), f.1 = 0 :=
      fun f hf => h f (List.mem_cons_of_mem _ hf)
    have e : pos + 4 + 4 + 256 * signExtend32 (readU32 data (pos + 4))
        = pos + 8 + 256 * signExtend32 (readU32 data (pos + 4)) := by omega
    simp only [gsicRead, h0, if_true, gsicDetourLoop_eq, e]
    rw [ih _ _ ht]
    simp only [gsicDeclared, gsicRecords, List.map_cons, List.sum_cons, registerAll_append]
    have e2 : (fun j => pos + 4 + 4 + 256 * j) = (fun j => pos + 8 + 256 * j) := by
      funext j; omega
    rw [e2]
    congr 2
    omega

theorem gsicRead_bad_field (fixupOffset : Mem → Nat → Nat) (data : Mem) (numFields : Nat) :
    ∀ (pos : Nat) (detours : List (Nat × Nat)) (f : Nat × Nat),
      (gsicDeclared data numFields pos).find? (fun f => decide (f.1 ≠ 0)) = some f →
      gsicRead fixupOffset data numFields pos detours = .error f.1 := by
  induction numFields with
  | zero => intro pos detours f h; simp [gsicDeclared] at h
  | succ n ih =>
    intro pos detours f h
    by_cases h0 : readU32 data pos = 0
    · have e : pos + 4 + 4 + 256 * signExtend32 (readU32 data (pos + 4))
          = pos + 8 + 256 * signExtend32 (readU32 data (pos + 4)) := by omega
      simp only [gsicDeclared, List.find?, h0, ne_eq, not_true_eq_false, decide_False] at h
      simp only [gsicRead, h0, if_true, gsicDetourLoop_eq, e]
      exact ih _ _ f h
    · simp only [gsicDeclared, List.find?, h0, ne_eq, not_false_eq_true, decide_True,
        Option.some.injEq] at h
      subst h
      simp [gsicRead, h0]

theorem gsicRead_size (fixupOffset : Mem → Nat → Nat) (data : Mem) (numFields : Nat) :
    ∀ (pos : Nat) (detours : List (Nat × Nat)),
      gsicFields data numFields pos
        = (gsicRead fixupOffset data numFields pos detours).map Prod.fst := by
  induction numFields with
  | zero => intro pos detours; rfl
  | succ n ih =>
    intro pos detours
    by_cases h0 : readU32 data pos = 0
    · simp only [gsicFields, gsicRead, h0, if_true, gsicDetourLoop_eq]
      exact ih _ _
    · simp [gsicFields, gsicRead, h0, Except.map]

theorem registerAll_find (fixupOffset : Mem → Nat → Nat) (data : Mem) (records : List Nat) :
    ∀ (detours : List (Nat × Nat)) (r : Nat), r ∈ records →
      ∃ r1, r1 ∈ records ∧ fixupOffset data r1 = fixupOffset data r ∧
        mapFind (registerAll fixupOffset data records detours) (fixupOffset data r)
          = some r1 := by
  induction records using List.reverseRecOn with
  | nil => intro detours r hr; cases hr
  | append_singleton l x ih =>
    intro detours r hr
    rw [registerAll_append]
    by_cases hk : fixupOffset data x = fixupOffset data r
    · refine ⟨x, by simp, hk, ?_⟩
      simp only [registerAll, List.foldl_cons, List.foldl_nil]
      rw [← hk]
      exact mapFind_mapSet_self _ _ _
    · have hr1 : r ∈ l := by
        rcases List.mem_append.mp hr with h | h
        · exact h
        · simp only [List.mem_singleton] at h
          exact absurd (by rw [h]) hk
      obtain ⟨r1, h1, h2, h3⟩ := ih detours r hr1
      refine ⟨r1, List.mem_append_left _ h1, h2, ?_⟩
      simp only [registerAll, List.foldl_cons, List.foldl_nil]
      rw [mapFind_mapSet_ne _ _ _ _ (Ne.symm hk)]
      exact h3

/-- The sample wrapper: 280 bytes are stepped over, the one record (offset 16) is stored
under its fixup offset `0x40`, and the blob behind it is read with the `VM_T8` reader. -/
theorem gsicBlob_sample :
    gsicRead sampleFixupOffset gsicBlob (signExtend32 (readU32 gsicBlob 4)) 8 []
      = .ok (280, [(0x40, 16)]) ∧
    (GscInfoHandleData sampleEnv gsicBlob 288 0 false).ret = 0 ∧
    (GscInfoHandleData sampleEnv gsicBlob 288 0 false).reader = some .T8 := by
  refine ⟨rfl, by decide, by decide⟩

/-- C21: for input beginning with `GSIC`, when every declared field has type `0` the
field loop ends with the wrapper size `8 + Σ (8 + 256 * detourCount)`, the magic is read
at that offset, and every detour record has been stored in `gsicInfo.detours` under its
`fixupOffset` (the map holds, under the fixup offset of each record, a record with that
fixup offset); when a field of another type is met first, `GscInfoHandleData` returns
the basic-error code with only the `Bad GSIC field type` line logged, no VM, no reader,
no output. -/
theorem GscInfoHandleData_gsic (fixupOffset : Mem → Nat → Nat) (E : HandleEnv) (data : Mem)
    (size m_vm : Nat) (m_patch : Bool) (hG : isGsic data size = true) :
    ((∀ f ∈ gsicDeclared data (signExtend32 (readU32 data 4)) 8, f.1 = 0) →
      gsicRead fixupOffset data (signExtend32 (readU32 data 4)) 8 [] =
        .ok (8 + ((gsicDeclared data (signExtend32 (readU32 data 4)) 8).map
              (fun f => 8 + 256 * f.2)).sum,
          registerAll fixupOffset data
            (gsicRecords data (signExtend32 (readU32 data 4)) 8) []) ∧
      GscInfoHandleData E data size m_vm m_patch =
        handleBlob E
          (fun a => data (a + (8 + ((gsicDeclared data (signExtend32 (readU32 data 4)) 8).map
            (fun f => 8 + 256 * f.2)).sum))) size m_vm m_patch ∧
      ∀ r ∈ gsicRecords data (signExtend32 (readU32 data 4)) 8,
        ∃ r1, r1 ∈ gsicRecords data (signExtend32 (readU32 data 4)) 8 ∧
          fixupOffset data r1 = fixupOffset data r ∧
          mapFind
            (registerAll fixupOffset data
              (gsicRecords data (signExtend32 (readU32 data 4)) 8) [])
            (fixupOffset data r) = some r1) ∧
    (∀ f,
      (gsicDeclared data (signExtend32 (readU32 data 4)) 8).find?
          (fun f => decide (f.1 ≠ 0)) = some f →
      gsicRead fixupOffset data (signExtend32 (readU32 data 4)) 8 [] = .error f.1 ∧
      GscInfoHandleData E data size m_vm m_patch =
        ⟨BASIC_ERROR, [.badGsicField f.1], none, none, false, false⟩) := by
  have hstage : gsicStage data size
      = gsicFields data (signExtend32 (readU32 data 4)) 8 := by
    simp [gsicStage, hG]
  refine ⟨?_, ?_⟩
  · intro h
    have hr := gsicRead_all_zero fixupOffset data (signExtend32 (readU32 data 4)) 8 [] h
    have hs := gsicRead_size fixupOffset data (signExtend32 (readU32 data 4)) 8 []
    rw [hr] at hs
    refine ⟨hr, ?_, ?_⟩
    · simp only [GscInfoHandleData, hstage, hs, Except.map]
    · intro r hr1
      exact registerAll_find fixupOffset data _ [] r hr1
  · intro f hf
    have hr := gsicRead_bad_field fixupOffset data (signExtend32 (readU32 data 4)) 8 [] f hf
    have hs := gsicRead_size fixupOffset data (signExtend32 (readU32 data 4)) 8 []
    rw [hr] at hs
    refine ⟨hr, ?_⟩
    simp only [GscInfoHandleData, hstage, hs, Except.map]

theorem GscInfoHandleData_gsic_witness :
    isGsic gsicBlob 288 = true ∧
    (((∀ f ∈ gsicDeclared gsicBlob (signExtend32 (readU32 gsicBlob 4)) 8, f.1 = 0) →
      gsicRead sampleFixupOffset gsicBlob (signExtend32 (readU32 gsicBlob 4)) 8 [] =
        .ok (8 + ((gsicDeclared gsicBlob (signExtend32 (readU32 gsicBlob 4)) 8).map
              (fun f => 8 + 256 * f.2)).sum,
          registerAll sampleFixupOffset gsicBlob
            (gsicRecords gsicBlob (signExtend32 (readU32 gsicBlob 4)) 8) []) ∧
      GscInfoHandleData sampleEnv gsicBlob 288 0 false =
        handleBlob sampleEnv
          (fun a => gsicBlob (a + (8 + ((gsicDeclared gsicBlob (signExtend32 (readU32 gsicBlob 4)) 8).map
            (fun f => 8 + 256 * f.2)).sum))) 288 0 false ∧
      ∀ r ∈ gsicRecords gsicBlob (signExtend32 (readU32 gsicBlob 4)) 8,
        ∃ r1, r1 ∈ gsicRecords gsicBlob (signExtend32 (readU32 gsicBlob 4)) 8 ∧
          sampleFixupOffset gsicBlob r1 = sampleFixupOffset gsicBlob r ∧
          mapFind
            (registerAll sampleFixupOffset gsicBlob
              (gsicRecords gsicBlob (signExtend32 (readU32 gsicBlob 4)) 8) [])
            (sampleFixupOffset gsicBlob r) = some r1) ∧
    (∀ f,
      (gsicDeclared gsicBlob (signExtend32 (readU32 gsicBlob 4)) 8).find?
          (fun f => decide (f.1 ≠ 0)) = some f →
      gsicRead sampleFixupOffset gsicBlob (signExtend32 (readU32 gsicBlob 4)) 8 [] = .error f.1 ∧
      GscInfoHandleData sampleEnv gsicBlob 288 0 false =
        ⟨BASIC_ERROR, [.badGsicField f.1], none, none, false, false⟩)) :=
  ⟨by decide, GscInfoHandleData_gsic sampleFixupOffset sampleEnv gsicBlob 288 0 false
    (by decide)⟩

/-! ## `MW23GSCOBJReader::RemapFlagsImport` -/

/-- C22: with `byte` enumerators, `MW23GSCOBJReader::RemapFlagsImport`
is the reference mapping of the low nibble OR-ed with `flags & 0xF0`; in particular the
call-kind codes `3`, `6` and `7` give `FUNCTION`. -/
theorem MW23RemapFlagsImport_reference (F : T8GSCImportFlags) (flags : Nat)
    (hF : F.FUNC_METHOD < 256 ∧ F.FUNCTION < 256 ∧ F.FUNCTION_THREAD < 256 ∧
      F.FUNCTION_CHILDTHREAD < 256 ∧ F.METHOD < 256) :
    MW23RemapFlagsImport F flags = remapReference F (flags &&& 0xF) ||| (flags &&& 0xF0) ∧
    (flags &&& 0xF = 3 ∨ flags &&& 0xF = 6 ∨ flags &&& 0xF = 7 →
      MW23RemapFlagsImport F flags = F.FUNCTION ||| (flags &&& 0xF0)) := by
  obtain ⟨h1, h2, h3, h4, h5⟩ := hF
  have hhi : flags &&& 0xF0 < 2 ^ 8 :=
    Nat.lt_of_le_of_lt Nat.and_le_right (by norm_num)
  have hlo : flags &&& 0xF ≤ 15 := Nat.and_le_right
  have hor : ∀ a, a < 256 → a ||| (flags &&& 0xF0) < 256 := by
    intro a ha
    exact Nat.or_lt_two_pow (by simpa using ha) hhi
  have hhi1 : flags &&& 0xF0 < 256 := hhi
  have key : MW23RemapFlagsImport F flags
      = remapReference F (flags &&& 0xF) ||| (flags &&& 0xF0) := by
    generalize hk : flags &&& 0xF = k at hlo
    have e : MW23RemapFlagsImport F flags
        = ((if k = 5 then F.FUNC_METHOD
            else if k = 4 then F.FUNCTION
            else if k = 2 then F.FUNCTION_THREAD
            else if k = 1 then F.FUNCTION_CHILDTHREAD
            else if k = 3 ∨ k = 6 ∨ k = 7 then F.FUNCTION
            else if k = 8 ∨ k = 0xA then F.FUNCTION
            else if k = 9 ∨ k = 0xB then F.METHOD
            else k) ||| (flags &&& 0xF0)) % 256 := by
      simp only [MW23RemapFlagsImport, hk]
    rw [e]
    interval_cases k <;> simp [remapReference] <;>
      first
        | exact hhi1
        | exact hor _ h1
        | exact hor _ h2
        | exact hor _ h3
        | exact hor _ h4
        | exact hor _ h5
        | exact hor _ (by omega)
  refine ⟨key, ?_⟩
  intro h
  rw [key]
  rcases h with h | h | h <;> rw [h] <;> rfl

theorem MW23RemapFlagsImport_reference_witness :
    (importFlags.FUNC_METHOD < 256 ∧ importFlags.FUNCTION < 256 ∧
      importFlags.FUNCTION_THREAD < 256 ∧ importFlags.FUNCTION_CHILDTHREAD < 256 ∧
      importFlags.METHOD < 256) ∧
    (MW23RemapFlagsImport importFlags 0x27
        = remapReference importFlags (0x27 &&& 0xF) ||| (0x27 &&& 0xF0) ∧
    (0x27 &&& 0xF = 3 ∨ 0x27 &&& 0xF = 6 ∨ 0x27 &&& 0xF = 7 →
      MW23RemapFlagsImport importFlags 0x27 = importFlags.FUNCTION ||| (0x27 &&& 0xF0))) :=
  ⟨by decide, MW23RemapFlagsImport_reference importFlags 0x27 (by decide)⟩

/-! ## The imports listing: namespace prefix -/

theorem importKind_mem (F : T8GSCImportFlags) (remapedFlags : Nat) (t : OutTok)
    (h : t ∈ importKind F remapedFlags) :
    t ≠ .text "::" ∧ ∀ type hash, t ≠ .extract type hash := by
  unfold importKind at h
  simp only at h
  split_ifs at h <;> simp only [List.mem_cons, List.mem_singleton, List.not_mem_nil,
    or_false] at h
  all_goals
    first
      | (subst h
         exact ⟨by simp, fun _ _ => by simp⟩)
      | (rcases h with h | h | h <;> subst h <;> exact ⟨by simp, fun _ _ => by simp⟩)

theorem importLine_head (F : T8GSCImportFlags) (DEV_CALL UKN40 UKN80 : Nat)
    (RemapFlagsImport : Nat → Nat) (flags name_space name : Nat) :
    ∃ pre, (∀ t ∈ pre, t ≠ OutTok.text "::" ∧ ∀ type hash, t ≠ .extract type hash) ∧
      importLine F DEV_CALL UKN40 UKN80 RemapFlagsImport flags name_space name
        = pre ++ (if RemapFlagsImport flags &&& F.GET_CALL = 0 then
            [.extract "namespace" name_space, .text "::"] else []) ++
          [.extract "function" name, .newline] := by
  refine ⟨[.text "import "] ++ importKind F (RemapFlagsImport flags) ++
    (if RemapFlagsImport flags &&& DEV_CALL ≠ 0 then [.text "devcall "] else []) ++
    (if RemapFlagsImport flags &&& UKN40 ≠ 0 then [.text "ukn40 "] else []) ++
    (if RemapFlagsImport flags &&& UKN80 ≠ 0 then [.text "ukn80 "] else []), ?_, rfl⟩
  intro t ht
  simp only [List.mem_append, List.mem_singleton] at ht
  rcases ht with (((ht | ht) | ht) | ht) | ht
  · subst ht
    exact ⟨by simp, fun _ _ => by simp⟩
  · exact importKind_mem F _ t ht
  · split_ifs at ht
    · simp only [List.mem_singleton] at ht
      subst ht
      exact ⟨by simp, fun _ _ => by simp⟩
    · cases ht
  · split_ifs at ht
    · simp only [List.mem_singleton] at ht
      subst ht
      exact ⟨by simp, fun _ _ => by simp⟩
    · cases ht
  · split_ifs at ht
    · simp only [List.mem_singleton] at ht
      subst ht
      exact ⟨by simp, fun _ _ => by simp⟩
    · cases ht

/-- C23: the line written for an import holds the namespace (followed by `::`, right
before the function name) if and only if the remapped flags do not have the `GET_CALL`
bit; with the bit set the function name follows the call kind and flag words directly,
and the line holds neither a namespace nor `::`. -/
theorem importLine_namespace (F : T8GSCImportFlags) (DEV_CALL UKN40 UKN80 : Nat)
    (RemapFlagsImport : Nat → Nat) (flags name_space name : Nat) :
    (OutTok.extract "namespace" name_space ∈
        importLine F DEV_CALL UKN40 UKN80 RemapFlagsImport flags name_space name ↔
      RemapFlagsImport flags &&& F.GET_CALL = 0) ∧
    (RemapFlagsImport flags &&& F.GET_CALL = 0 →
      ∃ pre, importLine F DEV_CALL UKN40 UKN80 RemapFlagsImport flags name_space name
        = pre ++ [.extract "namespace" name_space, .text "::", .extract "function" name,
            .newline]) ∧
    (RemapFlagsImport flags &&& F.GET_CALL ≠ 0 →
      OutTok.text "::" ∉
        importLine F DEV_CALL UKN40 UKN80 RemapFlagsImport flags name_space name ∧
      ∃ pre, (∀ t ∈ pre, ∀ type hash, t ≠ OutTok.extract type hash) ∧
        importLine F DEV_CALL UKN40 UKN80 RemapFlagsImport flags name_space name
          = pre ++ [.extract "function" name, .newline]) := by
  obtain ⟨pre, hpre, e⟩ :=
    importLine_head F DEV_CALL UKN40 UKN80 RemapFlagsImport flags name_space name
  rw [e]
  by_cases hg : RemapFlagsImport flags &&& F.GET_CALL = 0
  · simp only [hg, if_true, ne_eq, not_true_eq_false, false_implies, and_true, true_implies]
    refine ⟨⟨fun _ => trivial, fun _ => ?_⟩, pre, by simp⟩
    simp
  · simp only [hg, if_false, ne_eq, not_false_eq_true, false_implies, true_implies,
      List.append_nil, true_and, iff_false]
    refine ⟨?_, ?_, pre, fun t ht => (hpre t ht).2, rfl⟩
    · intro hmem
      rcases List.mem_append.mp hmem with h | h
      · exact (hpre _ h).2 _ _ rfl
      · simp at h
    · intro hmem
      rcases List.mem_append.mp hmem with h | h
      · exact (hpre _ h).1 rfl
      · simp at h

/-- A sample of the imports listing: with `GET_CALL` (`0x20`) set the line is
`import function <name>`, without it `import function <namespace>::<name>`. -/
theorem importLine_sample :
    importLine importFlags 0x10 0x40 0x80 id 0x22 0x1111 0x2222
      = [.text "import ", .text "function ", .extract "function" 0x2222, .newline] ∧
    importLine importFlags 0x10 0x40 0x80 id 0x02 0x1111 0x2222
      = [.text "import ", .text "function ", .extract "namespace" 0x1111, .text "::",
          .extract "function" 0x2222, .newline] := by
  refine ⟨by decide, by decide⟩

/-! ## `hashutils::ExtractTmpPath`: proofs -/

theorem ExtractTmpPath_loop (n : Nat) :
    ∀ (mem : Mem) (unhash : Nat), (∀ i, i < n → readU8 mem (unhash + i) ≠ 0) →
      readU8 mem (unhash + n) = 0 →
      ∀ fuel, n < fuel → ExtractTmpPath fuel mem unhash = some (slashToBackslash mem unhash n) := by
  induction n with
  | zero =>
    intro mem unhash _ hend fuel hfuel
    obtain ⟨f, rfl⟩ : ∃ f, fuel = f + 1 := ⟨fuel - 1, by omega⟩
    have h0 : readU8 mem unhash = 0 := by simpa using hend
    simp only [ExtractTmpPath, h0, if_true, Option.some.injEq]
    funext a
    simp only [slashToBackslash]
    rw [if_neg (by omega)]
  | succ n ih =>
    intro mem unhash hlen hend fuel hfuel
    obtain ⟨f, rfl⟩ : ∃ f, fuel = f + 1 := ⟨fuel - 1, by omega⟩
    have h0 : readU8 mem unhash ≠ 0 := by simpa using hlen 0 (by omega)
    have hother : ∀ a, a ≠ unhash →
        (if readU8 mem unhash = 0x2f then writeU8 mem unhash 0x5c else mem) a = mem a := by
      intro a ha
      split_ifs
      · simp [writeU8, ha]
      · rfl
    have hr : ∀ a, a ≠ unhash →
        readU8 (if readU8 mem unhash = 0x2f then writeU8 mem unhash 0x5c else mem) a
          = readU8 mem a := by
      intro a ha
      exact congrArg (fun x => x % 256) (hother a ha)
    simp only [ExtractTmpPath, h0, if_false]
    rw [ih _ (unhash + 1) (fun i hi => by
        rw [hr _ (by omega)]
        have := hlen (i + 1) (by omega)
        rwa [show unhash + (i + 1) = unhash + 1 + i by omega] at this)
      (by
        rw [hr _ (by omega)]
        rwa [show unhash + (n + 1) = unhash + 1 + n by omega] at hend) f (by omega)]
    congr 1
    funext a
    simp only [slashToBackslash]
    by_cases ha : a = unhash
    · subst ha
      rw [if_neg (by omega)]
      by_cases h2 : readU8 mem a = 0x2f
      · simp [h2, writeU8]
      · simp [h2]
    · rw [hr a ha, hother a ha]
      by_cases hc : unhash + 1 ≤ a ∧ a < unhash + 1 + n ∧ readU8 mem a = 0x2f
      · rw [if_pos hc, if_pos ⟨by omega, by omega, hc.2.2⟩]
      · rw [if_neg hc, if_neg (fun h => hc ⟨by omega, by omega, h.2.2⟩)]

theorem readU8_slashToBackslash (mem : Mem) (unhash n a : Nat) :
    readU8 (slashToBackslash mem unhash n) a
      = if unhash ≤ a ∧ a < unhash + n ∧ readU8 mem a = 0x2f then 0x5c else readU8 mem a := by
  simp only [readU8, slashToBackslash]
  split_ifs <;> rfl

/-- C24: on the zero-terminated string of `n` characters that `ExtractTmp` left at
`unhash`, the loop of `ExtractTmpPath` ends (any fuel above `n` gives the same memory);
in the string it returns every `'/'` has become a backslash and every other character,
the terminating zero (hence the length) and all memory outside the string are unchanged,
so no `'/'` is left; and running it again on the result changes nothing. -/
theorem ExtractTmpPath_spec (mem : Mem) (unhash n : Nat)
    (hlen : ∀ i, i < n → readU8 mem (unhash + i) ≠ 0)
    (hend : readU8 mem (unhash + n) = 0) :
    (∀ fuel, n < fuel →
      ExtractTmpPath fuel mem unhash = some (slashToBackslash mem unhash n)) ∧
    (∀ i, i < n → readU8 (slashToBackslash mem unhash n) (unhash + i)
      = if readU8 mem (unhash + i) = 0x2f then 0x5c else readU8 mem (unhash + i)) ∧
    (∀ i, i < n → readU8 (slashToBackslash mem unhash n) (unhash + i) ≠ 0) ∧
    readU8 (slashToBackslash mem unhash n) (unhash + n) = 0 ∧
    (∀ a, a < unhash ∨ unhash + n ≤ a → slashToBackslash mem unhash n a = mem a) ∧
    (∀ i, i < n → readU8 (slashToBackslash mem unhash n) (unhash + i) ≠ 0x2f) ∧
    (∀ fuel, n < fuel →
      ExtractTmpPath fuel (slashToBackslash mem unhash n) unhash
        = some (slashToBackslash mem unhash n)) := by
  have hval : ∀ i, i < n → readU8 (slashToBackslash mem unhash n) (unhash + i)
      = if readU8 mem (unhash + i) = 0x2f then 0x5c else readU8 mem (unhash + i) := by
    intro i hi
    rw [readU8_slashToBackslash]
    by_cases h2 : readU8 mem (unhash + i) = 0x2f
    · rw [if_pos ⟨by omega, by omega, h2⟩, if_pos h2]
    · rw [if_neg (fun h => h2 h.2.2), if_neg h2]
  have hnz : ∀ i, i < n → readU8 (slashToBackslash mem unhash n) (unhash + i) ≠ 0 := by
    intro i hi
    rw [hval i hi]
    split_ifs
    · decide
    · exact hlen i hi
  have hz : readU8 (slashToBackslash mem unhash n) (unhash + n) = 0 := by
    rw [readU8_slashToBackslash, if_neg (by omega)]
    exact hend
  have hns : ∀ i, i < n → readU8 (slashToBackslash mem unhash n) (unhash + i) ≠ 0x2f := by
    intro i hi
    rw [hval i hi]
    split_ifs with h2
    · decide
    · exact h2
  refine ⟨ExtractTmpPath_loop n mem unhash hlen hend, hval, hnz, hz, ?_, hns, ?_⟩
  · intro a ha
    simp only [slashToBackslash]
    rw [if_neg (by omega)]
  · intro fuel hfuel
    rw [ExtractTmpPath_loop n _ unhash hnz hz fuel hfuel]
    congr 1
    funext a
    show (if unhash ≤ a ∧ a < unhash + n ∧
        readU8 (slashToBackslash mem unhash n) a = 0x2f then 0x5c
      else slashToBackslash mem unhash n a) = slashToBackslash mem unhash n a
    rw [if_neg]
    rintro ⟨h1, h2, h3⟩
    have := hns (a - unhash) (by omega)
    rw [show unhash + (a - unhash) = a by omega] at this
    exact this h3

theorem ExtractTmpPath_spec_witness :
    ((∀ i, i < 5 → readU8 samplePath (0 + i) ≠ 0) ∧ readU8 samplePath (0 + 5) = 0) ∧
    ((∀ fuel, 5 < fuel →
      ExtractTmpPath fuel samplePath 0 = some (slashToBackslash samplePath 0 5)) ∧
    (∀ i, i < 5 → readU8 (slashToBackslash samplePath 0 5) (0 + i)
      = if readU8 samplePath (0 + i) = 0x2f then 0x5c else readU8 samplePath (0 + i)) ∧
    (∀ i, i < 5 → readU8 (slashToBackslash samplePath 0 5) (0 + i) ≠ 0) ∧
    readU8 (slashToBackslash samplePath 0 5) (0 + 5) = 0 ∧
    (∀ a, a < 0 ∨ 0 + 5 ≤ a → slashToBackslash samplePath 0 5 a = samplePath a) ∧
    (∀ i, i < 5 → readU8 (slashToBackslash samplePath 0 5) (0 + i) ≠ 0x2f) ∧
    (∀ fuel, 5 < fuel →
      ExtractTmpPath fuel (slashToBackslash samplePath 0 5) 0
        = some (slashToBackslash samplePath 0 5))) :=
  ⟨⟨by decide, by decide⟩, ExtractTmpPath_spec samplePath 0 5 (by decide) (by decide)⟩

/-- On the sample string `a/b/c` the loop leaves `a\b\c`. -/
theorem ExtractTmpPath_sample :
    (ExtractTmpPath 8 samplePath 0).map (fun m => (List.range 6).map (readU8 m))
      = some [0x61, 0x5c, 0x62, 0x5c, 0x63, 0x00] := by
  decide

/-! ## The class listing: proofs -/

theorem SizeNoEmptyNode_foldl (statements : List NodeType) :
    ∀ acc : Nat,
      (statements.foldl
        (fun acc m_type =>
          if m_type ≠ .TYPE_PRECODEPOS then
            if acc ≠ 0 ∨ m_type ≠ .TYPE_END then acc + 1 else acc
          else acc) acc = 0 ↔
        acc = 0 ∧ ∀ t ∈ statements, t = NodeType.TYPE_PRECODEPOS ∨ t = NodeType.TYPE_END) := by
  induction statements with
  | nil => intro acc; simp
  | cons t rest ih =>
    intro acc
    rw [List.foldl_cons, ih]
    by_cases h1 : t = .TYPE_PRECODEPOS
    · simp [h1]
    · by_cases h2 : t = .TYPE_END
      · by_cases h0 : acc = 0
        · simp [h2, h0]
        · simp [h2, h0]
      · simp [h1, h2]

theorem SizeNoEmptyNode_eq_zero_iff (statements : List NodeType) :
    SizeNoEmptyNode statements = 0 ↔
      ∀ t ∈ statements, t = NodeType.TYPE_PRECODEPOS ∨ t = NodeType.TYPE_END := by
  unfold SizeNoEmptyNode
  rw [SizeNoEmptyNode_foldl]
  simp

theorem SizeNoEmptyNode_ne_zero_iff (statements : List NodeType) :
    SizeNoEmptyNode statements ≠ 0 ↔
      ∃ t ∈ statements, t ≠ NodeType.TYPE_PRECODEPOS ∧ t ≠ NodeType.TYPE_END := by
  rw [Ne, SizeNoEmptyNode_eq_zero_iff]
  push_neg
  rfl

theorem lookup_filter_ne (l : List ((Nat × Nat) × ExportCtx)) (k k1 : Nat × Nat)
    (h : k1 ≠ k) :
    (l.filter (fun p => decide (p.1 ≠ k))).lookup k1 = l.lookup k1 := by
  induction l with
  | nil => rfl
  | cons x t ih =>
    obtain ⟨a, b⟩ := x
    by_cases ha : a = k
    · subst ha
      have hk : (k1 == a) = false := beq_false_of_ne h
      rw [List.filter_cons, if_neg (by simp), List.lookup_cons, hk]
      exact ih
    · rw [List.filter_cons, if_pos (by simpa using ha), List.lookup_cons, List.lookup_cons,
        ih]

theorem handleMethod_lookup (name : Nat) (st : List ((Nat × Nat) × ExportCtx) × List ClassOut)
    (method : Nat) (forceName : Option String) (ignoreEmpty : Bool) (k1 : Nat × Nat)
    (h : k1 ≠ (name, method)) :
    (handleMethod name st method forceName ignoreEmpty).1.lookup k1 = st.1.lookup k1 := by
  unfold handleMethod
  cases hl : st.1.lookup (name, method) with
  | none => rfl
  | some e =>
    by_cases hd : e.m_disableDecompiler = true
    · simp [hd]
    · simp only [hd, Bool.false_eq_true, if_false]
      exact lookup_filter_ne st.1 (name, method) k1 h

theorem handleMethod_out (name : Nat) (st : List ((Nat × Nat) × ExportCtx) × List ClassOut)
    (method : Nat) (forceName : Option String) :
    (hasBody st.1 name method →
      (handleMethod name st method forceName true).2 = st.2 ++ [.method method forceName]) ∧
    (¬ hasBody st.1 name method →
      (handleMethod name st method forceName true).2 = st.2) := by
  unfold hasBody handleMethod
  cases hl : st.1.lookup (name, method) with
  | none => simp
  | some e =>
    by_cases hd : e.m_disableDecompiler = true
    · simp [hd]
    · have hd1 : e.m_disableDecompiler = false := by simpa using hd
      by_cases hs : SizeNoEmptyNode e.m_statements = 0
      · have hall := (SizeNoEmptyNode_eq_zero_iff _).mp hs
        constructor
        · rintro ⟨e1, he1, _, t, ht, hp, hq⟩
          simp only [Option.some.injEq] at he1
          subst he1
          rcases hall t ht with h | h
          · exact absurd h hp
          · exact absurd h hq
        · intro _
          simp [hd1, hs]
      · constructor
        · intro _
          simp [hd1, hs]
        · intro hno
          exact absurd ⟨e, rfl, hd1, (SizeNoEmptyNode_ne_zero_iff _).mp hs⟩ hno

theorem handleMethod_none_out (name : Nat) (m_methods : List Nat) :
    ∀ st : List ((Nat × Nat) × ExportCtx) × List ClassOut,
      ∃ rest, (∀ t ∈ rest, ∃ m, t = ClassOut.method m none) ∧
        (m_methods.foldl (fun st method => handleMethod name st method none false) st).2
          = st.2 ++ rest := by
  induction m_methods with
  | nil => intro st; exact ⟨[], by simp, by simp⟩
  | cons m t ih =>
    intro st
    obtain ⟨rest, hrest, e⟩ := ih (handleMethod name st m none false)
    rw [List.foldl_cons, e]
    have hstep : (handleMethod name st m none false).2 = st.2 ∨
        (handleMethod name st m none false).2 = st.2 ++ [.method m none] := by
      unfold handleMethod
      cases hl : st.1.lookup (name, m) with
      | none => exact Or.inl rfl
      | some e =>
        by_cases hd : e.m_disableDecompiler = true
        · simp [hd]
        · simp [hd]
    rcases hstep with h | h
    · exact ⟨rest, hrest, by rw [h]⟩
    · refine ⟨.method m none :: rest, ?_, by rw [h]; simp⟩
      intro x hx
      rcases List.mem_cons.mp hx with hx | hx
      · exact ⟨m, hx⟩
      · exact hrest x hx

/-- C26: `SizeNoEmptyNode` is `0` exactly when every statement's node is of kind
`TYPE_PRECODEPOS` or `TYPE_END`; and in the class listing the constructor (the
destructor) is written exactly when its export is in `contextes`, is decompilable, and
has a statement that is neither `TYPE_PRECODEPOS` nor `TYPE_END`. -/
theorem SizeNoEmptyNode_class_listing (g_constructorName g_destructorName name : Nat)
    (m_methods : List Nat) (contextes : List ((Nat × Nat) × ExportCtx))
    (hne : g_constructorName ≠ g_destructorName) :
    (∀ statements, SizeNoEmptyNode statements = 0 ↔
      ∀ t ∈ statements, t = NodeType.TYPE_PRECODEPOS ∨ t = NodeType.TYPE_END) ∧
    (ClassOut.method g_constructorName (some "constructor") ∈
        (classMethods g_constructorName g_destructorName name m_methods contextes).2 ↔
      ∃ e, contextes.lookup (name, g_constructorName) = some e ∧
        e.m_disableDecompiler = false ∧
        ∃ t ∈ e.m_statements, t ≠ NodeType.TYPE_PRECODEPOS ∧ t ≠ NodeType.TYPE_END) ∧
    (ClassOut.method g_destructorName (some "destructor") ∈
        (classMethods g_constructorName g_destructorName name m_methods contextes).2 ↔
      ∃ e, contextes.lookup (name, g_destructorName) = some e ∧
        e.m_disableDecompiler = false ∧
        ∃ t ∈ e.m_statements, t ≠ NodeType.TYPE_PRECODEPOS ∧ t ≠ NodeType.TYPE_END) := by
  refine ⟨SizeNoEmptyNode_eq_zero_iff, ?_⟩
  have hc := handleMethod_out name (contextes, []) g_constructorName (some "constructor")
  have hd := handleMethod_out name
    (handleMethod name (contextes, []) g_constructorName (some "constructor") true)
    g_destructorName (some "destructor")
  have hl := handleMethod_lookup name (contextes, []) g_constructorName
    (some "constructor") true (name, g_destructorName)
    (by intro h; exact hne (Prod.mk.inj h).2.symm)
  have hbd : hasBody
      (handleMethod name (contextes, []) g_constructorName (some "constructor") true).1
      name g_destructorName ↔ hasBody contextes name g_destructorName := by
    unfold hasBody
    rw [hl]
  rw [hbd] at hd
  obtain ⟨rest, hrest, e⟩ := handleMethod_none_out name m_methods
    (handleMethod name
      (handleMethod name (contextes, []) g_constructorName (some "constructor") true)
      g_destructorName (some "destructor") true)
  have hout : (classMethods g_constructorName g_destructorName name m_methods contextes).2
      = (handleMethod name
          (handleMethod name (contextes, []) g_constructorName (some "constructor") true)
          g_destructorName (some "destructor") true).2 ++ rest := e
  have hrc : ClassOut.method g_constructorName (some "constructor") ∉ rest := by
    intro h
    obtain ⟨m, hm⟩ := hrest _ h
    simp at hm
  have hrd : ClassOut.method g_destructorName (some "destructor") ∉ rest := by
    intro h
    obtain ⟨m, hm⟩ := hrest _ h
    simp at hm
  have hcd : ClassOut.method g_constructorName (some "constructor")
      ≠ ClassOut.method g_destructorName (some "destructor") := by
    intro h
    simp only [ClassOut.method.injEq] at h
    exact hne h.1
  change (_ ↔ hasBody contextes name g_constructorName) ∧
    (_ ↔ hasBody contextes name g_destructorName)
  rw [hout]
  by_cases bc : hasBody contextes name g_constructorName
  · by_cases bd : hasBody contextes name g_destructorName
    · rw [hd.1 bd, hc.1 bc]
      simp [bc, bd]
    · rw [hd.2 bd, hc.1 bc]
      simp [bc, bd, hrd, Ne.symm hcd]
  · by_cases bd : hasBody contextes name g_destructorName
    · rw [hd.1 bd, hc.2 bc]
      simp [bc, bd, hrc, hcd]
    · rw [hd.2 bd, hc.2 bc]
      simp [bc, bd, hrc, hrd]

theorem SizeNoEmptyNode_class_listing_witness :
    (1 : Nat) ≠ 2 ∧
    ((∀ statements, SizeNoEmptyNode statements = 0 ↔
      ∀ t ∈ statements, t = NodeType.TYPE_PRECODEPOS ∨ t = NodeType.TYPE_END) ∧
    (ClassOut.method 1 (some "constructor") ∈
        (classMethods 1 2 0xC1 [3] sampleContextes).2 ↔
      ∃ e, sampleContextes.lookup (0xC1, 1) = some e ∧
        e.m_disableDecompiler = false ∧
        ∃ t ∈ e.m_statements, t ≠ NodeType.TYPE_PRECODEPOS ∧ t ≠ NodeType.TYPE_END) ∧
    (ClassOut.method 2 (some "destructor") ∈
        (classMethods 1 2 0xC1 [3] sampleContextes).2 ↔
      ∃ e, sampleContextes.lookup (0xC1, 2) = some e ∧
        e.m_disableDecompiler = false ∧
        ∃ t ∈ e.m_statements, t ≠ NodeType.TYPE_PRECODEPOS ∧ t ≠ NodeType.TYPE_END)) :=
  ⟨by decide, SizeNoEmptyNode_class_listing 1 2 0xC1 [3] sampleContextes (by decide)⟩

/-- The sample class: the constructor is written, the destructor with the empty body is
not, the method is written though its body is empty. -/
theorem classMethods_sample :
    (classMethods 1 2 0xC1 [3] sampleContextes).2
      = [.method 1 (some "constructor"), .method 3 none] ∧
    SizeNoEmptyNode [.TYPE_PRECODEPOS, .TYPE_END] = 0 ∧
    SizeNoEmptyNode [.TYPE_PRECODEPOS, .other 7, .TYPE_END] = 2 := by
  refine ⟨by decide, by decide, by decide⟩

/-! ## The `dds` tool: arguments -/

/-- C25, the code at the failing input: called with an input and an output argument,
`dumpdataset` reads the dataset from `argv[3]` and writes `dataset.csv`; with one
argument it reads `argv[2]`, with none it reads `scriptparsetree`, and it writes
`dataset.csv` in both cases. -/
theorem dumpdataset_arguments :
    dumpdataset (fun _ => 0) ["acts", "dds", "in.gscc", "out.csv"]
      = ⟨0, "out.csv", some "dataset.csv"⟩ ∧
    dumpdataset (fun _ => 0) ["acts", "dds", "in.gscc"]
      = ⟨0, "in.gscc", some "dataset.csv"⟩ ∧
    dumpdataset (fun _ => 0) ["acts", "dds"]
      = ⟨0, "scriptparsetree", some "dataset.csv"⟩ := by
  refine ⟨by decide, by decide, by decide⟩

/-! ## Header validation behind a `GSIC` wrapper -/

/-- C27, the code at the failing input: for a 24-byte file with an 8-byte `GSIC`
wrapper and a header size of 24, `GscInfoHandleData` accepts the header (it goes on to
open the output and returns `0`) although only 16 bytes remain after the wrapper, on
which `IsValidHeader` is false. -/
theorem GscInfoHandleData_gsic_size :
    gsicStage gsicShortBlob 24 = .ok 8 ∧
    24 - 8 < sampleEnv.headerSize .T8 ∧
    IsValidHeader .T8 (sampleEnv.headerSize .T8) (fun a => gsicShortBlob (a + 8)) (24 - 8)
      = false ∧
    GscInfoHandleData sampleEnv gsicShortBlob 24 0 false
      = ⟨0, [], some 0x36, some .T8, true, false⟩ := by
  refine ⟨rfl, by decide, by decide, by decide⟩

/-! ## Invalid opcode numbers in the two walkers -/

/-- C28, the code at the failing input: on an export `<opcode 0x2000>; End`, `DumpAsm`
takes the failure branch at the first instruction and sets `m_disableDecompiler`, while
`ComputeSize` does not return `0`: it walks both instructions and returns `4`. -/
theorem ComputeSize_DumpAsm_disagree :
    (0x2000 &&& 0x1000 = 0 ∧ 0x2000 &&& 0xF000 ≠ 0) ∧
    ComputeSize (sampleSkipOps topBitExport) 4 sampleStart = some 4 ∧
    (DumpAsm (sampleDumpOps topBitExport) true 4 ⟨false, sampleStart⟩ []).map
      (fun r => (r.1.m_disableDecompiler, r.2)) = some (true, [.failure 0x2000]) := by
  refine ⟨by decide, by decide, by decide⟩

/-! ## `hashutils` masks: values -/

/-- C29, the constants as written: `MASK62` has the low 60 bits set, not 62; `MASK63`
has the low 63 bits set. -/
theorem MASK62_MASK63_values :
    MASK62 = 2 ^ 60 - 1 ∧ MASK62 ≠ 2 ^ 62 - 1 ∧ MASK63 = 2 ^ 63 - 1 ∧
    2 ^ 60 &&& MASK62 = 0 ∧ 2 ^ 60 &&& (2 ^ 62 - 1) = 2 ^ 60 := by
  refine ⟨by decide, by decide, by decide, by decide, by decide⟩

/-! ## `ReadLineString`: escapes -/

/-- C30, the code at the failing input: on the line `a\nb` (`a`, backslash, `n`, `b`)
`ReadLineString` returns `a`, backslash, `b`, where the decoding described gives `a`,
newline, `b`; on a line ending in a backslash it drops the backslash; a line without
backslash is copied. -/
theorem ReadLineString_escape :
    ReadLineString [0x61, 0x5c, 0x6e, 0x62] 0 = [0x61, 0x5c, 0x62] ∧
    decodeEscapes [0x61, 0x5c, 0x6e, 0x62] = [0x61, 0x0a, 0x62] ∧
    ReadLineString [0x61, 0x5c] 0 = [0x61] ∧
    ReadLineString [0x20, 0x61, 0x62] 1 = [0x61, 0x62] := by
  refine ⟨by decide, by decide, by decide, by decide⟩

/-! ## Link patching on the blob: reads that no store reaches -/

theorem readLE_lt (m : Mem) (w : Nat) : ∀ o, readLE m o w < 256 ^ w := by
  induction w with
  | zero => intro o; simp [readLE]
  | succ w ih =>
    intro o
    have h1 := readU8_lt m o
    have h2 := ih (o + 1)
    simp only [readLE, Nat.pow_succ]
    omega

theorem readLE_congr (m m0 : Mem) (w : Nat) :
    ∀ o, (∀ a, o ≤ a → a < o + w → m a = m0 a) → readLE m o w = readLE m0 o w := by
  induction w with
  | zero => intro o _; rfl
  | succ w ih =>
    intro o h
    have h0 : readU8 m o = readU8 m0 o := by
      unfold readU8
      rw [h o (Nat.le_refl _) (by omega)]
    simp only [readLE, h0]
    rw [ih (o + 1) (fun a ha1 ha2 => h a (by omega) (by omega))]

theorem readU32_congr (m m0 : Mem) (o : Nat) (h : ∀ a, o ≤ a → a < o + 4 → m a = m0 a) :
    readU32 m o = readU32 m0 o := by
  simp only [readU32, readU16, readU8]
  rw [h o (by omega) (by omega), h (o + 1) (by omega) (by omega),
    h (o + 2) (by omega) (by omega), h (o + 2 + 1) (by omega) (by omega)]

theorem Agree.refl (R : List (Nat × Nat)) (m : Mem) : Agree R m m := fun _ _ _ _ _ => rfl

theorem Agree.get {R : List (Nat × Nat)} {m m0 : Mem} (h : Agree R m m0) (f : Field)
    (loc : Nat) (hin : (loc + f.off, f.width) ∈ R) : f.get m loc = f.get m0 loc := by
  unfold Field.get
  exact readLE_congr m m0 _ _ (fun a h1 h2 => h _ hin a h1 h2)

theorem Agree.word {R : List (Nat × Nat)} {m m0 : Mem} (h : Agree R m m0) (o : Nat)
    (hin : (o, 4) ∈ R) : readU32 m o = readU32 m0 o :=
  readU32_congr m m0 o (fun a h1 h2 => h _ hin a h1 h2)

theorem Agree.slot {R : List (Nat × Nat)} {m m0 : Mem} (h : Agree R m m0)
    (loc sizeof n j : Nat) (hin : (loc + sizeof, 4 * n) ∈ R) (hj : j < n) :
    slotAt m loc sizeof j = slotAt m0 loc sizeof j := by
  unfold slotAt
  exact readU32_congr m m0 _ (fun a h1 h2 => h _ hin a (by simp only; omega)
    (by simp only; omega))

theorem Agree.store {R : List (Nat × Nat)} {m m0 : Mem} (h : Agree R m m0) (st : Store)
    (ha : ∀ rg ∈ R, st.avoids rg) : Agree R (st.apply m) m0 := by
  intro rg hrg a h1 h2
  have hav := ha rg hrg
  unfold Store.avoids at hav
  unfold Store.apply
  rw [writeLE_apply_of_not_covers _ _ _ _ _ (by omega)]
  exact h rg hrg a h1 h2

theorem Agree.stores {R : List (Nat × Nat)} {m0 : Mem} (l : List Store) :
    ∀ m, Agree R m m0 → storesAvoid l R → Agree R (applyStores m l) m0 := by
  induction l with
  | nil => intro m h _; exact h
  | cons x t ih =>
    intro m h ha
    rw [applyStores_cons]
    exact ih _ (h.store x (ha x (List.mem_cons_self _ _)))
      (fun s hs => ha s (List.mem_cons_of_mem _ hs))

theorem storesAvoid_append (l1 l2 : List Store) (R : List (Nat × Nat)) :
    storesAvoid (l1 ++ l2) R ↔ storesAvoid l1 R ∧ storesAvoid l2 R := by
  unfold storesAvoid
  constructor
  · intro h
    exact ⟨fun s hs => h s (List.mem_append_left _ hs),
      fun s hs => h s (List.mem_append_right _ hs)⟩
  · rintro ⟨h1, h2⟩ s hs
    rcases List.mem_append.mp hs with h | h
    · exact h1 s h
    · exact h2 s h

theorem tracePhase_cons {E : Type}
    (f : T8GSCOBJContext → E → List Store × T8GSCOBJContext) (ctx : T8GSCOBJContext)
    (e : E) (t : List E) :
    tracePhase f ctx (e :: t) =
      ((f ctx e).1 ++ (tracePhase f (f ctx e).2 t).1, (tracePhase f (f ctx e).2 t).2) := rfl

/-- The inner loop of a table entry, when no store lands on what it reads: it runs once
for each slot the blob listed before patching, whatever fuel is left beyond their
number. -/
theorem siteLoop_eq (R : List (Nat × Nat)) (m0 : Mem) (num_address : Mem → Nat)
    (site : Mem × T8GSCOBJContext → Nat → Mem × T8GSCOBJContext)
    (sf : T8GSCOBJContext → Nat → List Store × T8GSCOBJContext) (slots : List Nat)
    (hnum : ∀ m, Agree R m m0 → num_address m = slots.length)
    (hsite : ∀ m c j (hj : j < slots.length), Agree R m m0 →
      storesAvoid (sf c slots[j]).1 R →
      site (m, c) j = (applyStores m (sf c slots[j]).1, (sf c slots[j]).2)) :
    ∀ fuel j m c, slots.length ≤ j + fuel → Agree R m m0 →
      storesAvoid (tracePhase sf c (slots.drop j)).1 R →
      siteLoop num_address site fuel j (m, c) =
        (applyStores m (tracePhase sf c (slots.drop j)).1,
          (tracePhase sf c (slots.drop j)).2) := by
  intro fuel
  induction fuel with
  | zero =>
    intro j m c hlen _ _
    rw [List.drop_eq_nil_of_le (by omega)]
    rfl
  | succ fuel ih =>
    intro j m c hlen hA hav
    by_cases hj : j < slots.length
    · rw [List.drop_eq_getElem_cons hj, tracePhase_cons] at hav ⊢
      rw [storesAvoid_append] at hav
      simp only [siteLoop, hnum m hA, hj, if_true]
      rw [hsite m c j hj hA hav.1, applyStores_append]
      exact ih (j + 1) _ _ (by omega) (hA.stores _ _ hav.1) hav.2
    · rw [List.drop_eq_nil_of_le (by omega)]
      simp only [siteLoop, hnum m hA, hj, if_false]
      rfl

theorem tracePhase_pure (g : Nat → List Store) (c : T8GSCOBJContext) (l : List Nat) :
    tracePhase (fun c o => (g o, c)) c l = ((l.map g).flatten, c) := by
  induction l with
  | nil => rfl
  | cons x t ih => rw [tracePhase_cons, ih]; simp

theorem flatten_map_singleton {α β : Type} (g : α → β) (l : List α) :
    (l.map (fun o => [g o])).flatten = l.map g := by
  induction l with
  | nil => rfl
  | cons x t ih => simp [ih]

theorem decodeSlots_length (m : Mem) (base n : Nat) : (decodeSlots m base n).length = n := by
  simp [decodeSlots]

theorem decodeSlots_getElem (m : Mem) (base n j : Nat) (hj : j < (decodeSlots m base n).length) :
    (decodeSlots m base n)[j] = readU32 m (base + 4 * j) := by
  simp [decodeSlots]

/-- The inner loop of an entry whose body only stores, at places `g o` derived from the
slot `o`: when no store lands on what is read, the stores made are those of the slots
listed before patching, in order. -/
theorem siteLoop_stores (R : List (Nat × Nat)) (m0 : Mem) (sizeof : Nat)
    (num_address : Field) (loc : Nat) (g : Nat → List Store)
    (site : Mem × T8GSCOBJContext → Nat → Mem × T8GSCOBJContext)
    (hn : (loc + num_address.off, num_address.width) ∈ R)
    (hsite : ∀ m c j, j < num_address.get m0 loc → Agree R m m0 →
      storesAvoid (g (slotAt m0 loc sizeof j)) R →
      site (m, c) j = (applyStores m (g (slotAt m0 loc sizeof j)), c))
    (m : Mem) (c : T8GSCOBJContext) (hA : Agree R m m0)
    (hav : storesAvoid
      (((decodeSlots m0 (loc + sizeof) (num_address.get m0 loc)).map g).flatten) R) :
    siteLoop (fun m => num_address.get m loc) site (256 ^ num_address.width) 0 (m, c) =
      (applyStores m
        (((decodeSlots m0 (loc + sizeof) (num_address.get m0 loc)).map g).flatten), c) := by
  have key := siteLoop_eq R m0 (fun m => num_address.get m loc) site
    (fun c o => (g o, c)) (decodeSlots m0 (loc + sizeof) (num_address.get m0 loc))
    (fun m hA => by rw [decodeSlots_length]; exact hA.get num_address loc hn)
    (fun m c j hj hA hav => by
      rw [decodeSlots_length] at hj
      simp only [decodeSlots_getElem] at hav ⊢
      exact hsite m c j hj hA hav)
    (256 ^ num_address.width) 0 m c
    (by
      rw [decodeSlots_length]
      have := readLE_lt m0 num_address.width (loc + num_address.off)
      unfold Field.get
      omega)
    hA (by rw [List.drop_zero, tracePhase_pure]; exact hav)
  rw [List.drop_zero, tracePhase_pure] at key
  exact key

/-- A table loop, when no store lands on what it reads: it handles the entries the blob
listed before patching, in order. -/
theorem tableLoop_eq {E : Type} (R : List (Nat × Nat)) (m0 : Mem) (sizeof : Nat)
    (num_address : Field) (fields : List Field) (dec : Mem → Nat → E)
    (entry : Nat → Mem × T8GSCOBJContext → Mem × T8GSCOBJContext)
    (f : T8GSCOBJContext → E → List Store × T8GSCOBJContext)
    (hentry : ∀ loc m c,
      (∀ rg ∈ entryRegions sizeof num_address fields m0 loc, rg ∈ R) → Agree R m m0 →
      storesAvoid (f c (dec m0 loc)).1 R →
      entry loc (m, c) = (applyStores m (f c (dec m0 loc)).1, (f c (dec m0 loc)).2)) :
    ∀ count loc m c,
      (∀ rg ∈ tableRegions sizeof num_address fields m0 count loc, rg ∈ R) →
      Agree R m m0 →
      storesAvoid (tracePhase f c (decodeTable sizeof num_address dec m0 count loc)).1 R →
      tableLoop sizeof num_address entry count loc (m, c) =
        (applyStores m (tracePhase f c (decodeTable sizeof num_address dec m0 count loc)).1,
          (tracePhase f c (decodeTable sizeof num_address dec m0 count loc)).2) := by
  intro count
  induction count with
  | zero => intro loc m c _ _ _; rfl
  | succ count ih =>
    intro loc m c hR hA hav
    simp only [decodeTable, tracePhase_cons, tableRegions] at hav hR ⊢
    rw [storesAvoid_append] at hav
    have hRe : ∀ rg ∈ entryRegions sizeof num_address fields m0 loc, rg ∈ R :=
      fun rg h => hR rg (List.mem_append_left _ h)
    have hn : (loc + num_address.off, num_address.width) ∈ R :=
      hRe _ (by simp [entryRegions])
    have hA1 := hA.stores _ _ hav.1
    simp only [tableLoop]
    rw [hentry loc m c hRe hA hav.1]
    simp only
    rw [hA1.get num_address loc hn,
      ih _ _ _ (fun rg h => hR rg (List.mem_append_right _ h)) hA1 hav.2,
      applyStores_append]

theorem applyStores_singleton (m : Mem) (s : Store) :
    applyStores m [s] = writeLE m s.off s.width s.value := rfl

theorem decodeSlots_agree {R : List (Nat × Nat)} {m m0 : Mem} (h : Agree R m m0)
    (base n : Nat) (hin : (base, 4 * n) ∈ R) : decodeSlots m base n = decodeSlots m0 base n := by
  unfold decodeSlots
  apply List.map_congr_left
  intro j hj
  rw [List.mem_range] at hj
  exact readU32_congr m m0 _ (fun a h1 h2 => h _ hin a (by simp only; omega)
    (by simp only; omega))

/-! ## Link patching on the blob: the six entry bodies -/

theorem patchAnimTreeSingleAt_eq (L : BlobLayout) (R : List (Nat × Nat)) (m0 : Mem)
    (loc : Nat) (m : Mem) (c : T8GSCOBJContext)
    (hR : ∀ rg ∈ entryRegions L.unk2c.sizeof L.unk2c.num_address [L.unk2c.address] m0 loc,
      rg ∈ R)
    (hA : Agree R m m0)
    (hav : storesAvoid (storesAnimTreeSingle c (decodeAnimTreeSingle L m0 loc)).1 R) :
    patchAnimTreeSingleAt L loc (m, c) =
      (applyStores m (storesAnimTreeSingle c (decodeAnimTreeSingle L m0 loc)).1,
        (storesAnimTreeSingle c (decodeAnimTreeSingle L m0 loc)).2) := by
  have hn : (loc + L.unk2c.num_address.off, L.unk2c.num_address.width) ∈ R :=
    hR _ (by simp [entryRegions])
  have ha : (loc + L.unk2c.address.off, L.unk2c.address.width) ∈ R :=
    hR _ (by simp [entryRegions])
  have hs : (loc + L.unk2c.sizeof, 4 * L.unk2c.num_address.get m0 loc) ∈ R :=
    hR _ (by simp [entryRegions])
  simp only [patchAnimTreeSingleAt, storesAnimTreeSingle, decodeAnimTreeSingle,
    hA.get L.unk2c.address loc ha] at hav ⊢
  by_cases hr : (c.AddStringValue (L.unk2c.address.get m0 loc)).1 > 256
  · simp only [hr, if_true]
    rfl
  · simp only [hr, if_false] at hav ⊢
    rw [← flatten_map_singleton] at hav ⊢
    exact siteLoop_stores R m0 L.unk2c.sizeof L.unk2c.num_address loc
      (fun o => [⟨o, 1, (c.AddStringValue (L.unk2c.address.get m0 loc)).1⟩]) _ hn
      (fun m c1 j hj hA1 _ => by
        simp only [applyStores_singleton, ← writeU8_eq_writeLE,
          hA1.slot loc L.unk2c.sizeof _ j hs hj])
      m _ hA hav

theorem patchStringAt_eq (L : BlobLayout) (R : List (Nat × Nat)) (m0 : Mem)
    (loc : Nat) (m : Mem) (c : T8GSCOBJContext)
    (hR : ∀ rg ∈ entryRegions L.str.sizeof L.str.num_address [L.str.string] m0 loc, rg ∈ R)
    (hA : Agree R m m0)
    (hav : storesAvoid (storesString (decodeReader L m0) c (decodeString L m0 loc)).1 R) :
    patchStringAt L loc (m, c) =
      (applyStores m (storesString (decodeReader L m0) c (decodeString L m0 loc)).1,
        (storesString (decodeReader L m0) c (decodeString L m0 loc)).2) := by
  have hn : (loc + L.str.num_address.off, L.str.num_address.width) ∈ R :=
    hR _ (by simp [entryRegions])
  have ha : (loc + L.str.string.off, L.str.string.width) ∈ R :=
    hR _ (by simp [entryRegions])
  have hs : (loc + L.str.sizeof, 4 * L.str.num_address.get m0 loc) ∈ R :=
    hR _ (by simp [entryRegions])
  simp only [patchStringAt, storesString, decodeString, decodeReader,
    hA.get L.str.string loc ha] at hav ⊢
  rw [← flatten_map_singleton] at hav ⊢
  exact siteLoop_stores R m0 L.str.sizeof L.str.num_address loc
    (fun o => [⟨o, 4, (c.AddStringValue (L.DecryptString (L.str.string.get m0 loc))).1⟩]) _ hn
    (fun m c1 j hj hA1 _ => by
      simp only [applyStores_singleton, ← writeU32_eq_writeLE,
        hA1.slot loc L.str.sizeof _ j hs hj])
    m _ hA hav

theorem patchGlobalVarAt_eq (L : BlobLayout) (R : List (Nat × Nat)) (m0 : Mem)
    (loc : Nat) (m : Mem) (c : T8GSCOBJContext)
    (hR : ∀ rg ∈ entryRegions L.globalvar.sizeof L.globalvar.num_address [L.globalvar.name]
      m0 loc, rg ∈ R)
    (hA : Agree R m m0)
    (hav : storesAvoid (storesGlobalVar c (decodeGlobalVar L m0 loc)).1 R) :
    patchGlobalVarAt L loc (m, c) =
      (applyStores m (storesGlobalVar c (decodeGlobalVar L m0 loc)).1,
        (storesGlobalVar c (decodeGlobalVar L m0 loc)).2) := by
  have hn : (loc + L.globalvar.num_address.off, L.globalvar.num_address.width) ∈ R :=
    hR _ (by simp [entryRegions])
  have ha : (loc + L.globalvar.name.off, L.globalvar.name.width) ∈ R :=
    hR _ (by simp [entryRegions])
  have hs : (loc + L.globalvar.sizeof, 4 * L.globalvar.num_address.get m0 loc) ∈ R :=
    hR _ (by simp [entryRegions])
  simp only [patchGlobalVarAt, storesGlobalVar, decodeGlobalVar,
    hA.get L.globalvar.name loc ha] at hav ⊢
  rw [← flatten_map_singleton] at hav ⊢
  exact siteLoop_stores R m0 L.globalvar.sizeof L.globalvar.num_address loc
    (fun o => [⟨o, 2, (c.AddGlobalVarName (L.globalvar.name.get m0 loc)).1⟩]) _ hn
    (fun m c1 j hj hA1 _ => by
      simp only [applyStores_singleton, ← writeU16_eq_writeLE,
        hA1.slot loc L.globalvar.sizeof _ j hs hj])
    m _ hA hav

theorem Field.get_word (k : Nat) (m : Mem) (loc : Nat) :
    (⟨k, 4⟩ : Field).get m loc = readU32 m (loc + k) := by
  simp only [Field.get, readLE, readU32, readU16]
  have e1 : loc + k + 1 + 1 = loc + k + 2 := by omega
  have e2 : loc + k + 1 + 1 + 1 = loc + k + 2 + 1 := by omega
  rw [e2, e1]
  omega

theorem patchAnimTreeDoubleAt_eq (R : List (Nat × Nat)) (m0 : Mem)
    (loc : Nat) (m : Mem) (c : T8GSCOBJContext)
    (hR : ∀ rg ∈ entryRegions 12 ⟨0, 4⟩ [⟨4, 4⟩, ⟨8, 4⟩] m0 loc, rg ∈ R)
    (hA : Agree R m m0)
    (hav : storesAvoid (storesAnimTreeDouble c (decodeAnimTreeDouble m0 loc)).1 R) :
    patchAnimTreeDoubleAt loc (m, c) =
      (applyStores m (storesAnimTreeDouble c (decodeAnimTreeDouble m0 loc)).1,
        (storesAnimTreeDouble c (decodeAnimTreeDouble m0 loc)).2) := by
  have hn : (loc + (⟨0, 4⟩ : Field).off, (⟨0, 4⟩ : Field).width) ∈ R :=
    hR _ (by simp [entryRegions])
  have h1 : (loc + 4, 4) ∈ R := hR _ (by simp [entryRegions])
  have h2 : (loc + 8, 4) ∈ R := hR _ (by simp [entryRegions])
  have hs : (loc + 12, 4 * (⟨0, 4⟩ : Field).get m0 loc) ∈ R :=
    hR _ (by simp [entryRegions])
  have en : ∀ m1 : Mem, readU32 m1 loc = (⟨0, 4⟩ : Field).get m1 loc := by
    intro m1
    rw [Field.get_word, Nat.add_zero]
  simp only [patchAnimTreeDoubleAt, storesAnimTreeDouble, decodeAnimTreeDouble,
    hA.word (loc + 4) h1, hA.word (loc + 8) h2, en] at hav ⊢
  exact siteLoop_stores R m0 12 ⟨0, 4⟩ loc
    (fun o => [⟨o, 4, (c.AddStringValue (readU32 m0 (loc + 4))).1⟩,
      ⟨o + 4, 4, ((c.AddStringValue (readU32 m0 (loc + 4))).2.AddStringValue
        (readU32 m0 (loc + 8))).1⟩]) _ hn
    (fun m c1 j hj hA1 _ => by
      simp only [applyStores_cons, applyStores_nil, Store.apply, ← writeU32_eq_writeLE,
        hA1.slot loc 12 _ j hs hj])
    m _ hA hav

theorem tracePhase_import64Sites (imp : IW23GSCImport) :
    ∀ (l : List Nat) (c : T8GSCOBJContext),
      tracePhase (fun c o => ([(⟨o, 2, c.m_linkedImports.length⟩ : Store)],
        { c with m_linkedImports := c.m_linkedImports ++ [imp] })) c l
        = storesImport64Sites imp c l := by
  intro l
  induction l with
  | nil => intro c; rfl
  | cons o t ih =>
    intro c
    rw [tracePhase_cons]
    simp only [storesImport64Sites, ih, List.singleton_append]

theorem decodeImport64_agree (L : BlobLayout) {R : List (Nat × Nat)} {m m0 : Mem}
    (hA : Agree R m m0) (loc : Nat)
    (hR : ∀ rg ∈ entryRegions L.imp64.sizeof L.imp64.num_address
      [L.imp64.name, L.imp64.name_space, L.imp64.param_count, L.imp64.flags] m0 loc,
      rg ∈ R) :
    decodeImport64 L m loc = decodeImport64 L m0 loc := by
  have hn : (loc + L.imp64.num_address.off, L.imp64.num_address.width) ∈ R :=
    hR _ (by simp [entryRegions])
  have hs : (loc + L.imp64.sizeof, 4 * L.imp64.num_address.get m0 loc) ∈ R :=
    hR _ (by simp [entryRegions])
  simp only [decodeImport64, hA.get L.imp64.num_address loc hn,
    hA.get L.imp64.name loc (hR _ (by simp [entryRegions])),
    hA.get L.imp64.name_space loc (hR _ (by simp [entryRegions])),
    hA.get L.imp64.param_count loc (hR _ (by simp [entryRegions])),
    hA.get L.imp64.flags loc (hR _ (by simp [entryRegions])),
    decodeSlots_agree hA _ _ hs]

theorem patchImport64At_eq (L : BlobLayout) (R : List (Nat × Nat)) (m0 : Mem)
    (loc : Nat) (m : Mem) (c : T8GSCOBJContext)
    (hR : ∀ rg ∈ entryRegions L.imp64.sizeof L.imp64.num_address
      [L.imp64.name, L.imp64.name_space, L.imp64.param_count, L.imp64.flags] m0 loc,
      rg ∈ R)
    (hA : Agree R m m0)
    (hav : storesAvoid (storesImport64 c (decodeImport64 L m0 loc)).1 R) :
    patchImport64At L loc (m, c) =
      (applyStores m (storesImport64 c (decodeImport64 L m0 loc)).1,
        (storesImport64 c (decodeImport64 L m0 loc)).2) := by
  have hn : (loc + L.imp64.num_address.off, L.imp64.num_address.width) ∈ R :=
    hR _ (by simp [entryRegions])
  have hs : (loc + L.imp64.sizeof, 4 * L.imp64.num_address.get m0 loc) ∈ R :=
    hR _ (by simp [entryRegions])
  have hfix : (decodeImport64 L m0 loc).fixups
      = decodeSlots m0 (loc + L.imp64.sizeof) (L.imp64.num_address.get m0 loc) := rfl
  unfold storesImport64 at hav ⊢
  rw [hfix, ← tracePhase_import64Sites] at hav ⊢
  have key := siteLoop_eq R m0 (fun m => L.imp64.num_address.get m loc)
    (fun s j =>
      (writeU16 s.1 (slotAt s.1 loc L.imp64.sizeof j) s.2.m_linkedImports.length,
        { s.2 with
          m_linkedImports := s.2.m_linkedImports ++ [decodeImport64 L s.1 loc] }))
    (fun c o => ([(⟨o, 2, c.m_linkedImports.length⟩ : Store)],
      { c with m_linkedImports := c.m_linkedImports ++ [decodeImport64 L m0 loc] }))
    (decodeSlots m0 (loc + L.imp64.sizeof) (L.imp64.num_address.get m0 loc))
    (fun m hA => by rw [decodeSlots_length]; exact hA.get L.imp64.num_address loc hn)
    (fun m c j hj hA1 _ => by
      rw [decodeSlots_length] at hj
      simp only [decodeSlots_getElem, applyStores_singleton, ← writeU16_eq_writeLE,
        hA1.slot loc L.imp64.sizeof _ j hs hj, decodeImport64_agree L hA1 loc hR]
      rfl)
    (256 ^ L.imp64.num_address.width) 0 m c
    (by
      rw [decodeSlots_length]
      have := readLE_lt m0 L.imp64.num_address.width (loc + L.imp64.num_address.off)
      unfold Field.get
      omega)
    hA (by rw [List.drop_zero]; exact hav)
  rw [List.drop_zero] at key
  exact key

theorem Agree.writeLE {R : List (Nat × Nat)} {m m0 : Mem} (h : Agree R m m0) (o w v : Nat)
    (ha : ∀ rg ∈ R, (⟨o, w, v⟩ : Store).avoids rg) : Agree R (GSC.writeLE m o w v) m0 :=
  h.store ⟨o, w, v⟩ ha

theorem patchImportSiteAt_eq (L : BlobLayout) (F : T8GSCImportFlags) (R : List (Nat × Nat))
    (m0 : Mem) (loc : Nat) (m : Mem) (j : Nat)
    (hR : ∀ rg ∈ entryRegions L.imp.sizeof L.imp.num_address
      [L.imp.name, L.imp.import_namespace, L.imp.param_count, L.imp.flags] m0 loc, rg ∈ R)
    (hj : j < L.imp.num_address.get m0 loc)
    (hA : Agree R m m0)
    (hav : storesAvoid (storesImportSite F L.RemapFlagsImport (decodeImport L m0 loc)
      (slotAt m0 loc L.imp.sizeof j)) R) :
    patchImportSiteAt L F loc m j =
      applyStores m (storesImportSite F L.RemapFlagsImport (decodeImport L m0 loc)
        (slotAt m0 loc L.imp.sizeof j)) := by
  have hs : (loc + L.imp.sizeof, 4 * L.imp.num_address.get m0 loc) ∈ R :=
    hR _ (by simp [entryRegions])
  have hname : (loc + L.imp.name.off, L.imp.name.width) ∈ R := hR _ (by simp [entryRegions])
  have hns : (loc + L.imp.import_namespace.off, L.imp.import_namespace.width) ∈ R :=
    hR _ (by simp [entryRegions])
  have hpc : (loc + L.imp.param_count.off, L.imp.param_count.width) ∈ R :=
    hR _ (by simp [entryRegions])
  have hfl : (loc + L.imp.flags.off, L.imp.flags.width) ∈ R := hR _ (by simp [entryRegions])
  rw [← patchImportSite_eq]
  have eflags : (decodeImport L m0 loc).flags = L.imp.flags.get m0 loc := rfl
  have ename : (decodeImport L m0 loc).name = L.imp.name.get m0 loc := rfl
  have ens : (decodeImport L m0 loc).import_namespace = L.imp.import_namespace.get m0 loc :=
    rfl
  have epc : (decodeImport L m0 loc).param_count = L.imp.param_count.get m0 loc := rfl
  by_cases hfm : L.RemapFlagsImport (L.imp.flags.get m0 loc) &&& F.CALLTYPE_MASK
      = F.FUNC_METHOD
  · have hfm1 : L.RemapFlagsImport (decodeImport L m0 loc).flags &&& F.CALLTYPE_MASK
        = F.FUNC_METHOD := hfm
    rw [patchImportSite_funcMethod F _ _ m _ hfm1]
    simp only [storesImportSite, hfm1, if_true] at hav
    have hav1 : ∀ rg ∈ R, (⟨alignUp 8 (slotAt m0 loc L.imp.sizeof j + 2), 4,
        L.imp.name.get m0 loc⟩ : Store).avoids rg :=
      fun rg hrg => hav _ (List.mem_cons_self _ _) rg hrg
    have hA2 := hA.writeLE _ _ _ hav1
    simp only [patchImportSiteAt, hA.get L.imp.flags loc hfl, hfm, if_true,
      hA.slot loc L.imp.sizeof _ j hs hj, hA.get L.imp.name loc hname, writeU32_eq_writeLE,
      hA2.get L.imp.import_namespace loc hns, eflags, ename, ens]
    split_ifs <;> rfl
  · have hfm1 : ¬ L.RemapFlagsImport (decodeImport L m0 loc).flags &&& F.CALLTYPE_MASK
        = F.FUNC_METHOD := hfm
    by_cases h6 : F.isCall (L.RemapFlagsImport (L.imp.flags.get m0 loc) &&& F.CALLTYPE_MASK)
    · have h61 : F.isCall
          (L.RemapFlagsImport (decodeImport L m0 loc).flags &&& F.CALLTYPE_MASK) := h6
      rw [patchImportSite_call F _ _ m _ hfm1 h61]
      simp only [storesImportSite, hfm1, if_false, h61, if_true] at hav
      have hav0 : ∀ rg ∈ R, (⟨slotAt m0 loc L.imp.sizeof j + 2, 1,
          L.imp.param_count.get m0 loc⟩ : Store).avoids rg :=
        fun rg hrg => hav _ (List.mem_cons_self _ _) rg hrg
      have hav1 : ∀ rg ∈ R, (⟨alignUp 8 (slotAt m0 loc L.imp.sizeof j + 3), 4,
          L.imp.name.get m0 loc⟩ : Store).avoids rg :=
        fun rg hrg => hav _ (List.mem_cons_of_mem _ (List.mem_cons_self _ _)) rg hrg
      have hA1 := hA.writeLE _ _ _ hav0
      have hA2 := hA1.writeLE _ _ _ hav1
      have h6' : L.RemapFlagsImport (L.imp.flags.get m0 loc) &&& F.CALLTYPE_MASK = F.FUNCTION ∨
          L.RemapFlagsImport (L.imp.flags.get m0 loc) &&& F.CALLTYPE_MASK = F.FUNCTION_THREAD ∨
          L.RemapFlagsImport (L.imp.flags.get m0 loc) &&& F.CALLTYPE_MASK
            = F.FUNCTION_CHILDTHREAD ∨
          L.RemapFlagsImport (L.imp.flags.get m0 loc) &&& F.CALLTYPE_MASK = F.METHOD ∨
          L.RemapFlagsImport (L.imp.flags.get m0 loc) &&& F.CALLTYPE_MASK = F.METHOD_THREAD ∨
          L.RemapFlagsImport (L.imp.flags.get m0 loc) &&& F.CALLTYPE_MASK
            = F.METHOD_CHILDTHREAD := h6
      simp only [patchImportSiteAt, hA.get L.imp.flags loc hfl, hfm, if_false, h6', if_true,
        hA.slot loc L.imp.sizeof _ j hs hj, hA.get L.imp.param_count loc hpc,
        writeU8_eq_writeLE, hA1.slot loc L.imp.sizeof _ j hs hj,
        hA1.get L.imp.name loc hname, writeU32_eq_writeLE,
        hA2.get L.imp.import_namespace loc hns, eflags, ename, ens, epc]
      split_ifs <;> rfl
    · have h61 : ¬ F.isCall
          (L.RemapFlagsImport (decodeImport L m0 loc).flags &&& F.CALLTYPE_MASK) := h6
      rw [patchImportSite_unknown F _ _ m _ hfm1 h61]
      have h6' : ¬ (L.RemapFlagsImport (L.imp.flags.get m0 loc) &&& F.CALLTYPE_MASK
            = F.FUNCTION ∨
          L.RemapFlagsImport (L.imp.flags.get m0 loc) &&& F.CALLTYPE_MASK = F.FUNCTION_THREAD ∨
          L.RemapFlagsImport (L.imp.flags.get m0 loc) &&& F.CALLTYPE_MASK
            = F.FUNCTION_CHILDTHREAD ∨
          L.RemapFlagsImport (L.imp.flags.get m0 loc) &&& F.CALLTYPE_MASK = F.METHOD ∨
          L.RemapFlagsImport (L.imp.flags.get m0 loc) &&& F.CALLTYPE_MASK = F.METHOD_THREAD ∨
          L.RemapFlagsImport (L.imp.flags.get m0 loc) &&& F.CALLTYPE_MASK
            = F.METHOD_CHILDTHREAD) := h6
      simp only [patchImportSiteAt, hA.get L.imp.flags loc hfl, hfm, if_false, h6']

theorem patchImportAt_eq (L : BlobLayout) (F : T8GSCImportFlags) (R : List (Nat × Nat))
    (m0 : Mem) (loc : Nat) (m : Mem) (c : T8GSCOBJContext)
    (hR : ∀ rg ∈ entryRegions L.imp.sizeof L.imp.num_address
      [L.imp.name, L.imp.import_namespace, L.imp.param_count, L.imp.flags] m0 loc, rg ∈ R)
    (hA : Agree R m m0)
    (hav : storesAvoid
      (storesImport F L.RemapFlagsImport c (decodeImport L m0 loc)).1 R) :
    patchImportAt L F loc (m, c) =
      (applyStores m (storesImport F L.RemapFlagsImport c (decodeImport L m0 loc)).1,
        (storesImport F L.RemapFlagsImport c (decodeImport L m0 loc)).2) := by
  have hn : (loc + L.imp.num_address.off, L.imp.num_address.width) ∈ R :=
    hR _ (by simp [entryRegions])
  exact siteLoop_stores R m0 L.imp.sizeof L.imp.num_address loc
    (storesImportSite F L.RemapFlagsImport (decodeImport L m0 loc)) _ hn
    (fun m c1 j hj hA1 hav1 => by
      simp only [patchImportSiteAt_eq L F R m0 loc m j hR hj hA1 hav1])
    m c hA hav

/-! ## Link patching on the blob equals link patching on the decoded tables -/

theorem readRegions_header (L : BlobLayout) (hash64 : Bool) (m : Mem) (f : Field)
    (hf : f ∈ [L.GetAnimTreeSingleOffset, L.GetAnimTreeSingleCount, L.GetStringsOffset,
      L.GetStringsCount, L.GetImportsOffset, L.GetImportsCount, L.GetAnimTreeDoubleOffset,
      L.GetAnimTreeDoubleCount, L.GetGVarsOffset, L.GetGVarsCount]) :
    (0 + f.off, f.width) ∈ readRegions L hash64 m := by
  unfold readRegions
  exact List.mem_append_left _ (List.mem_map.mpr ⟨f, hf, rfl⟩)

theorem decodeReader_imports (L : BlobLayout) (m : Mem) :
    (decodeReader L m).imports = decodeTable L.imp.sizeof L.imp.num_address (decodeImport L) m
      (L.GetImportsCount.get m 0) (L.GetImportsOffset.get m 0) := rfl

theorem decodeReader_imports64 (L : BlobLayout) (m : Mem) :
    (decodeReader L m).imports64 =
      decodeTable L.imp64.sizeof L.imp64.num_address (decodeImport64 L) m
        (L.GetImportsCount.get m 0) (L.GetImportsOffset.get m 0) := rfl

theorem decodeReader_gvars (L : BlobLayout) (m : Mem) :
    (decodeReader L m).gvars =
      decodeTable L.globalvar.sizeof L.globalvar.num_address (decodeGlobalVar L) m
        (L.GetGVarsCount.get m 0) (L.GetGVarsOffset.get m 0) := rfl

theorem decodeReader_strings (L : BlobLayout) (m : Mem) :
    (decodeReader L m).strings = decodeTable L.str.sizeof L.str.num_address (decodeString L) m
      (L.GetStringsCount.get m 0) (L.GetStringsOffset.get m 0) := rfl

theorem decodeReader_animTreeSingle (L : BlobLayout) (m : Mem) :
    (decodeReader L m).animTreeSingle =
      decodeTable L.unk2c.sizeof L.unk2c.num_address (decodeAnimTreeSingle L) m
        (L.GetAnimTreeSingleCount.get m 0) (L.GetAnimTreeSingleOffset.get m 0) := rfl

theorem decodeReader_animTreeDouble (L : BlobLayout) (m : Mem) :
    (decodeReader L m).animTreeDouble = decodeTable 12 ⟨0, 4⟩ decodeAnimTreeDouble m
      (L.GetAnimTreeDoubleCount.get m 0) (L.GetAnimTreeDoubleOffset.get m 0) := rfl

theorem decodeReader_singleOffset (L : BlobLayout) (m : Mem) :
    (decodeReader L m).GetAnimTreeSingleOffset = L.GetAnimTreeSingleOffset.get m 0 := rfl

theorem decodeReader_doubleOffset (L : BlobLayout) (m : Mem) :
    (decodeReader L m).GetAnimTreeDoubleOffset = L.GetAnimTreeDoubleOffset.get m 0 := rfl

theorem decodeReader_remap (L : BlobLayout) (m : Mem) :
    (decodeReader L m).RemapFlagsImport = L.RemapFlagsImport := rfl

theorem PatchCodeBlob_eq_stores_treyarch (L : BlobLayout) (F : T8GSCImportFlags) (m0 : Mem)
    (ctx : T8GSCOBJContext)
    (ht : storesAvoid (PatchCodeStores false F (decodeReader L m0) ctx).1
      (readRegions L false m0)) :
    PatchCodeBlob L false F (m0, ctx) =
      (applyStores m0 (PatchCodeStores false F (decodeReader L m0) ctx).1,
        (PatchCodeStores false F (decodeReader L m0) ctx).2) := by
  have hhd := readRegions_header L false m0
  have hR1 : ∀ rg ∈ tableRegions L.imp.sizeof L.imp.num_address
      [L.imp.name, L.imp.import_namespace, L.imp.param_count, L.imp.flags] m0
      (L.GetImportsCount.get m0 0) (L.GetImportsOffset.get m0 0),
      rg ∈ readRegions L false m0 := by
    intro rg h
    simp only [readRegions, Bool.false_eq_true, if_false]
    exact List.mem_append_right _ (List.mem_append_left _ (List.mem_append_left _ h))
  have hR2 : ∀ rg ∈ tableRegions L.globalvar.sizeof L.globalvar.num_address
      [L.globalvar.name] m0 (L.GetGVarsCount.get m0 0) (L.GetGVarsOffset.get m0 0),
      rg ∈ readRegions L false m0 := by
    intro rg h
    simp only [readRegions, Bool.false_eq_true, if_false]
    exact List.mem_append_right _ (List.mem_append_left _ (List.mem_append_right _ h))
  have hR3 : ∀ rg ∈ tableRegions L.str.sizeof L.str.num_address [L.str.string] m0
      (L.GetStringsCount.get m0 0) (L.GetStringsOffset.get m0 0),
      rg ∈ readRegions L false m0 := by
    intro rg h
    simp only [readRegions, Bool.false_eq_true, if_false]
    exact List.mem_append_right _ (List.mem_append_right _ h)
  simp only [PatchCodeStores, Bool.false_eq_true, if_false, decodeReader_imports,
    decodeReader_gvars, decodeReader_strings, decodeReader_remap] at ht ⊢
  rw [storesAvoid_append, storesAvoid_append] at ht
  obtain ⟨h1, h2, h3⟩ := ht
  have e1 := tableLoop_eq (readRegions L false m0) m0 L.imp.sizeof L.imp.num_address
    [L.imp.name, L.imp.import_namespace, L.imp.param_count, L.imp.flags] (decodeImport L)
    (patchImportAt L F) (storesImport F L.RemapFlagsImport)
    (fun loc m c => patchImportAt_eq L F (readRegions L false m0) m0 loc m c)
    (L.GetImportsCount.get m0 0) (L.GetImportsOffset.get m0 0) m0 ctx hR1
    (Agree.refl _ _) h1
  have hA1 := (Agree.refl (readRegions L false m0) m0).stores _ _ h1
  have e2 := tableLoop_eq (readRegions L false m0) m0 L.globalvar.sizeof
    L.globalvar.num_address [L.globalvar.name] (decodeGlobalVar L)
    (patchGlobalVarAt L) storesGlobalVar
    (fun loc m c => patchGlobalVarAt_eq L (readRegions L false m0) m0 loc m c)
    (L.GetGVarsCount.get m0 0) (L.GetGVarsOffset.get m0 0) _ _ hR2 hA1 h2
  have hA2 := hA1.stores _ _ h2
  have e3 := tableLoop_eq (readRegions L false m0) m0 L.str.sizeof
    L.str.num_address [L.str.string] (decodeString L)
    (patchStringAt L) (storesString (decodeReader L m0))
    (fun loc m c => patchStringAt_eq L (readRegions L false m0) m0 loc m c)
    (L.GetStringsCount.get m0 0) (L.GetStringsOffset.get m0 0) _ _ hR3 hA2 h3
  simp only [PatchCodeBlob, Bool.false_eq_true, if_false]
  rw [e1]
  simp only []
  rw [hA1.get L.GetGVarsCount 0 (hhd _ (by simp)),
    hA1.get L.GetGVarsOffset 0 (hhd _ (by simp)), e2]
  simp only []
  rw [hA2.get L.GetStringsCount 0 (hhd _ (by simp)),
    hA2.get L.GetStringsOffset 0 (hhd _ (by simp)), e3]
  simp only [applyStores_append]

theorem tableLoop_eq_if {E : Type} (R : List (Nat × Nat)) (m0 : Mem) (sizeof : Nat)
    (num_address : Field) (fields : List Field) (dec : Mem → Nat → E)
    (entry : Nat → Mem × T8GSCOBJContext → Mem × T8GSCOBJContext)
    (f : T8GSCOBJContext → E → List Store × T8GSCOBJContext)
    (hentry : ∀ loc m c,
      (∀ rg ∈ entryRegions sizeof num_address fields m0 loc, rg ∈ R) → Agree R m m0 →
      storesAvoid (f c (dec m0 loc)).1 R →
      entry loc (m, c) = (applyStores m (f c (dec m0 loc)).1, (f c (dec m0 loc)).2))
    (b : Prop) [Decidable b] (count loc : Nat) (m : Mem) (c : T8GSCOBJContext)
    (hR : b → ∀ rg ∈ tableRegions sizeof num_address fields m0 count loc, rg ∈ R)
    (hA : Agree R m m0)
    (hav : storesAvoid (if b then tracePhase f c (decodeTable sizeof num_address dec m0 count loc)
      else ([], c)).1 R) :
    (if b then tableLoop sizeof num_address entry count loc (m, c) else (m, c)) =
      (applyStores m (if b then tracePhase f c (decodeTable sizeof num_address dec m0 count loc)
          else ([], c)).1,
        (if b then tracePhase f c (decodeTable sizeof num_address dec m0 count loc)
          else ([], c)).2) := by
  by_cases hb : b
  · rw [if_pos hb] at hav
    rw [if_pos hb, if_pos hb]
    exact tableLoop_eq R m0 sizeof num_address fields dec entry f hentry count loc m c
      (hR hb) hA hav
  · rw [if_neg hb, if_neg hb]
    rfl

theorem PatchCodeBlob_eq_stores_hash64 (L : BlobLayout) (F : T8GSCImportFlags) (m0 : Mem)
    (ctx : T8GSCOBJContext)
    (ht : storesAvoid (PatchCodeStores true F (decodeReader L m0) ctx).1
      (readRegions L true m0)) :
    PatchCodeBlob L true F (m0, ctx) =
      (applyStores m0 (PatchCodeStores true F (decodeReader L m0) ctx).1,
        (PatchCodeStores true F (decodeReader L m0) ctx).2) := by
  have hhd := readRegions_header L true m0
  have hR1 : L.GetAnimTreeSingleOffset.get m0 0 ≠ 0 →
      ∀ rg ∈ tableRegions L.unk2c.sizeof L.unk2c.num_address [L.unk2c.address] m0
      (L.GetAnimTreeSingleCount.get m0 0) (L.GetAnimTreeSingleOffset.get m0 0),
      rg ∈ readRegions L true m0 := by
    intro hne rg h
    unfold readRegions
    rw [if_pos rfl, if_pos hne]
    exact List.mem_append_right _ (List.mem_append_left _ (List.mem_append_left _
      (List.mem_append_left _ h)))
  have hR2 : ∀ rg ∈ tableRegions L.str.sizeof L.str.num_address [L.str.string] m0
      (L.GetStringsCount.get m0 0) (L.GetStringsOffset.get m0 0),
      rg ∈ readRegions L true m0 := by
    intro rg h
    unfold readRegions
    rw [if_pos rfl]
    exact List.mem_append_right _ (List.mem_append_left _ (List.mem_append_left _
      (List.mem_append_right _ h)))
  have hR3 : ∀ rg ∈ tableRegions L.imp64.sizeof L.imp64.num_address
      [L.imp64.name, L.imp64.name_space, L.imp64.param_count, L.imp64.flags] m0
      (L.GetImportsCount.get m0 0) (L.GetImportsOffset.get m0 0),
      rg ∈ readRegions L true m0 := by
    intro rg h
    unfold readRegions
    rw [if_pos rfl]
    exact List.mem_append_right _ (List.mem_append_left _ (List.mem_append_right _ h))
  have hR4 : L.GetAnimTreeDoubleOffset.get m0 0 ≠ 0 →
      ∀ rg ∈ tableRegions 12 ⟨0, 4⟩ [⟨4, 4⟩, ⟨8, 4⟩] m0
      (L.GetAnimTreeDoubleCount.get m0 0) (L.GetAnimTreeDoubleOffset.get m0 0),
      rg ∈ readRegions L true m0 := by
    intro hne rg h
    unfold readRegions
    rw [if_pos rfl, if_pos hne]
    exact List.mem_append_right _ (List.mem_append_right _ h)
  simp only [PatchCodeStores, if_true, decodeReader_imports64, decodeReader_strings,
    decodeReader_animTreeSingle, decodeReader_animTreeDouble, decodeReader_singleOffset,
    decodeReader_doubleOffset] at ht ⊢
  rw [storesAvoid_append, storesAvoid_append, storesAvoid_append] at ht
  obtain ⟨h1, h2, h3, h4⟩ := ht
  have e1 := tableLoop_eq_if (readRegions L true m0) m0 L.unk2c.sizeof L.unk2c.num_address
    [L.unk2c.address] (decodeAnimTreeSingle L) (patchAnimTreeSingleAt L) storesAnimTreeSingle
    (fun loc m c => patchAnimTreeSingleAt_eq L (readRegions L true m0) m0 loc m c)
    (L.GetAnimTreeSingleOffset.get m0 0 ≠ 0)
    (L.GetAnimTreeSingleCount.get m0 0) (L.GetAnimTreeSingleOffset.get m0 0) m0 ctx hR1
    (Agree.refl _ _) h1
  have hA1 := (Agree.refl (readRegions L true m0) m0).stores _ _ h1
  have e2 := tableLoop_eq (readRegions L true m0) m0 L.str.sizeof
    L.str.num_address [L.str.string] (decodeString L)
    (patchStringAt L) (storesString (decodeReader L m0))
    (fun loc m c => patchStringAt_eq L (readRegions L true m0) m0 loc m c)
    (L.GetStringsCount.get m0 0) (L.GetStringsOffset.get m0 0) _ _ hR2 hA1 h2
  have hA2 := hA1.stores _ _ h2
  have e3 := tableLoop_eq (readRegions L true m0) m0 L.imp64.sizeof L.imp64.num_address
    [L.imp64.name, L.imp64.name_space, L.imp64.param_count, L.imp64.flags] (decodeImport64 L)
    (patchImport64At L) storesImport64
    (fun loc m c => patchImport64At_eq L (readRegions L true m0) m0 loc m c)
    (L.GetImportsCount.get m0 0) (L.GetImportsOffset.get m0 0) _ _ hR3 hA2 h3
  have hA3 := hA2.stores _ _ h3
  have e4 := tableLoop_eq_if (readRegions L true m0) m0 12 ⟨0, 4⟩ [⟨4, 4⟩, ⟨8, 4⟩]
    decodeAnimTreeDouble patchAnimTreeDoubleAt storesAnimTreeDouble
    (fun loc m c => patchAnimTreeDoubleAt_eq (readRegions L true m0) m0 loc m c)
    (L.GetAnimTreeDoubleOffset.get m0 0 ≠ 0)
    (L.GetAnimTreeDoubleCount.get m0 0) (L.GetAnimTreeDoubleOffset.get m0 0) _ _ hR4 hA3 h4
  simp only [PatchCodeBlob, if_true]
  rw [e1]
  simp only []
  rw [hA1.get L.GetStringsCount 0 (hhd _ (by simp)),
    hA1.get L.GetStringsOffset 0 (hhd _ (by simp)), e2]
  simp only []
  rw [hA2.get L.GetImportsCount 0 (hhd _ (by simp)),
    hA2.get L.GetImportsOffset 0 (hhd _ (by simp)), e3]
  simp only []
  rw [hA3.get L.GetAnimTreeDoubleCount 0 (hhd _ (by simp)),
    hA3.get L.GetAnimTreeDoubleOffset 0 (hhd _ (by simp)), e4]
  simp only [applyStores_append]

/-- When no store of the run lands on a header field or a table it reads, patching the
blob in place is the run of the stores that the tables listed before patching give, in
order, with the context they leave. -/
theorem PatchCodeBlob_eq_stores (L : BlobLayout) (hash64 : Bool) (F : T8GSCImportFlags)
    (m0 : Mem) (ctx : T8GSCOBJContext)
    (ht : storesAvoid (PatchCodeStores hash64 F (decodeReader L m0) ctx).1
      (readRegions L hash64 m0)) :
    PatchCodeBlob L hash64 F (m0, ctx) =
      (applyStores m0 (PatchCodeStores hash64 F (decodeReader L m0) ctx).1,
        (PatchCodeStores hash64 F (decodeReader L m0) ctx).2) := by
  cases hash64
  · exact PatchCodeBlob_eq_stores_treyarch L F m0 ctx ht
  · exact PatchCodeBlob_eq_stores_hash64 L F m0 ctx ht

/-- When no store of the run lands on a header field or a table it reads, patching the
blob in place and patching over the tables decoded beforehand give the same blob and the
same context. -/
theorem PatchCodeBlob_eq_PatchCode (L : BlobLayout) (hash64 : Bool) (F : T8GSCImportFlags)
    (m0 : Mem) (ctx : T8GSCOBJContext)
    (ht : storesAvoid (PatchCodeStores hash64 F (decodeReader L m0) ctx).1
      (readRegions L hash64 m0)) :
    PatchCodeBlob L hash64 F (m0, ctx) = PatchCode hash64 F (decodeReader L m0) (m0, ctx) := by
  rw [PatchCodeBlob_eq_stores L hash64 F m0 ctx ht, PatchCode_eq_stores]

/-! ## Link patching on the blob: the inner loop never runs out of turns -/

/-- The bound `256 ^ width` on the turns of a fixup loop is never reached: any two
bounds that cover the largest value the count field can hold give the same run. -/
theorem siteLoop_fuel (num_address : Mem → Nat)
    (site : Mem × T8GSCOBJContext → Nat → Mem × T8GSCOBJContext) (bound : Nat)
    (hb : ∀ m, num_address m < bound) :
    ∀ fuel1 fuel2 j s, bound ≤ j + fuel1 → bound ≤ j + fuel2 →
      siteLoop num_address site fuel1 j s = siteLoop num_address site fuel2 j s := by
  intro fuel1
  induction fuel1 with
  | zero =>
    intro fuel2 j s h1 _
    have hj : ¬ j < num_address s.1 := by have := hb s.1; omega
    cases fuel2 with
    | zero => rfl
    | succ f2 => simp only [siteLoop, hj, if_false]
  | succ f1 ih =>
    intro fuel2 j s h1 h2
    cases fuel2 with
    | zero =>
      have hj : ¬ j < num_address s.1 := by have := hb s.1; omega
      simp only [siteLoop, hj, if_false]
    | succ f2 =>
      simp only [siteLoop]
      split_ifs
      · exact ih f2 (j + 1) _ (by omega) (by omega)
      · rfl

/-! ## Link patching on the blob: import words (Treyarch family) -/

theorem tracePhase_storesImport_mem (F : T8GSCImportFlags) (remap : Nat → Nat) :
    ∀ (es : List T8GSCImport) (ctx : T8GSCOBJContext) (imp : T8GSCImport) (o : Nat)
      (s : Store), imp ∈ es → o ∈ imp.fixups → s ∈ storesImportSite F remap imp o →
      s ∈ (tracePhase (storesImport F remap) ctx es).1 := by
  intro es
  induction es with
  | nil => intro ctx imp o s h; cases h
  | cons e t ih =>
    intro ctx imp o s hi ho hs
    rw [tracePhase_cons]
    rcases List.mem_cons.mp hi with rfl | hmem
    · apply List.mem_append_left
      simp only [storesImport, List.mem_flatten, List.mem_map]
      exact ⟨_, ⟨o, ho, rfl⟩, hs⟩
    · exact List.mem_append_right _ (ih _ imp o s hmem ho hs)

/-- C3 as stated fails: a Treyarch blob lists one `FUNCTION` import (name `0x11223344`)
with the callsites `0x80` and `0x86`.  For the callsite `0x80` the word `p` is at
`0x88`, which is also the place of the parameter-count byte of the callsite `0x86`:
after `PatchCode` the word at `0x88` is not the import's name. -/
theorem PatchCodeBlob_import_words_counterexample :
    (decodeReader sampleLayout twoCallsitesBlob).imports =
      [⟨0x11223344, 0x55667788, 3, 2, [0x80, 0x86]⟩] ∧
    importFlags.isKnown (sampleLayout.RemapFlagsImport 2 &&& importFlags.CALLTYPE_MASK) ∧
    sampleLayout.RemapFlagsImport 2 &&& importFlags.CALLTYPE_MASK ≠ importFlags.FUNC_METHOD ∧
    alignUp 8 (0x80 + 3) = 0x88 ∧ 0x86 + 2 = 0x88 ∧
    readU32 (PatchCodeBlob sampleLayout false importFlags
      (twoCallsitesBlob, T8GSCOBJContext.fresh)).1 0x88 = 0x11223303 ∧
    ¬ ∃ p, p % 8 = 0 ∧ 0x80 + 3 ≤ p ∧ p < 0x80 + 3 + 8 ∧
      readU32 (PatchCodeBlob sampleLayout false importFlags
        (twoCallsitesBlob, T8GSCOBJContext.fresh)).1 p = 0x11223344 := by
  refine ⟨by decide, by decide, by decide, by decide, by decide, by decide, ?_⟩
  rintro ⟨p, h1, h2, h3, h4⟩
  have hp : p = 0x88 := by omega
  subst hp
  revert h4
  decide

/-- C3 (amended): on the Treyarch path, when the stores of the run are pairwise disjoint
and none lands on a header field or a table that `PatchCode` reads, then after
`PatchCode`, for every import entry whose remapped call kind is one of the seven known
kinds and every fixup `o` of it, the 32-bit word at `p` holds the import's name and the
word at `p + 4` holds the import's namespace when the remapped flags lack `GET_CALL` and
the sentinel `0xc1243180` when they have it; `p` is the least multiple of 8 that is at
least `o + 2` for `FUNC_METHOD` and at least `o + 3` for the six other kinds. -/
theorem PatchCodeBlob_import_words (L : BlobLayout) (F : T8GSCImportFlags) (m : Mem)
    (ctx : T8GSCOBJContext)
    (hd : (PatchCodeStores false F (decodeReader L m) ctx).1.Pairwise Store.disjoint)
    (ht : storesAvoid (PatchCodeStores false F (decodeReader L m) ctx).1
      (readRegions L false m)) :
    ∀ imp ∈ (decodeReader L m).imports,
      F.isKnown (L.RemapFlagsImport imp.flags &&& F.CALLTYPE_MASK) →
      imp.name < 4294967296 → imp.import_namespace < 4294967296 →
      ∀ o ∈ imp.fixups, ∃ p base,
        base = (if L.RemapFlagsImport imp.flags &&& F.CALLTYPE_MASK = F.FUNC_METHOD
          then o + 2 else o + 3) ∧
        p % 8 = 0 ∧ base ≤ p ∧ p < base + 8 ∧
        readU32 (PatchCodeBlob L false F (m, ctx)).1 p = imp.name ∧
        readU32 (PatchCodeBlob L false F (m, ctx)).1 (p + 4) =
          (if L.RemapFlagsImport imp.flags &&& F.GET_CALL ≠ 0 then 0xc1243180
            else imp.import_namespace) := by
  intro imp himp hk hname hns o ho
  rw [PatchCodeBlob_eq_stores L false F m ctx ht]
  have hmem : ∀ s ∈ storesImportSite F L.RemapFlagsImport imp o,
      s ∈ (PatchCodeStores false F (decodeReader L m) ctx).1 := by
    intro s hs
    simp only [PatchCodeStores, Bool.false_eq_true, if_false]
    exact List.mem_append_left _
      (tracePhase_storesImport_mem F L.RemapFlagsImport _ ctx imp o s himp ho hs)
  have hword : ∀ q v, v < 4294967296 →
      (⟨q, 4, v⟩ : Store) ∈ storesImportSite F L.RemapFlagsImport imp o →
      readU32 (applyStores m (PatchCodeStores false F (decodeReader L m) ctx).1) q = v := by
    intro q v hv hs
    rw [readU32_of_store _ q v]
    · exact Nat.mod_eq_of_lt hv
    · intro a ha
      exact applyStores_of_pairwise _ m ⟨q, 4, v⟩ a hd (hmem _ hs) ha
  have hsent : (if L.RemapFlagsImport imp.flags &&& F.GET_CALL ≠ 0 then 0xc1243180
      else imp.import_namespace) < 4294967296 := by
    split_ifs <;> omega
  by_cases hfm : L.RemapFlagsImport imp.flags &&& F.CALLTYPE_MASK = F.FUNC_METHOD
  · refine ⟨alignUp 8 (o + 2), o + 2, by simp [hfm], alignUp8_mod _, alignUp8_ge _,
      alignUp8_lt _, ?_, ?_⟩
    · exact hword _ _ hname (by simp [storesImportSite, hfm])
    · exact hword _ _ hsent (by simp [storesImportSite, hfm])
  · have h6 : F.isCall (L.RemapFlagsImport imp.flags &&& F.CALLTYPE_MASK) := by
      rcases hk with h | h
      · exact absurd h hfm
      · exact h
    refine ⟨alignUp 8 (o + 3), o + 3, by simp [hfm], alignUp8_mod _, alignUp8_ge _,
      alignUp8_lt _, ?_, ?_⟩
    · exact hword _ _ hname (by simp [storesImportSite, hfm, h6])
    · exact hword _ _ hsent (by simp [storesImportSite, hfm, h6])

/-- Witness of `PatchCodeBlob_import_words`: the blob with one import on two callsites,
two global variables and two strings on disjoint fixups. -/
theorem PatchCodeBlob_import_words_witness :
    ((PatchCodeStores false importFlags (decodeReader sampleLayout disjointBlob)
        T8GSCOBJContext.fresh).1.Pairwise Store.disjoint ∧
      storesAvoid (PatchCodeStores false importFlags (decodeReader sampleLayout disjointBlob)
        T8GSCOBJContext.fresh).1 (readRegions sampleLayout false disjointBlob)) ∧
    ∀ imp ∈ (decodeReader sampleLayout disjointBlob).imports,
      importFlags.isKnown (sampleLayout.RemapFlagsImport imp.flags &&&
        importFlags.CALLTYPE_MASK) →
      imp.name < 4294967296 → imp.import_namespace < 4294967296 →
      ∀ o ∈ imp.fixups, ∃ p base,
        base = (if sampleLayout.RemapFlagsImport imp.flags &&& importFlags.CALLTYPE_MASK =
          importFlags.FUNC_METHOD then o + 2 else o + 3) ∧
        p % 8 = 0 ∧ base ≤ p ∧ p < base + 8 ∧
        readU32 (PatchCodeBlob sampleLayout false importFlags
          (disjointBlob, T8GSCOBJContext.fresh)).1 p = imp.name ∧
        readU32 (PatchCodeBlob sampleLayout false importFlags
          (disjointBlob, T8GSCOBJContext.fresh)).1 (p + 4) =
          (if sampleLayout.RemapFlagsImport imp.flags &&& importFlags.GET_CALL ≠ 0
            then 0xc1243180 else imp.import_namespace) :=
  ⟨⟨by decide, by decide⟩,
    PatchCodeBlob_import_words sampleLayout importFlags disjointBlob T8GSCOBJContext.fresh
      (by decide) (by decide)⟩

/-! ## Link patching on the blob: range and overlap -/

/-- C6 as stated fails.  On a Treyarch blob of file size `0x100`, no store of the run
lands on the header or on a table, and `PatchCode` stores at the listed global-variable
fixup `0x200` (the byte there changes) and twice at `0x90`, listed by two string entries
(the word there ends as the index `1` of the second).  On a second blob a
global-variable fixup is the place of a string entry's fixup slot: `PatchCode` changes the
byte `0`, which no listed fixup covers. -/
theorem PatchCodeBlob_range_overlap_counterexample :
    (sampleLayout.GetFileSize.get outOfRangeBlob 0 = 0x100 ∧
      (decodeReader sampleLayout outOfRangeBlob).gvars = [⟨7, [0xA0]⟩, ⟨9, [0x200]⟩] ∧
      (decodeReader sampleLayout outOfRangeBlob).strings =
        [⟨0xE0, [0x90]⟩, ⟨0xE4, [0x90]⟩] ∧
      storesAvoid (PatchCodeStores false importFlags (decodeReader sampleLayout outOfRangeBlob)
        T8GSCOBJContext.fresh).1 (readRegions sampleLayout false outOfRangeBlob) ∧
      (PatchCodeBlob sampleLayout false importFlags
        (outOfRangeBlob, T8GSCOBJContext.fresh)).1 0x200 ≠ outOfRangeBlob 0x200 ∧
      readU32 (PatchCodeBlob sampleLayout false importFlags
        (outOfRangeBlob, T8GSCOBJContext.fresh)).1 0x90 = 1 ∧
      ¬ (∀ s ∈ (PatchCodeStores false importFlags (decodeReader sampleLayout outOfRangeBlob)
          T8GSCOBJContext.fresh).1, s.inRange (sampleLayout.GetFileSize.get outOfRangeBlob 0)) ∧
      ¬ (PatchCodeStores false importFlags (decodeReader sampleLayout outOfRangeBlob)
          T8GSCOBJContext.fresh).1.Pairwise Store.disjoint) ∧
    ((decodeReader sampleLayout slotHitBlob).gvars = [⟨7, [0x50]⟩] ∧
      (decodeReader sampleLayout slotHitBlob).strings = [⟨0xE0, [0x90]⟩, ⟨0xE4, [0x94]⟩] ∧
      (PatchCodeBlob sampleLayout false importFlags
        (slotHitBlob, T8GSCOBJContext.fresh)).1 0 ≠ slotHitBlob 0 ∧
      ∀ s ∈ (PatchCodeStores false importFlags (decodeReader sampleLayout slotHitBlob)
          T8GSCOBJContext.fresh).1, ¬ s.covers 0) := by
  refine ⟨⟨by decide, by decide, by decide, by decide, by decide, by decide, by decide,
    by decide⟩, ⟨by decide, by decide, by decide, by decide⟩⟩

/-- C6 (amended): `PatchCode` checks neither range nor overlap.  When no store derived
from the fixups the tables list before patching lands on a header field or on a table
that `PatchCode` reads, it stores exactly at the regions derived from those fixups:
every byte that differs from the original blob lies in one of those regions; when all of
them lie in `[0, file_size)` no byte at or beyond `file_size` is changed; and when they
are pairwise disjoint every byte of a region holds the value of the one store that
covers it. -/
theorem PatchCodeBlob_stores_frame (L : BlobLayout) (hash64 : Bool) (F : T8GSCImportFlags)
    (m : Mem) (ctx : T8GSCOBJContext)
    (ht : storesAvoid (PatchCodeStores hash64 F (decodeReader L m) ctx).1
      (readRegions L hash64 m)) :
    (∀ a, (PatchCodeBlob L hash64 F (m, ctx)).1 a ≠ m a →
      ∃ s ∈ (PatchCodeStores hash64 F (decodeReader L m) ctx).1, s.covers a) ∧
    ((∀ s ∈ (PatchCodeStores hash64 F (decodeReader L m) ctx).1,
        s.inRange (L.GetFileSize.get m 0)) →
      ∀ a, L.GetFileSize.get m 0 ≤ a → (PatchCodeBlob L hash64 F (m, ctx)).1 a = m a) ∧
    ((PatchCodeStores hash64 F (decodeReader L m) ctx).1.Pairwise Store.disjoint →
      ∀ s ∈ (PatchCodeStores hash64 F (decodeReader L m) ctx).1, ∀ a, s.covers a →
        (PatchCodeBlob L hash64 F (m, ctx)).1 a = s.value / 256 ^ (a - s.off) % 256) := by
  rw [PatchCodeBlob_eq_PatchCode L hash64 F m ctx ht]
  exact PatchCode_stores_frame hash64 F (decodeReader L m) m ctx

/-- Witness of `PatchCodeBlob_stores_frame`: the Treyarch blob with one import, two
global variables and two strings on disjoint fixups. -/
theorem PatchCodeBlob_stores_frame_witness :
    storesAvoid (PatchCodeStores false importFlags (decodeReader sampleLayout disjointBlob)
      T8GSCOBJContext.fresh).1 (readRegions sampleLayout false disjointBlob) ∧
    ((∀ a, (PatchCodeBlob sampleLayout false importFlags
        (disjointBlob, T8GSCOBJContext.fresh)).1 a ≠ disjointBlob a →
      ∃ s ∈ (PatchCodeStores false importFlags (decodeReader sampleLayout disjointBlob)
        T8GSCOBJContext.fresh).1, s.covers a) ∧
    ((∀ s ∈ (PatchCodeStores false importFlags (decodeReader sampleLayout disjointBlob)
        T8GSCOBJContext.fresh).1, s.inRange (sampleLayout.GetFileSize.get disjointBlob 0)) →
      ∀ a, sampleLayout.GetFileSize.get disjointBlob 0 ≤ a →
        (PatchCodeBlob sampleLayout false importFlags
          (disjointBlob, T8GSCOBJContext.fresh)).1 a = disjointBlob a) ∧
    ((PatchCodeStores false importFlags (decodeReader sampleLayout disjointBlob)
        T8GSCOBJContext.fresh).1.Pairwise Store.disjoint →
      ∀ s ∈ (PatchCodeStores false importFlags (decodeReader sampleLayout disjointBlob)
        T8GSCOBJContext.fresh).1, ∀ a, s.covers a →
        (PatchCodeBlob sampleLayout false importFlags
          (disjointBlob, T8GSCOBJContext.fresh)).1 a = s.value / 256 ^ (a - s.off) % 256)) :=
  ⟨by decide,
    PatchCodeBlob_stores_frame sampleLayout false importFlags disjointBlob
      T8GSCOBJContext.fresh (by decide)⟩

/-! ## Link patching on the blob: interned indices (Treyarch family) -/

/-- C7 as stated fails.  A Treyarch blob of file size `0x100` lists one global variable
with the fixup `0x50` and two strings with the fixups `0x90` and `0x94`: the regions
`[0x50, 0x52)`, `[0x90, 0x94)` and `[0x94, 0x98)` are in range and pairwise disjoint.
But `0x50` is the place of the second string's fixup slot, so the index of the second
string is stored at offset `0`, and the word at its fixup `0x94` is `0`, the index of the
first string. -/
theorem PatchCodeBlob_treyarch_interned_counterexample :
    (decodeReader sampleLayout slotHitBlob).gvars = [⟨7, [0x50]⟩] ∧
    (decodeReader sampleLayout slotHitBlob).strings = [⟨0xE0, [0x90]⟩, ⟨0xE4, [0x94]⟩] ∧
    (PatchCodeStores false importFlags (decodeReader sampleLayout slotHitBlob)
      T8GSCOBJContext.fresh).1 = [⟨0x50, 2, 0⟩, ⟨0x90, 4, 0⟩, ⟨0x94, 4, 1⟩] ∧
    (∀ s ∈ (PatchCodeStores false importFlags (decodeReader sampleLayout slotHitBlob)
      T8GSCOBJContext.fresh).1, s.inRange (sampleLayout.GetFileSize.get slotHitBlob 0)) ∧
    (PatchCodeStores false importFlags (decodeReader sampleLayout slotHitBlob)
      T8GSCOBJContext.fresh).1.Pairwise Store.disjoint ∧
    readU32 (PatchCodeBlob sampleLayout false importFlags
      (slotHitBlob, T8GSCOBJContext.fresh)).1 0 = 1 ∧
    readU32 (PatchCodeBlob sampleLayout false importFlags
      (slotHitBlob, T8GSCOBJContext.fresh)).1 0x94 = 0 ∧
    (PatchCodeBlob sampleLayout false importFlags
      (slotHitBlob, T8GSCOBJContext.fresh)).2.GetStringValue 0 =
        some (sampleLayout.DecryptString 0xE0) ∧
    sampleLayout.DecryptString 0xE0 ≠ sampleLayout.DecryptString 0xE4 := by
  refine ⟨by decide, by decide, by decide, by decide, by decide, by decide, by decide,
    by decide, by decide⟩

/-- C7 (amended): after `PatchCode` on a Treyarch-family blob (fresh context, 16-bit
table counts) whose stores are pairwise disjoint and land on no header field and no
table that `PatchCode` reads, the 32-bit value at every fixup of a string entry is an id
whose `GetStringValue` is the entry's decrypted string, and the 16-bit value at every
fixup of a global-variable entry is an id whose `GetGlobalVarName` is the entry's name
hash. -/
theorem PatchCodeBlob_treyarch_interned (L : BlobLayout) (F : T8GSCImportFlags) (m : Mem)
    (hg : (decodeReader L m).gvars.length < 65536)
    (hs : (decodeReader L m).strings.length < 65536)
    (hd : (PatchCodeStores false F (decodeReader L m) T8GSCOBJContext.fresh).1.Pairwise
      Store.disjoint)
    (ht : storesAvoid (PatchCodeStores false F (decodeReader L m) T8GSCOBJContext.fresh).1
      (readRegions L false m)) :
    (∀ e ∈ (decodeReader L m).strings, ∀ o ∈ e.fixups, ∃ id,
      readU32 (PatchCodeBlob L false F (m, T8GSCOBJContext.fresh)).1 o = id ∧
      (PatchCodeBlob L false F (m, T8GSCOBJContext.fresh)).2.GetStringValue id =
        some (L.DecryptString e.string)) ∧
    (∀ g ∈ (decodeReader L m).gvars, ∀ o ∈ g.fixups, ∃ id,
      readU16 (PatchCodeBlob L false F (m, T8GSCOBJContext.fresh)).1 o = id ∧
      mapFind (PatchCodeBlob L false F (m, T8GSCOBJContext.fresh)).2.m_gvars id =
        some g.name ∧
      (PatchCodeBlob L false F (m, T8GSCOBJContext.fresh)).2.GetGlobalVarName id = g.name) := by
  rw [PatchCodeBlob_eq_PatchCode L false F m T8GSCOBJContext.fresh ht]
  exact PatchCode_treyarch_interned F (decodeReader L m) m hg hs hd

/-- Witness of `PatchCodeBlob_treyarch_interned`: the Treyarch blob with one import,
two global variables and two strings on disjoint fixups. -/
theorem PatchCodeBlob_treyarch_interned_witness :
    ((decodeReader sampleLayout disjointBlob).gvars.length < 65536 ∧
      (decodeReader sampleLayout disjointBlob).strings.length < 65536 ∧
      (PatchCodeStores false importFlags (decodeReader sampleLayout disjointBlob)
        T8GSCOBJContext.fresh).1.Pairwise Store.disjoint ∧
      storesAvoid (PatchCodeStores false importFlags (decodeReader sampleLayout disjointBlob)
        T8GSCOBJContext.fresh).1 (readRegions sampleLayout false disjointBlob)) ∧
    ((∀ e ∈ (decodeReader sampleLayout disjointBlob).strings, ∀ o ∈ e.fixups, ∃ id,
      readU32 (PatchCodeBlob sampleLayout false importFlags
        (disjointBlob, T8GSCOBJContext.fresh)).1 o = id ∧
      (PatchCodeBlob sampleLayout false importFlags
        (disjointBlob, T8GSCOBJContext.fresh)).2.GetStringValue id =
        some (sampleLayout.DecryptString e.string)) ∧
    (∀ g ∈ (decodeReader sampleLayout disjointBlob).gvars, ∀ o ∈ g.fixups, ∃ id,
      readU16 (PatchCodeBlob sampleLayout false importFlags
        (disjointBlob, T8GSCOBJContext.fresh)).1 o = id ∧
      mapFind (PatchCodeBlob sampleLayout false importFlags
        (disjointBlob, T8GSCOBJContext.fresh)).2.m_gvars id = some g.name ∧
      (PatchCodeBlob sampleLayout false importFlags
        (disjointBlob, T8GSCOBJContext.fresh)).2.GetGlobalVarName id = g.name)) :=
  ⟨⟨by decide, by decide, by decide, by decide⟩,
    PatchCodeBlob_treyarch_interned sampleLayout importFlags disjointBlob
      (by decide) (by decide) (by decide) (by decide)⟩

/-! ## Link patching on the blob: linked imports (wide-hash family) -/

/-- C8 as stated fails.  A wide-hash blob of file size `0x200` lists two imports with
the callsites `0x100` and `0x104`: the import fixup regions `[0x100, 0x102)` and
`[0x104, 0x106)` are in range and disjoint.  A double-animtree entry lists the fixup
`0x104` too and is patched after the imports: the 16-bit value at the callsite `0x104`
of the second import ends as `0`, and `m_linkedImports[0]` is the record of the first
import. -/
theorem PatchCodeBlob_hash64_linked_imports_counterexample :
    (decodeReader sampleLayout clobberedImportBlob64).imports64 =
      [⟨0xA, 1, 0, 4, [0x100]⟩, ⟨0xB, 1, 0, 4, [0x104]⟩] ∧
    (decodeReader sampleLayout clobberedImportBlob64).animTreeDouble =
      [⟨0xE0, 0xE4, [0x104]⟩] ∧
    (tracePhase storesImport64 T8GSCOBJContext.fresh
      (decodeReader sampleLayout clobberedImportBlob64).imports64).1 =
      [⟨0x100, 2, 0⟩, ⟨0x104, 2, 1⟩] ∧
    (∀ s ∈ (tracePhase storesImport64 T8GSCOBJContext.fresh
      (decodeReader sampleLayout clobberedImportBlob64).imports64).1,
      s.inRange (sampleLayout.GetFileSize.get clobberedImportBlob64 0)) ∧
    (tracePhase storesImport64 T8GSCOBJContext.fresh
      (decodeReader sampleLayout clobberedImportBlob64).imports64).1.Pairwise
        Store.disjoint ∧
    readU16 (PatchCodeBlob sampleLayout true importFlags
      (clobberedImportBlob64, T8GSCOBJContext.fresh)).1 0x104 = 0 ∧
    (PatchCodeBlob sampleLayout true importFlags
      (clobberedImportBlob64, T8GSCOBJContext.fresh)).2.m_linkedImports[0]? =
        some ⟨0xA, 1, 0, 4, [0x100]⟩ := by
  refine ⟨by decide, by decide, by decide, by decide, by decide, by decide, by decide⟩

/-- C8 (amended): after `PatchCode` on a wide-hash blob (fresh context) whose stores,
those of every table, are pairwise disjoint and land on no header field and no table
that `PatchCode` reads, and whose import table lists at most 65536 fixups in total, the
16-bit value at every fixup of every import entry is an index `h` such that
`m_linkedImports[h]` is that import entry's record. -/
theorem PatchCodeBlob_hash64_linked_imports (L : BlobLayout) (F : T8GSCImportFlags)
    (m : Mem)
    (hn : totalFixups64 (decodeReader L m).imports64 ≤ 65536)
    (hd : (PatchCodeStores true F (decodeReader L m) T8GSCOBJContext.fresh).1.Pairwise
      Store.disjoint)
    (ht : storesAvoid (PatchCodeStores true F (decodeReader L m) T8GSCOBJContext.fresh).1
      (readRegions L true m)) :
    ∀ imp ∈ (decodeReader L m).imports64, ∀ o ∈ imp.fixups, ∃ h,
      readU16 (PatchCodeBlob L true F (m, T8GSCOBJContext.fresh)).1 o = h ∧
      (PatchCodeBlob L true F (m, T8GSCOBJContext.fresh)).2.m_linkedImports[h]? =
        some imp := by
  rw [PatchCodeBlob_eq_PatchCode L true F m T8GSCOBJContext.fresh ht]
  exact PatchCode_hash64_linked_imports F (decodeReader L m) m hn hd

/-- Witness of `PatchCodeBlob_hash64_linked_imports`: the wide-hash blob with two
single-animtree entries, a string, two imports on three callsites and a double-animtree
entry on disjoint fixups. -/
theorem PatchCodeBlob_hash64_linked_imports_witness :
    (totalFixups64 (decodeReader sampleLayout disjointBlob64).imports64 ≤ 65536 ∧
      (PatchCodeStores true importFlags (decodeReader sampleLayout disjointBlob64)
        T8GSCOBJContext.fresh).1.Pairwise Store.disjoint ∧
      storesAvoid (PatchCodeStores true importFlags (decodeReader sampleLayout disjointBlob64)
        T8GSCOBJContext.fresh).1 (readRegions sampleLayout true disjointBlob64)) ∧
    ∀ imp ∈ (decodeReader sampleLayout disjointBlob64).imports64, ∀ o ∈ imp.fixups, ∃ h,
      readU16 (PatchCodeBlob sampleLayout true importFlags
        (disjointBlob64, T8GSCOBJContext.fresh)).1 o = h ∧
      (PatchCodeBlob sampleLayout true importFlags
        (disjointBlob64, T8GSCOBJContext.fresh)).2.m_linkedImports[h]? = some imp :=
  ⟨⟨by decide, by decide, by decide⟩,
    PatchCodeBlob_hash64_linked_imports sampleLayout importFlags disjointBlob64
      (by decide) (by decide) (by decide)⟩

/-! ## Link patching on the blob: single animtrees (wide-hash family) -/

theorem decodeTable_length {E : Type} (sizeof : Nat) (num_address : Field)
    (dec : Mem → Nat → E) (m : Mem) :
    ∀ n loc, (decodeTable sizeof num_address dec m n loc).length = n := by
  intro n
  induction n with
  | zero => intro loc; rfl
  | succ n ih => intro loc; simp only [decodeTable, List.length_cons, ih]

theorem decodeTable_take {E : Type} (sizeof : Nat) (num_address : Field)
    (dec : Mem → Nat → E) (m : Mem) :
    ∀ n k loc, k ≤ n → decodeTable sizeof num_address dec m k loc =
      (decodeTable sizeof num_address dec m n loc).take k := by
  intro n
  induction n with
  | zero =>
    intro k loc hk
    have h0 : k = 0 := by omega
    subst h0
    rfl
  | succ n ih =>
    intro k loc hk
    cases k with
    | zero => rfl
    | succ k =>
      simp only [decodeTable, List.take_succ_cons]
      rw [ih k _ (by omega)]

theorem tableRegions_take (sizeof : Nat) (num_address : Field) (fields : List Field)
    (m : Mem) :
    ∀ n k loc, k ≤ n → ∀ rg ∈ tableRegions sizeof num_address fields m k loc,
      rg ∈ tableRegions sizeof num_address fields m n loc := by
  intro n
  induction n with
  | zero =>
    intro k loc hk rg h
    have h0 : k = 0 := by omega
    subst h0
    exact h
  | succ n ih =>
    intro k loc hk rg h
    cases k with
    | zero => cases h
    | succ k =>
      simp only [tableRegions, List.mem_append] at h ⊢
      rcases h with h | h
      · exact Or.inl h
      · exact Or.inr (ih k _ (by omega) rg h)

theorem tracePhase_take_mem {E : Type}
    (f : T8GSCOBJContext → E → List Store × T8GSCOBJContext) :
    ∀ (es : List E) (k : Nat) (c : T8GSCOBJContext) (s : Store),
      s ∈ (tracePhase f c (es.take k)).1 → s ∈ (tracePhase f c es).1 := by
  intro es
  induction es with
  | nil => intro k c s h; simpa using h
  | cons e t ih =>
    intro k c s h
    cases k with
    | zero => cases h
    | succ k =>
      simp only [List.take_succ_cons, tracePhase_cons, List.mem_append] at h ⊢
      rcases h with h | h
      · exact Or.inl h
      · exact Or.inr (ih k _ s h)

/-- The context the single-animtree loop has reached after `k` entries, when no store of
the loop lands on what `PatchCode` reads: the one the first `k` entries listed before
patching give. -/
theorem tableLoop_animTreeSingle_take (L : BlobLayout) (F : T8GSCImportFlags) (m : Mem)
    (ctx : T8GSCOBJContext) (hoff : L.GetAnimTreeSingleOffset.get m 0 ≠ 0)
    (ht : storesAvoid (PatchCodeStores true F (decodeReader L m) ctx).1
      (readRegions L true m))
    (k : Nat) (hk : k ≤ L.GetAnimTreeSingleCount.get m 0) :
    (tableLoop L.unk2c.sizeof L.unk2c.num_address (patchAnimTreeSingleAt L) k
      (L.GetAnimTreeSingleOffset.get m 0) (m, ctx)).2 =
      (tracePhase storesAnimTreeSingle ctx ((decodeReader L m).animTreeSingle.take k)).2 := by
  have hR1 : ∀ rg ∈ tableRegions L.unk2c.sizeof L.unk2c.num_address [L.unk2c.address] m
      (L.GetAnimTreeSingleCount.get m 0) (L.GetAnimTreeSingleOffset.get m 0),
      rg ∈ readRegions L true m := by
    intro rg h
    unfold readRegions
    rw [if_pos rfl, if_pos hoff]
    exact List.mem_append_right _ (List.mem_append_left _ (List.mem_append_left _
      (List.mem_append_left _ h)))
  simp only [PatchCodeStores, if_true, decodeReader_singleOffset] at ht
  rw [if_pos hoff, storesAvoid_append] at ht
  rw [decodeReader_animTreeSingle, ← decodeTable_take _ _ _ _ _ k _ hk]
  have hav : storesAvoid (tracePhase storesAnimTreeSingle ctx
      (decodeTable L.unk2c.sizeof L.unk2c.num_address (decodeAnimTreeSingle L) m k
        (L.GetAnimTreeSingleOffset.get m 0))).1 (readRegions L true m) := by
    intro s hs
    rw [decodeTable_take _ _ _ _ _ k _ hk] at hs
    exact ht.1 s (tracePhase_take_mem _ _ _ _ _ hs)
  rw [tableLoop_eq (readRegions L true m) m L.unk2c.sizeof L.unk2c.num_address
    [L.unk2c.address] (decodeAnimTreeSingle L) (patchAnimTreeSingleAt L) storesAnimTreeSingle
    (fun loc m1 c => patchAnimTreeSingleAt_eq L (readRegions L true m) m loc m1 c)
    k (L.GetAnimTreeSingleOffset.get m 0) m ctx
    (fun rg h => hR1 rg (tableRegions_take _ _ _ _ _ k _ hk rg h))
    (Agree.refl _ _) hav]

/-- C2 as stated fails: a wide-hash blob lists two single-animtree entries with the
same fixup `0x100`.  No store lands on the header or on the table, the index
`AddStringValue` returns for the string of the first entry is `0`, and the byte at
`0x100` ends as `1`. -/
theorem PatchCodeBlob_hash64_animtree_single_counterexample :
    (decodeReader sampleLayout sharedFixupBlob64).animTreeSingle =
      [⟨0xE0, [0x100]⟩, ⟨0xE4, [0x100]⟩] ∧
    storesAvoid (PatchCodeStores true importFlags (decodeReader sampleLayout sharedFixupBlob64)
      T8GSCOBJContext.fresh).1 (readRegions sampleLayout true sharedFixupBlob64) ∧
    (T8GSCOBJContext.fresh.AddStringValue 0xE0).1 = 0 ∧
    readU8 (PatchCodeBlob sampleLayout true importFlags
      (sharedFixupBlob64, T8GSCOBJContext.fresh)).1 0x100 = 1 := by
  refine ⟨by decide, by decide, by decide, by decide⟩

/-- C2 (amended): on a wide-hash blob (fresh context, single-animtree table present,
16-bit table counts) whose stores are pairwise disjoint and land on no header field and
no table that `PatchCode` reads, for every single-animtree entry, at position `k` of the
table: the index `AddStringValue` returns for the entry's string, in the context the
loop has reached after the `k` entries before it, is `k`; when `k` is at most 255,
`GetStringValue k` is the entry's string after `PatchCode` and the byte at every fixup of
the entry equals `k`; when `k` is above 256, the entry is skipped: in that context the
body of the loop leaves the blob as it is, wherever the entry is and whatever the blob
holds. -/
theorem PatchCodeBlob_hash64_animtree_single (L : BlobLayout) (F : T8GSCImportFlags)
    (m : Mem)
    (hoff : L.GetAnimTreeSingleOffset.get m 0 ≠ 0)
    (hn1 : (decodeReader L m).animTreeSingle.length < 65536)
    (hn2 : (decodeReader L m).strings.length < 65536)
    (hn3 : (decodeReader L m).animTreeDouble.length < 65536)
    (hd : (PatchCodeStores true F (decodeReader L m) T8GSCOBJContext.fresh).1.Pairwise
      Store.disjoint)
    (ht : storesAvoid (PatchCodeStores true F (decodeReader L m) T8GSCOBJContext.fresh).1
      (readRegions L true m)) :
    ∀ k e, (decodeReader L m).animTreeSingle[k]? = some e →
      ((tableLoop L.unk2c.sizeof L.unk2c.num_address (patchAnimTreeSingleAt L) k
        (L.GetAnimTreeSingleOffset.get m 0)
        (m, T8GSCOBJContext.fresh)).2.AddStringValue e.address).1 = k ∧
      (k ≤ 255 →
        (PatchCodeBlob L true F (m, T8GSCOBJContext.fresh)).2.GetStringValue k =
          some e.address ∧
        ∀ o ∈ e.fixups, readU8 (PatchCodeBlob L true F (m, T8GSCOBJContext.fresh)).1 o = k) ∧
      (256 < k → ∀ unk2c_location m1,
        (patchAnimTreeSingleAt L unk2c_location
          (m1, (tableLoop L.unk2c.sizeof L.unk2c.num_address (patchAnimTreeSingleAt L) k
            (L.GetAnimTreeSingleOffset.get m 0) (m, T8GSCOBJContext.fresh)).2)).1 = m1) := by
  intro k e hk
  have hklt : k < (decodeReader L m).animTreeSingle.length := by
    by_contra hcon
    rw [List.getElem?_eq_none (by omega)] at hk
    cases hk
  have hlen : (decodeReader L m).animTreeSingle.length = L.GetAnimTreeSingleCount.get m 0 := by
    rw [decodeReader_animTreeSingle, decodeTable_length]
  rw [tableLoop_animTreeSingle_take L F m T8GSCOBJContext.fresh hoff ht k (by omega)]
  have hlen0 : T8GSCOBJContext.fresh.m_stringRefs.length = 0 := rfl
  obtain ⟨p1, p2, _, _⟩ := tracePhase_storesAnimTreeSingle
    ((decodeReader L m).animTreeSingle.take k) T8GSCOBJContext.fresh Dense.nil
    (by simp only [List.length_take, hlen0]; omega)
  rw [hlen0, List.length_take, Nat.zero_add, Nat.min_eq_left (Nat.le_of_lt hklt)] at p2
  have hadd : ∀ a, (tracePhase storesAnimTreeSingle T8GSCOBJContext.fresh
      ((decodeReader L m).animTreeSingle.take k)).2.AddStringValue a =
      (k, { (tracePhase storesAnimTreeSingle T8GSCOBJContext.fresh
          ((decodeReader L m).animTreeSingle.take k)).2 with
        m_stringRefs := (tracePhase storesAnimTreeSingle T8GSCOBJContext.fresh
          ((decodeReader L m).animTreeSingle.take k)).2.m_stringRefs ++ [(k, a)] }) := by
    intro a
    rw [AddStringValue_dense _ _ p1 (by rw [p2]; omega), p2]
  refine ⟨by rw [hadd], ?_, ?_⟩
  · intro hk255
    rw [PatchCodeBlob_eq_PatchCode L true F m T8GSCOBJContext.fresh ht]
    exact (PatchCode_hash64_animtree_single F (decodeReader L m) m hoff hn1 hn2 hn3 hd
      k e hk hk255).2
  · intro hk256 loc m1
    have hgt : k > 256 := hk256
    simp only [patchAnimTreeSingleAt, hadd, hgt, if_true]

/-- Witness of `PatchCodeBlob_hash64_animtree_single`: the wide-hash blob with two
single-animtree entries, a string, two imports and a double-animtree entry on disjoint
fixups. -/
theorem PatchCodeBlob_hash64_animtree_single_witness :
    (sampleLayout.GetAnimTreeSingleOffset.get disjointBlob64 0 ≠ 0 ∧
      (decodeReader sampleLayout disjointBlob64).animTreeSingle.length < 65536 ∧
      (decodeReader sampleLayout disjointBlob64).strings.length < 65536 ∧
      (decodeReader sampleLayout disjointBlob64).animTreeDouble.length < 65536 ∧
      (PatchCodeStores true importFlags (decodeReader sampleLayout disjointBlob64)
        T8GSCOBJContext.fresh).1.Pairwise Store.disjoint ∧
      storesAvoid (PatchCodeStores true importFlags (decodeReader sampleLayout disjointBlob64)
        T8GSCOBJContext.fresh).1 (readRegions sampleLayout true disjointBlob64)) ∧
    ∀ k e, (decodeReader sampleLayout disjointBlob64).animTreeSingle[k]? = some e →
      ((tableLoop sampleLayout.unk2c.sizeof sampleLayout.unk2c.num_address
        (patchAnimTreeSingleAt sampleLayout) k
        (sampleLayout.GetAnimTreeSingleOffset.get disjointBlob64 0)
        (disjointBlob64, T8GSCOBJContext.fresh)).2.AddStringValue e.address).1 = k ∧
      (k ≤ 255 →
        (PatchCodeBlob sampleLayout true importFlags
          (disjointBlob64, T8GSCOBJContext.fresh)).2.GetStringValue k = some e.address ∧
        ∀ o ∈ e.fixups, readU8 (PatchCodeBlob sampleLayout true importFlags
          (disjointBlob64, T8GSCOBJContext.fresh)).1 o = k) ∧
      (256 < k → ∀ unk2c_location m1,
        (patchAnimTreeSingleAt sampleLayout unk2c_location
          (m1, (tableLoop sampleLayout.unk2c.sizeof sampleLayout.unk2c.num_address
            (patchAnimTreeSingleAt sampleLayout) k
            (sampleLayout.GetAnimTreeSingleOffset.get disjointBlob64 0)
            (disjointBlob64, T8GSCOBJContext.fresh)).2)).1 = m1) :=
  ⟨⟨by decide, by decide, by decide, by decide, by decide, by decide⟩,
    PatchCodeBlob_hash64_animtree_single sampleLayout importFlags disjointBlob64
      (by decide) (by decide) (by decide) (by decide) (by decide) (by decide)⟩

/-! ## Reconstruction passes: the nine passes and their skip bits -/

/-- C14: for a decompiled non-vtable export, `GscInfoHandleData` applies the
reconstruction passes in the fixed order developer blocks, switch, for-each, while, for,
if/else, return jump, boolean return, special patterns, and each of the nine is run if
and only if its skip bit is clear in `m_stepskip`; the eight first tests are those of
`GscInfoHandleData`, the ninth is the one of the modelled `ComputeSpecialPattern`. -/
theorem reconstruct_nine_passes {σ : Type} (K : StepSkip) (work : Pass → σ → σ)
    (m_stepskip : Nat) (asmctx : σ) :
    reconstruct K (callPass K work m_stepskip) m_stepskip asmctx =
      (passesRun K m_stepskip).foldl (fun ctx p => work p ctx) asmctx ∧
    (passesRun K m_stepskip).Sublist
      [.ComputeDevBlocks, .ComputeSwitchBlocks, .ComputeForEachBlocks, .ComputeWhileBlocks,
        .ComputeForBlocks, .ComputeIfBlocks, .ComputeReturnJump, .ComputeBoolReturn,
        .ComputeSpecialPattern] ∧
    (∀ p bit, (p, bit) ∈ ninePasses K →
      (p ∈ passesRun K m_stepskip ↔ m_stepskip &&& bit = 0)) := by
  refine ⟨?_, ?_, ?_⟩
  · simp only [reconstruct, callPass, ComputeSpecialPattern, passesRun, ninePasses,
      foldl_filter_map, gatedPasses, List.cons_append, List.nil_append, List.foldl_cons,
      List.foldl_nil, decide_eq_true_eq]
  · have hs : ((ninePasses K).filter
        (fun pb => decide (m_stepskip &&& pb.2 = 0))).Sublist (ninePasses K) :=
      List.filter_sublist _
    have hm := hs.map Prod.fst
    simpa [passesRun, ninePasses, gatedPasses] using hm
  · intro p bit hp
    have huniq : ∀ b, (p, b) ∈ ninePasses K → b = bit := by
      intro b hb
      simp only [ninePasses, gatedPasses, List.cons_append, List.nil_append, List.mem_cons,
        Prod.mk.injEq, List.mem_singleton, List.not_mem_nil, or_false] at hp hb
      rcases hp with h | h | h | h | h | h | h | h | h <;> obtain ⟨rfl, rfl⟩ := h <;>
        simpa using hb
    simp only [passesRun, List.mem_map, List.mem_filter, decide_eq_true_eq]
    constructor
    · rintro ⟨⟨p1, b⟩, ⟨hmem, hclear⟩, rfl⟩
      rw [← huniq b hmem]
      exact hclear
    · intro hclear
      exact ⟨(p, bit), ⟨hp, hclear⟩, rfl⟩

end GSC
